import Mathlib

/-!
# Distributed heat-transfer stencil engine (`src/mpi`, `src/hybrid`, `src/cuda`)

Shallow embedding of `HeatMap` (`src/mpi/heat_map.h`), `MPIWrapper`
(`src/mpi/mpi_wrapper.h`), the main loop of `HeatTransfer::Run`
(`src/hybrid/heat_transfer.h`), the grid initialisation of the single-node
variant (`src/cuda/heat_transfer.h`) and its command line
(`src/cuda/argparse.h`, `src/cuda/cuda.cc`).

Conventions of the embedding

* `unsigned int` values are natural numbers; every arithmetic operation the
  source performs on them is reduced with `u32` (modulo `2^32`), subtraction
  is `usub`.  `int` values are integers.
* `double` cells are rationals.  The update rule is computed in exact
  arithmetic (`0.1` is `1/10`).  In the convergence test the threshold is the
  exact value of the `float` literal `0.001f` and the `double` subtraction is
  a parameter.
* A buffer `grids_[g]` is a map from linear element offsets to values: the
  memory reached through the pointer.  The number of elements `Init`
  allocates is `HeatMap.block_size`; an offset at or beyond it lies outside
  the allocation.
* The local array `val` of `CellUpdate` is not initialised by the source; its
  contents at entry are an explicit argument.
-/

namespace heat_transfer

/-! ## Machine arithmetic -/

/-- Number of values of the C type `unsigned int` (32 bits). -/
def UINT_MOD : Nat := 4294967296

/-- Result of an `unsigned int` operation: the mathematical result modulo `2^32`. -/
def u32 (n : Nat) : Nat := n % UINT_MOD

/-- Subtraction `a - b` of two `unsigned int` values. -/
def usub (a b : Nat) : Nat := u32 (u32 a + UINT_MOD - u32 b)

/-- Conversion of an `int` to `unsigned int`. -/
def toUInt (z : Int) : Nat := (z % (UINT_MOD : Int)).toNat

/-- The loop `for (unsigned int i = start; i != stop; ++i) body(i);` where
`fuel` bounds the number of times the loop test is evaluated.  The increment
wraps modulo `2^32` as `++i` does on an `unsigned int`. -/
def forUIntFuel {σ : Type} (body : Nat → σ → σ) (stop : Nat) : Nat → Nat → σ → σ
  | 0, _, s => s
  | fuel + 1, i, s =>
    if i = stop then s else forUIntFuel body stop fuel (u32 (i + 1)) (body i s)

/-- The loop `for (unsigned int i = start; i != stop; ++i) body(i);`.  An
`unsigned int` counter reaches any `stop` value after fewer than `2^32`
increments, so `2^32` evaluations of the test always suffice
(`forUInt_eq_iterFrom`). -/
def forUInt {σ : Type} (start stop : Nat) (body : Nat → σ → σ) (s : σ) : σ :=
  forUIntFuel body stop UINT_MOD start s

/-- Running `body` on `n` consecutive `unsigned int` counter values starting
from `i` (proof device: the unrolled form of `forUInt`). -/
def iterFrom {σ : Type} (body : Nat → σ → σ) : Nat → Nat → σ → σ
  | 0, _, s => s
  | n + 1, i, s => iterFrom body n (u32 (i + 1)) (body i s)

/-! ## `mpi_wrapper.h` -/

/-- The enum `CHANNEL`. -/
inductive CHANNEL where
  | LEFT
  | TOP
  | RIGHT
  | BOTTOM
  deriving DecidableEq, Repr

/-- The enum `DIRECTION`. -/
inductive DIRECTION where
  | IN
  | OUT
  deriving DecidableEq, Repr

/-- The enum `TAG` : `LEFT_SEND = 10`. -/
def LEFT_SEND : Int := 10
/-- The enum `TAG` : `UP_SEND` follows `LEFT_SEND`. -/
def UP_SEND : Int := 11
/-- The enum `TAG` : `RIGHT_SEND` follows `UP_SEND`. -/
def RIGHT_SEND : Int := 12
/-- The enum `TAG` : `DOWN_SEND` follows `RIGHT_SEND`. -/
def DOWN_SEND : Int := 13
/-- The enum `TAG` : `RIGHT_RECV = LEFT_SEND`. -/
def RIGHT_RECV : Int := LEFT_SEND
/-- The enum `TAG` : `DOWN_RECV` follows `RIGHT_RECV`. -/
def DOWN_RECV : Int := 11
/-- The enum `TAG` : `LEFT_RECV` follows `DOWN_RECV`. -/
def LEFT_RECV : Int := 12
/-- The enum `TAG` : `UP_RECV` follows `LEFT_RECV`. -/
def UP_RECV : Int := 13

/-- Element type of a transfer: `MPI_DOUBLE`, or the committed vector type
`column_t_` built by `CreateTypes` as
`MPI_Type_vector(block_height_, 1, block_width_ + 2, MPI_DOUBLE, &column_t_)`. -/
inductive Datatype where
  | MPI_DOUBLE
  | column_t (count blocklength stride : Int)
  deriving DecidableEq, Repr

/-- Arguments of one `MPI_Isend` / `MPI_Irecv` call: the request it creates.
`buf` is the element offset of the buffer address inside the working grid. -/
structure Request where
  buf : Nat
  count : Int
  datatype : Datatype
  peer : Int
  tag : Int
  deriving DecidableEq, Repr

/-- Fields of `MPIWrapper`.  A neighbour equal to `MPI_PROC_NULL` is `none`;
`requests_` holds the outstanding request of every channel and direction. -/
structure MPIWrapper where
  rank_ : Int
  comm_sz_ : Int
  topology_height_ : Int
  topology_width_ : Int
  topology_coord_x_ : Int
  topology_coord_y_ : Int
  block_height_ : Int
  block_width_ : Int
  neighbors_ : CHANNEL → Option Int
  requests_ : CHANNEL → DIRECTION → Option Request
  column_t_ : Datatype

/-- What the MPI library answers during `CreateTopology`: the factorisation
of `MPI_Dims_create`, and the rank, coordinates and shifted neighbours in the
Cartesian communicator. -/
structure CartEnv where
  d0 : Int
  d1 : Int
  cart_rank : Int
  coord_x : Int
  coord_y : Int
  shift : CHANNEL → Option Int

/-- The answers of the MPI library for a run with a single process: the
factorisation `1 x 1`, rank 0 at coordinates `(0, 0)`, no neighbour. -/
def soloEnv : CartEnv :=
  ⟨1, 1, 0, 0, 0, fun _ => none⟩

/-- Lines written to `stderr` by `CreateTopology`. -/
inductive Diagnostic where
  | incompatible
  | triedToSplit (height width d0 d1 : Int)
  deriving DecidableEq, Repr

/-- Outcome of `CreateTopology`: either the whole worker group is aborted
(`MPI_Abort(MPI_COMM_WORLD, 1)`), or the call returns `0` with the wrapper
updated.  `stderr` lists what this worker printed. -/
inductive TopologyResult where
  | aborted (errorcode : Int) (stderr : List Diagnostic)
  | returned (status : Int) (w : MPIWrapper)

/-- Whether `CreateTopology` took the abort path. -/
def TopologyResult.isAborted : TopologyResult → Bool
  | TopologyResult.aborted _ _ => true
  | TopologyResult.returned _ _ => false

/-- What `CreateTopology` printed on `stderr`. -/
def TopologyResult.diagnostics : TopologyResult → List Diagnostic
  | TopologyResult.aborted _ err => err
  | TopologyResult.returned _ _ => []

namespace MPIWrapper

/-- `MPIWrapper::HasNeighbor`. -/
def HasNeighbor (w : MPIWrapper) (ch : CHANNEL) : Bool :=
  (w.neighbors_ ch).isSome

/-- `MPIWrapper::AssignNeighbors`: the two `MPI_Cart_shift` calls. -/
def AssignNeighbors (w : MPIWrapper) (env : CartEnv) : MPIWrapper :=
  { w with neighbors_ := env.shift }

/-- `MPIWrapper::CreateTypes`. -/
def CreateTypes (w : MPIWrapper) : MPIWrapper :=
  { w with column_t_ := Datatype.column_t w.block_height_ 1 (w.block_width_ + 2) }

/-- `MPIWrapper::CreateTopology`.  `%` and `/` on `int` truncate toward zero. -/
def CreateTopology (w : MPIWrapper) (env : CartEnv) (height width : Int) : TopologyResult :=
  if Int.tmod height env.d0 ≠ 0 ∨ Int.tmod width env.d1 ≠ 0 then
    TopologyResult.aborted 1
      (if w.rank_ = 0 then
        [Diagnostic.incompatible, Diagnostic.triedToSplit height width env.d0 env.d1]
       else [])
  else
    let w1 := { w with topology_height_ := env.d0, topology_width_ := env.d1 }
    let w2 := { w1 with rank_ := env.cart_rank,
                        topology_coord_x_ := env.coord_x,
                        topology_coord_y_ := env.coord_y }
    let w3 := { w2 with block_height_ := Int.tdiv height w2.topology_height_,
                        block_width_ := Int.tdiv width w2.topology_width_ }
    TopologyResult.returned 0 (CreateTypes (AssignNeighbors w3 env))

/-- `MPIWrapper::Init`: the rank and size of `MPI_COMM_WORLD` are stored and
the four neighbours are set to `MPI_PROC_NULL`. -/
def Init (w : MPIWrapper) (rank size : Int) : Int × MPIWrapper :=
  (0, { w with rank_ := rank, comm_sz_ := size, neighbors_ := fun _ => none })

/-- A wrapper object before `Init`: the fields the constructor leaves
unset are fixed to zero, no neighbour, no request. -/
def blank : MPIWrapper :=
  ⟨0, 0, 0, 0, 0, 0, 0, 0, fun _ => none, fun _ _ => none, Datatype.MPI_DOUBLE⟩

/-- The wrapper of the only worker of a one-process run on a
`height x width` grid, as `Init` and `CreateTopology` leave it
(`CreateTopology_solo`). -/
def solo (height width : Int) : MPIWrapper :=
  ⟨0, 1, 1, 1, 0, 0, height, width, fun _ => none, fun _ _ => none,
    Datatype.column_t height 1 (width + 2)⟩

/-- Element count and type chosen by `Send` and `Receive` for a channel. -/
def countAndType (w : MPIWrapper) (ch : CHANNEL) : Int × Datatype :=
  match ch with
  | CHANNEL.LEFT => (1, w.column_t_)
  | CHANNEL.RIGHT => (1, w.column_t_)
  | CHANNEL.TOP => (w.block_width_, Datatype.MPI_DOUBLE)
  | CHANNEL.BOTTOM => (w.block_width_, Datatype.MPI_DOUBLE)

/-- `MPIWrapper::Send`: posts `MPI_Isend` only if there is a neighbour. -/
def Send (w : MPIWrapper) (buf : Nat) (ch : CHANNEL) (tag : Int) : Int × MPIWrapper :=
  match w.neighbors_ ch with
  | some dest =>
    let ct := countAndType w ch
    (0, { w with requests_ := fun c d =>
            if c = ch ∧ d = DIRECTION.OUT then some ⟨buf, ct.1, ct.2, dest, tag⟩
            else w.requests_ c d })
  | none => (0, w)

/-- `MPIWrapper::Receive`: posts `MPI_Irecv` only if there is a neighbour. -/
def Receive (w : MPIWrapper) (buf : Nat) (ch : CHANNEL) (tag : Int) : Int × MPIWrapper :=
  match w.neighbors_ ch with
  | some source =>
    let ct := countAndType w ch
    (0, { w with requests_ := fun c d =>
            if c = ch ∧ d = DIRECTION.IN then some ⟨buf, ct.1, ct.2, source, tag⟩
            else w.requests_ c d })
  | none => (0, w)

/-- `MPIWrapper::Wait`: with a neighbour, both requests of the channel are
completed (the outgoing one first) and released; the completed receive is
returned so that its data can be stored in the grid. -/
def Wait (w : MPIWrapper) (ch : CHANNEL) : Int × MPIWrapper × Option Request :=
  if w.HasNeighbor ch then
    (0, { w with requests_ := fun c d => if c = ch then none else w.requests_ c d },
      w.requests_ ch DIRECTION.IN)
  else (0, w, none)

end MPIWrapper

/-- Element displacements described by one item of a datatype. -/
def Datatype.displacements : Datatype → List Nat
  | Datatype.MPI_DOUBLE => [0]
  | Datatype.column_t count blocklength stride =>
    (List.range count.toNat).flatMap
      (fun k => (List.range blocklength.toNat).map (fun b => k * stride.toNat + b))

/-- Extent of a datatype, in elements. -/
def Datatype.extent : Datatype → Nat
  | Datatype.MPI_DOUBLE => 1
  | Datatype.column_t count blocklength stride =>
    (count.toNat - 1) * stride.toNat + blocklength.toNat

/-- Element offsets (inside the working grid) a request reads or writes, in
transmission order. -/
def Request.offsets (r : Request) : List Nat :=
  (List.range r.count.toNat).flatMap
    (fun c => r.datatype.displacements.map (fun d => r.buf + c * r.datatype.extent + d))

/-- Storing received values `data 0, data 1, ...` at the given offsets. -/
def storeAt (m : Nat → ℚ) : List Nat → (Nat → ℚ) → Nat → Nat → ℚ
  | [], _, _ => m
  | o :: os, data, k => storeAt (Function.update m o (data k)) os data (k + 1)

/-! ## `heat_map.h` -/

/-- Fields of `HeatMap`.  `grids_ g k` is the element at offset `k` of the
memory `grids_[g]` points to. -/
structure HeatMap where
  grids_ : Int → Nat → ℚ
  working_grid_ : Int
  block_height_ : Nat
  block_width_ : Nat

namespace HeatMap

/-- The element count `block_size` of `Init`:
`unsigned int block_size = (block_height_ + 2) * (block_width_ + 2);`. -/
def block_size (block_height block_width : Nat) : Nat :=
  u32 (u32 (block_height + 2) * u32 (block_width + 2))

/-- The element offset `i*(block_width_+2) + j` added to `gridp` by the two
accessors: the product is an `unsigned int`, the sum is pointer arithmetic. -/
def cellOffset (s : HeatMap) (i j : Nat) : Nat :=
  u32 (i * u32 (s.block_width_ + 2)) + j

/-- `HeatMap::GetCellValue`.  The argument `val` is the content of `*val`
before the call; the result is the status and the content of `*val` after. -/
def GetCellValue (s : HeatMap) (i j : Nat) (grid : Int) (val : ℚ) : Int × ℚ :=
  if ¬ (i < u32 (s.block_height_ + 2)) ∨ i < 0 ∨ ¬ (j < u32 (s.block_width_ + 2)) ∨ j < 0 then
    (1, val)
  else if grid < 0 ∨ grid > 1 then
    (1, val)
  else
    (0, s.grids_ grid (cellOffset s i j))

/-- The assignment `*(gridp + k) = val` with `gridp = grids_[grid]`. -/
def store (s : HeatMap) (grid : Int) (k : Nat) (val : ℚ) : HeatMap :=
  { s with grids_ := Function.update s.grids_ grid (Function.update (s.grids_ grid) k val) }

/-- `HeatMap::SetCellValue`. -/
def SetCellValue (s : HeatMap) (i j : Nat) (grid : Int) (val : ℚ) : Int × HeatMap :=
  if ¬ (i < u32 (s.block_height_ + 2)) ∨ i < 0 ∨ ¬ (j < u32 (s.block_width_ + 2)) ∨ j < 0 then
    (1, s)
  else if grid < 0 ∨ grid > 1 then
    (1, s)
  else
    (0, store s grid (cellOffset s i j) val)

/-- The cell `grid[i][j]` of buffer `grid`: the element the accessors
dereference for `(i, j)`. -/
def cell (s : HeatMap) (grid : Int) (i j : Nat) : ℚ :=
  s.grids_ grid (cellOffset s i j)

/-- The update rule of the specification (section 4.4), with `α = 1/10`, on a
field `old` indexed by row and column. -/
def jacobi (old : Nat → Nat → ℚ) (i j : Nat) : ℚ :=
  old i j
    + (1 / 10 : ℚ) * (old (i - 1) j + old (i + 1) j - 2 * old i j)
    + (1 / 10 : ℚ) * (old i (j - 1) + old i (j + 1) - 2 * old i j)

/-- The value `new_val` computed by `CellUpdate(i, j)`.  `val` is the content
of the uninitialised local array `double val[4]` at entry: a failing
`GetCellValue` leaves its output untouched.  `old_val` starts at `0.0`. -/
def new_val (s : HeatMap) (i j : Nat) (val : CHANNEL → ℚ) : ℚ :=
  let wg := s.working_grid_
  let old_val := (GetCellValue s i j wg 0).2
  let vLEFT := (GetCellValue s i (usub j 1) wg (val CHANNEL.LEFT)).2
  let vTOP := (GetCellValue s (usub i 1) j wg (val CHANNEL.TOP)).2
  let vRIGHT := (GetCellValue s i (u32 (j + 1)) wg (val CHANNEL.RIGHT)).2
  let vBOTTOM := (GetCellValue s (u32 (i + 1)) j wg (val CHANNEL.BOTTOM)).2
  old_val
    + (1 / 10 : ℚ) * (vTOP + vBOTTOM - 2 * old_val)
    + (1 / 10 : ℚ) * (vRIGHT + vLEFT - 2 * old_val)

/-- `HeatMap::CellUpdate`: reads through `GetCellValue` from the working grid
`wg`, writes `new_val` through `SetCellValue` to the grid `g = 1 - wg`, and
returns `0`; the statuses of the accessors are discarded as in the source. -/
def CellUpdate (s : HeatMap) (i j : Nat) (val : CHANNEL → ℚ) : Int × HeatMap :=
  let g := 1 - s.working_grid_
  (0, (SetCellValue s i j g (new_val s i j val)).2)

/-- Contents of the local array of `CellUpdate` at entry, for each call
`CellUpdate(i, j)`. -/
abbrev Stack := Nat → Nat → CHANNEL → ℚ

/-- `HeatMap::StandaloneUpdate`.  The loop bounds `block_height_` and
`block_width_` are not assigned by the body. -/
def StandaloneUpdate (s : HeatMap) (stk : Stack) : Int × HeatMap :=
  (0, forUInt 2 s.block_height_
        (fun i s1 => forUInt 2 s.block_width_
          (fun j s2 => (CellUpdate s2 i j (stk i j)).2) s1) s)

/-- `HeatMap::CollaborativeUpdate`. -/
def CollaborativeUpdate (s : HeatMap) (stk : Stack) : Int × HeatMap :=
  let s1 := forUInt 1 (u32 (1 + s.block_width_))
    (fun j t => (CellUpdate (CellUpdate t 1 j (stk 1 j)).2
                  s.block_height_ j (stk s.block_height_ j)).2) s
  let s2 := forUInt 1 (u32 (1 + s.block_height_))
    (fun i t => (CellUpdate (CellUpdate t i 1 (stk i 1)).2
                  i s.block_width_ (stk i s.block_width_)).2) s1
  (0, s2)

/-- `HeatMap::ExchangeGrids`. -/
def ExchangeGrids (s : HeatMap) : HeatMap :=
  { s with working_grid_ := 1 - s.working_grid_ }

/-- The product `z * n` of an `int` and an `unsigned int`: the `int` is
converted and the product is an `unsigned int`.  `Init` computes the global
extents `x`, `y` and the offsets `off_x`, `off_y` this way. -/
def imul (z : Int) (n : Nat) : Nat := u32 (toUInt z * n)

/-- The global index `i-1+off` of the local index `i` in `Init`. -/
def globalIndex (off i : Nat) : Nat := u32 (usub i 1 + off)

/-- The initial value `val` computed in `Init` for the local cell `(i, j)`:
`(i+off_x) * (x - (i-1+off_x)) * (j+off_y) * (y - (j-1+off_y))`, an
`unsigned int` expression (every operation modulo `2^32`). -/
def initVal (x y off_x off_y i j : Nat) : Nat :=
  u32 (u32 (u32 (u32 (i + off_x) * usub x (globalIndex off_x i))
        * u32 (j + off_y))
    * usub y (globalIndex off_y j))

/-- The inner allocation loop of `Init` on one buffer:
`for (unsigned int i = 0; i != block_size; ++i) grids_[g][i] = 0.0;`. -/
def zeroFill (block_size : Nat) (gridp : Nat → ℚ) : Nat → ℚ :=
  forUInt 0 block_size (fun i m => Function.update m i 0) gridp

/-- The allocation loop of `Init`: for `g = 0, 1` the buffer `grids_[g]` is
`new double[block_size]`, zero-filled.  The first `block_size` elements of
the memory are the allocation; what lies beyond is left as it is. -/
def allocGrids (s : HeatMap) (block_size : Nat) : HeatMap :=
  forUInt 0 2
    (fun g t => { t with grids_ := Function.update t.grids_ (g : Int) (zeroFill block_size (t.grids_ (g : Int))) })
    s

/-- The loop of `Init` that fills the initial values:
`SetCellValue(i, j, 0, val)` for `i` from `1` to `block_height_` and `j` from
`1` to `block_width_`; `val` is converted from `unsigned int` to `double`. -/
def fillInitial (s : HeatMap) (x y off_x off_y : Nat) : HeatMap :=
  forUInt 1 (u32 (1 + s.block_height_))
    (fun i t => forUInt 1 (u32 (1 + s.block_width_))
      (fun j t1 => (SetCellValue t1 i j 0 ((initVal x y off_x off_y i j : Nat) : ℚ)).2) t) s

/-- `HeatMap::Init`.  The `int` arguments are converted to the `unsigned int`
fields; `topology_height()` and the other three getters return `int`, which
the multiplication by an `unsigned int` converts to `unsigned int`. -/
def Init (s : HeatMap) (block_height block_width : Int) (w : MPIWrapper) : Int × HeatMap :=
  let s1 := { s with block_height_ := toUInt block_height, block_width_ := toUInt block_width }
  let s2 := allocGrids s1 (block_size s1.block_height_ s1.block_width_)
  let x := imul w.topology_height_ s2.block_height_
  let y := imul w.topology_width_ s2.block_width_
  let off_x := imul w.topology_coord_x_ s2.block_height_
  let off_y := imul w.topology_coord_y_ s2.block_width_
  (0, fillInitial s2 x y off_x off_y)

/-- `HeatMap::ExchangeMessages`: the eight `Send` / `Receive` calls; the
addresses are element offsets from `grids_[working_grid_]`. -/
def ExchangeMessages (s : HeatMap) (w : MPIWrapper) : Int × MPIWrapper :=
  let bw2 := u32 (s.block_width_ + 2)
  let w1 := (w.Send (bw2 + 1) CHANNEL.LEFT LEFT_SEND).2
  let w2 := (w1.Receive bw2 CHANNEL.LEFT LEFT_RECV).2
  let w3 := (w2.Send (bw2 + 1) CHANNEL.TOP UP_SEND).2
  let w4 := (w3.Receive 1 CHANNEL.TOP UP_RECV).2
  let w5 := (w4.Send (usub (u32 (2 * bw2)) 2) CHANNEL.RIGHT RIGHT_SEND).2
  let w6 := (w5.Receive (usub (u32 (2 * bw2)) 1) CHANNEL.RIGHT RIGHT_RECV).2
  let w7 := (w6.Send (u32 (s.block_height_ * bw2) + 1) CHANNEL.BOTTOM DOWN_SEND).2
  let w8 := (w7.Receive (u32 (u32 (s.block_height_ + 1) * bw2) + 1) CHANNEL.BOTTOM DOWN_RECV).2
  (0, w8)

/-- Completion of one channel inside `WaitForMessages`: `Wait(ch)`, after
which the data `incoming ch` sent by the neighbour is in the receive buffer. -/
def waitChannel (sw : HeatMap × MPIWrapper) (incoming : CHANNEL → Nat → ℚ) (ch : CHANNEL) :
    HeatMap × MPIWrapper :=
  let r := sw.2.Wait ch
  match r.2.2 with
  | some req =>
    let gridp := storeAt (sw.1.grids_ sw.1.working_grid_) req.offsets (incoming ch) 0
    ({ sw.1 with grids_ := Function.update sw.1.grids_ sw.1.working_grid_ gridp }, r.2.1)
  | none => (sw.1, r.2.1)

/-- `HeatMap::WaitForMessages`. -/
def WaitForMessages (s : HeatMap) (w : MPIWrapper) (incoming : CHANNEL → Nat → ℚ) :
    Int × HeatMap × MPIWrapper :=
  let r1 := waitChannel (s, w) incoming CHANNEL.LEFT
  let r2 := waitChannel r1 incoming CHANNEL.TOP
  let r3 := waitChannel r2 incoming CHANNEL.RIGHT
  let r4 := waitChannel r3 incoming CHANNEL.BOTTOM
  (0, r4)

/-- One pass of the pipeline in the body of the main loop of
`HeatTransfer::Run`: `ExchangeMessages`, `StandaloneUpdate`,
`WaitForMessages`, `CollaborativeUpdate`, `ExchangeGrids`.  (The
convergence test between the last two steps does not modify the heat map.) -/
def pipelineStep (sw : HeatMap × MPIWrapper) (stk : Stack) (incoming : CHANNEL → Nat → ℚ) :
    HeatMap × MPIWrapper :=
  let w1 := (ExchangeMessages sw.1 sw.2).2
  let s1 := (StandaloneUpdate sw.1 stk).2
  let r := (WaitForMessages s1 w1 incoming).2
  let s2 := (CollaborativeUpdate r.1 stk).2
  (ExchangeGrids s2, r.2)

/-- The pipeline run `n` times, starting at iteration number `i`; `stk i`
and `incoming i` are the stack contents and the received data of iteration `i`. -/
def pipelineSteps (stk : Nat → Stack) (incoming : Nat → CHANNEL → Nat → ℚ) :
    Nat → Nat → HeatMap × MPIWrapper → HeatMap × MPIWrapper
  | 0, _, sw => sw
  | n + 1, i, sw =>
    pipelineSteps stk incoming n (i + 1) (pipelineStep sw (stk i) (incoming i))

/-- Loop invariant of the stencil passes started in state `s0`: the working
grid indicator, the block dimensions and the whole working grid are those of
`s0`. -/
def SweepInv (s0 t : HeatMap) : Prop :=
  t.working_grid_ = s0.working_grid_ ∧ t.block_height_ = s0.block_height_ ∧
  t.block_width_ = s0.block_width_ ∧ t.grids_ s0.working_grid_ = s0.grids_ s0.working_grid_

/-- The cell `(a, b)` of the other grid holds the value the update rule gives
on the working grid of `s0` (and the loop invariant holds). -/
def Updated (s0 : HeatMap) (a b : Nat) (t : HeatMap) : Prop :=
  SweepInv s0 t ∧
  t.grids_ (1 - s0.working_grid_) (cellOffset s0 a b) = jacobi (cell s0 s0.working_grid_) a b

/-- Loop invariant of the filling loop of `Init` started in state `s0`: the
fields other than buffer 0 are those of `s0`. -/
def FillInv (s0 t : HeatMap) : Prop :=
  t.working_grid_ = s0.working_grid_ ∧ t.block_height_ = s0.block_height_ ∧
  t.block_width_ = s0.block_width_ ∧ ∀ g : Int, g ≠ 0 → t.grids_ g = s0.grids_ g

/-- The state of `Init` after the allocation loop (proof device): both
buffers zero-filled, the block dimensions stored. -/
def allocated (s : HeatMap) (bh bw : Nat) : HeatMap :=
  HeatMap.mk
    (Function.update (Function.update s.grids_ 0 (zeroFill (block_size bh bw) (s.grids_ 0))) 1
      (zeroFill (block_size bh bw) (s.grids_ 1)))
    s.working_grid_ bh bw

/-- Every ghost cell (row `0`, row `block_height_+1`, column `0`, column
`block_width_+1`) of both buffers holds zero. -/
def GhostZero (s : HeatMap) : Prop :=
  ∀ g : Int, g = 0 ∨ g = 1 → ∀ a b : Nat, a < s.block_height_ + 2 → b < s.block_width_ + 2 →
    (a = 0 ∨ a = s.block_height_ + 1 ∨ b = 0 ∨ b = s.block_width_ + 1) → cell s g a b = 0

/-- A `1 x 3` block (working grid 0) whose two buffers are zero everywhere. -/
def zeroBlock13 : HeatMap :=
  HeatMap.mk (fun _ _ => 0) 0 1 3

/-- The block `zeroBlock13` with the ghost cell `(2, 1)` of the working
buffer (offset `2*5 + 1 = 11`) set to `1`. -/
def markedBlock13 : HeatMap :=
  HeatMap.mk (fun g k => if g = 0 ∧ k = 11 then 1 else 0) 0 1 3

/-- The state built by the constructor `HeatMap()`: working grid 0 and zero
block dimensions.  The pointers are `NULL`; `mem` is the memory the buffers
will later occupy. -/
def new (mem : Int → Nat → ℚ) : HeatMap :=
  { grids_ := mem, working_grid_ := 0, block_height_ := 0, block_width_ := 0 }

end HeatMap

/-! ## The transfers posted by `ExchangeMessages` -/

namespace HeatMap

/-- The tag `ExchangeMessages` passes to `Send` on each channel
(`ExchangeMessages_requests`). -/
def sendTag : CHANNEL → Int
  | CHANNEL.LEFT => LEFT_SEND
  | CHANNEL.TOP => UP_SEND
  | CHANNEL.RIGHT => RIGHT_SEND
  | CHANNEL.BOTTOM => DOWN_SEND

/-- The tag `ExchangeMessages` passes to `Receive` on each channel. -/
def recvTag : CHANNEL → Int
  | CHANNEL.LEFT => LEFT_RECV
  | CHANNEL.TOP => UP_RECV
  | CHANNEL.RIGHT => RIGHT_RECV
  | CHANNEL.BOTTOM => DOWN_RECV

/-- The element offset `ExchangeMessages` passes to `Send` on each channel. -/
def sendBuf (s : HeatMap) : CHANNEL → Nat
  | CHANNEL.LEFT => u32 (s.block_width_ + 2) + 1
  | CHANNEL.TOP => u32 (s.block_width_ + 2) + 1
  | CHANNEL.RIGHT => usub (u32 (2 * u32 (s.block_width_ + 2))) 2
  | CHANNEL.BOTTOM => u32 (s.block_height_ * u32 (s.block_width_ + 2)) + 1

/-- The element offset `ExchangeMessages` passes to `Receive` on each channel. -/
def recvBuf (s : HeatMap) : CHANNEL → Nat
  | CHANNEL.LEFT => u32 (s.block_width_ + 2)
  | CHANNEL.TOP => 1
  | CHANNEL.RIGHT => usub (u32 (2 * u32 (s.block_width_ + 2))) 1
  | CHANNEL.BOTTOM => u32 (u32 (s.block_height_ + 1) * u32 (s.block_width_ + 2)) + 1

/-- The request `Send` or `Receive` posts for a channel with neighbour `p`. -/
def posted (w : MPIWrapper) (buf : Nat) (ch : CHANNEL) (p tag : Int) : Request :=
  ⟨buf, (w.countAndType ch).1, (w.countAndType ch).2, p, tag⟩

/-- The cell `(i, j)` is owned: `1 ≤ i ≤ block_height_`, `1 ≤ j ≤ block_width_`. -/
def Owned (s : HeatMap) (i j : Nat) : Prop :=
  1 ≤ i ∧ i ≤ s.block_height_ ∧ 1 ≤ j ∧ j ≤ s.block_width_

/-- A `2 x 2` block (working grid 0), both buffers zero. -/
def zeroBlock22 : HeatMap :=
  HeatMap.mk (fun _ _ => 0) 0 2 2

end HeatMap

namespace HeatMap

/-- The loop nest of `StandaloneUpdate`, with `visit i j` in the place of the
call `CellUpdate(i, j)`. -/
def standaloneLoop {σ : Type} (bh bw : Nat) (visit : Nat → Nat → σ → σ) (s : σ) : σ :=
  forUInt 2 bh (fun i s1 => forUInt 2 bw (fun j s2 => visit i j s2) s1) s

/-- The two loops of `CollaborativeUpdate`, with `visit i j` in the place of
the call `CellUpdate(i, j)`. -/
def collaborativeLoop {σ : Type} (bh bw : Nat) (visit : Nat → Nat → σ → σ) (s : σ) : σ :=
  forUInt 1 (u32 (1 + bh)) (fun i t => visit i bw (visit i 1 t))
    (forUInt 1 (u32 (1 + bw)) (fun j t => visit bh j (visit 1 j t)) s)

/-- Recording a call `CellUpdate(i, j)` in a list of calls. -/
def record (i j : Nat) (calls : List (Nat × Nat)) : List (Nat × Nat) :=
  calls ++ [(i, j)]

/-- The calls `CellUpdate(i, j)` made by `StandaloneUpdate` on a block of
`bh x bw` cells, in order. -/
def standaloneCalls (bh bw : Nat) (calls : List (Nat × Nat)) : List (Nat × Nat) :=
  standaloneLoop bh bw record calls

/-- The calls `CellUpdate(i, j)` made by `CollaborativeUpdate`, in order. -/
def collaborativeCalls (bh bw : Nat) (calls : List (Nat × Nat)) : List (Nat × Nat) :=
  collaborativeLoop bh bw record calls

/-- The calls `CellUpdate(i, j)` of one full iteration: `StandaloneUpdate`
followed by `CollaborativeUpdate`. -/
def iterationCalls (bh bw : Nat) : List (Nat × Nat) :=
  collaborativeCalls bh bw (standaloneCalls bh bw [])

/-- Number of calls `CellUpdate(a, b)` the loops make for an owned cell:
one for each of the loop positions that reach it. -/
def callCount (bh bw a b : Nat) : Nat :=
  (if 2 ≤ a ∧ a < bh ∧ 2 ≤ b ∧ b < bw then 1 else 0)
    + ((if a = 1 then 1 else 0) + (if a = bh then 1 else 0))
    + ((if b = 1 then 1 else 0) + (if b = bw then 1 else 0))

end HeatMap

/-! ## The convergence test -/

/-- The loop `for (unsigned int i = start; i != stop; ++i) body(i);` whose
body may execute `return r;`: `Except.error r` is the return of `r` from the
enclosing function, `Except.ok s` the normal end of the body. -/
def forUIntFuelRet {σ ρ : Type} (body : Nat → σ → Except ρ σ) (stop : Nat) :
    Nat → Nat → σ → Except ρ σ
  | 0, _, s => Except.ok s
  | fuel + 1, i, s =>
    if i = stop then Except.ok s
    else
      match body i s with
      | Except.error r => Except.error r
      | Except.ok s1 => forUIntFuelRet body stop fuel (u32 (i + 1)) s1

/-- The loop with `return`, with the `2^32` evaluations of the test that
always suffice. -/
def forUIntRet {σ ρ : Type} (start stop : Nat) (body : Nat → σ → Except ρ σ) (s : σ) :
    Except ρ σ :=
  forUIntFuelRet body stop UINT_MOD start s

/-- A body with `return` run on a state that may already have returned. -/
def passRet {σ ρ : Type} (body : Nat → σ → Except ρ σ) (i : Nat) : Except ρ σ → Except ρ σ
  | Except.error r => Except.error r
  | Except.ok s => body i s

namespace HeatMap

/-- The threshold `0.001f` of `CheckConvergence`: a `float` literal, the
single-precision number nearest to `0.001`, which is `8589935 / 2^33`
(mantissa `2^23 + 201327`, exponent `-10`) and lies above `1/1000`.  The
comparison with a `double` converts it to `double` without changing it. -/
def EPSILON : ℚ := 8589935 / 8589934592

/-- The test `std::fabs(val1 - val2) < 0.001f` on the cell `(i, j)`, after the
two `GetCellValue` calls; `v` holds `val1`, `val2` before them.  A hit is
`*converged = 1; return 0;`.  `dsub` is the subtraction of two `double`
values as the machine performs it (the difference, rounded to `double`);
`std::fabs` and the comparison are exact. -/
def convergenceBody (s : HeatMap) (dsub : ℚ → ℚ → ℚ) (i j : Nat) (v : ℚ × ℚ) :
    Except (Int × Int) (ℚ × ℚ) :=
  let val1 := (GetCellValue s i j s.working_grid_ v.1).2
  let val2 := (GetCellValue s i j (1 - s.working_grid_) v.2).2
  if |dsub val1 val2| < EPSILON then Except.error (0, 1) else Except.ok (val1, val2)

/-- `HeatMap::CheckConvergence`: the result is the returned status and the
content of `*converged` at return.  `val1`, `val2` are the contents of the
two uninitialised locals at entry. -/
def CheckConvergence (s : HeatMap) (dsub : ℚ → ℚ → ℚ) (val1 val2 : ℚ) : Int × Int :=
  match forUIntRet 1 (u32 (1 + s.block_height_))
      (fun i v => forUIntRet 1 (u32 (1 + s.block_width_))
        (fun j v1 => convergenceBody s dsub i j v1) v)
      (val1, val2) with
  | Except.error r => r
  | Except.ok _ => (0, 0)

end HeatMap

namespace MPIWrapper

/-- `MPIWrapper::ReduceConvergenceCheck`: `MPI_Allreduce` with `MPI_MIN` on one
`int` per worker of the communicator.  `flags` are the local flags by rank;
the result is the status and the value every worker finds in `*global_flag`. -/
def ReduceConvergenceCheck (flags : List Int) (h : flags ≠ []) : Int × Int :=
  (0, flags.tail.foldl min (flags.head h))

end MPIWrapper

namespace HeatMap

/-- The difference `dsub` computes for the values of the cell `(i, j)` in the
working buffer and in the other buffer is in absolute value less than
`EPSILON`. -/
def UnderEpsilon (s : HeatMap) (dsub : ℚ → ℚ → ℚ) (i j : Nat) : Prop :=
  |dsub (cell s s.working_grid_ i j) (cell s (1 - s.working_grid_) i j)| < EPSILON

instance decUnderEpsilon (s : HeatMap) (dsub : ℚ → ℚ → ℚ) (i j : Nat) :
    Decidable (UnderEpsilon s dsub i j) :=
  inferInstanceAs
    (Decidable
      (|dsub (cell s s.working_grid_ i j) (cell s (1 - s.working_grid_) i j)| < EPSILON))

/-- A `1 x 1` block (working grid 0) whose owned cell `(1, 1)` (offset
`1*3 + 1 = 4`) holds the `double` nearest to `0.001`, which is
`1152921504606847 / 2^60`, in the working buffer and `0` in the other buffer. -/
def thousandthBlock11 : HeatMap :=
  HeatMap.mk
    (fun g k => if g = 0 ∧ k = 4 then 1152921504606847 / 1152921504606846976 else 0)
    0 1 1

/-- A `2 x 2` block (working grid 0) whose working buffer holds `1` at the
owned cell `(2, 2)` (offset `2*4 + 2 = 10`) and `0` elsewhere, and whose other
buffer holds `5` at the four owned cells (offsets `5, 6, 9, 10`) except
`(1, 1)`, where it holds `0`. -/
def mixedBlock22 : HeatMap :=
  HeatMap.mk
    (fun g k => if g = 0 then (if k = 10 then 1 else 0)
      else (if k = 6 ∨ k = 9 ∨ k = 10 then 5 else 0))
    0 2 2

end HeatMap

/-! ## `hybrid/heat_transfer.h`: the main loop -/

namespace hybrid

/-- The calls `HeatTransfer::Run` makes inside its main loop, in order.
`modulus i c` is the evaluation of `i % convergence_check` with divisor `c`;
`reduce i g` is the reduction of iteration `i`, which delivered the global
flag `g`; `report i` is the line
`Convergence was reached after i iterations!` printed by the root. -/
inductive RunEvent where
  | report (i : Nat)
  | stencil (i : Nat)
  | modulus (i c : Nat)
  | scan (i : Nat)
  | reduce (i : Nat) (g : Int)
  | swap (i : Nat)
  deriving DecidableEq

/-- The event is a stencil pass (`ExchangeMessages` ... `CollaborativeUpdate`). -/
def RunEvent.isStencil : RunEvent → Bool
  | RunEvent.stencil _ => true
  | _ => false

/-- The event is a call of `CheckConvergence`. -/
def RunEvent.isScan : RunEvent → Bool
  | RunEvent.scan _ => true
  | _ => false

/-- The event is a call of `ReduceConvergenceCheck`. -/
def RunEvent.isReduce : RunEvent → Bool
  | RunEvent.reduce _ _ => true
  | _ => false

/-- The event is the convergence report. -/
def RunEvent.isReport : RunEvent → Bool
  | RunEvent.report _ => true
  | _ => false

/-- What the run of one worker receives from outside: the contents of the
uninitialised locals (`stk`, `locals`), the data the neighbours send
(`incoming`), and the global flag `reduce i l` the reduction of iteration `i`
delivers when the local flag is `l` (it depends on the other workers).
`dsub` is the subtraction of two `double` values as the machine performs it. -/
structure RunEnv where
  stk : Nat → HeatMap.Stack
  incoming : Nat → CHANNEL → Nat → ℚ
  locals : Nat → ℚ × ℚ
  reduce : Nat → Int → Int
  dsub : ℚ → ℚ → ℚ

/-- The members `heat_map_`, `mpi_wrapper_` and the locals of `Run` that the
loop reads and writes, with the record of the calls made so far.  The two
members are the classes of `src/mpi` (the hybrid directory under `src/` holds
`heat_transfer.h` only). -/
structure RunState where
  heat_map_ : HeatMap
  mpi_wrapper_ : MPIWrapper
  converged_local : Int
  converged_global : Int
  events : List RunEvent

/-- The four calls `ExchangeMessages`, `StandaloneUpdate`, `WaitForMessages`,
`CollaborativeUpdate` at the head of the loop body. -/
def stencilStep (sw : HeatMap × MPIWrapper) (stk : HeatMap.Stack)
    (incoming : CHANNEL → Nat → ℚ) : HeatMap × MPIWrapper :=
  let w1 := (HeatMap.ExchangeMessages sw.1 sw.2).2
  let s1 := (HeatMap.StandaloneUpdate sw.1 stk).2
  let r := (HeatMap.WaitForMessages s1 w1 incoming).2
  let s2 := (HeatMap.CollaborativeUpdate r.1 stk).2
  (s2, r.2)

/-- The body of the main loop after the test of `converged_global`, in
iteration `i`, with `c = convergence_check`. -/
def runBody (env : RunEnv) (c i : Nat) (st : RunState) : RunState :=
  let sw := stencilStep (st.heat_map_, st.mpi_wrapper_) (env.stk i) (env.incoming i)
  let e1 := st.events ++ [RunEvent.stencil i, RunEvent.modulus i c]
  let cl := if i % c = 0 then
      (HeatMap.CheckConvergence sw.1 env.dsub (env.locals i).1 (env.locals i).2).2
    else st.converged_local
  let e2 := if i % c = 0 then e1 ++ [RunEvent.scan i] else e1
  let cg := env.reduce i cl
  RunState.mk (HeatMap.ExchangeGrids sw.1) sw.2 cl cg
    (e2 ++ [RunEvent.reduce i cg, RunEvent.swap i])

/-- Modelled from the spec: the call
`PrintRoot(stdout, "Convergence was reached after %d iterations!\n", i)`.  The
`PrintRoot` with a format argument belongs to the wrapper of the hybrid
variant, which is not under `src/`; as the `PrintRoot` of
`src/mpi/mpi_wrapper.h` does, only the designated root (rank 0) prints. -/
def reportConvergence (st : RunState) (i : Nat) : RunState :=
  if st.mpi_wrapper_.rank_ = 0 then
    RunState.mk st.heat_map_ st.mpi_wrapper_ st.converged_local st.converged_global
      (st.events ++ [RunEvent.report i])
  else st

/-- The main loop `for (int i = 0; i != steps_; ++i)` of `Run`, with `r`
iterations left before `i` reaches `steps_` and `break` when
`converged_global` is set. -/
def runLoop (env : RunEnv) (c : Nat) : Nat → Nat → RunState → RunState
  | 0, _, st => st
  | r + 1, i, st =>
    if st.converged_global ≠ 0 then reportConvergence st i
    else runLoop env c r (i + 1) (runBody env c i st)

/-- `HeatTransfer::Run` up to the end of the main loop, for `steps_ ≥ 0`:
`convergence_check` is `std::sqrt(steps_)` converted to `int`, the integer
square root.  The barrier and the timing around the loop are left out. -/
def Run (env : RunEnv) (steps : Nat) (heat_map : HeatMap) (mpi_wrapper : MPIWrapper) :
    RunState :=
  runLoop env (Nat.sqrt steps) steps 0 (RunState.mk heat_map mpi_wrapper 0 0 [])

/-- The state after `n` complete iterations of the loop body (proof device). -/
def runIterations (env : RunEnv) (c : Nat) (st : RunState) : Nat → RunState
  | 0 => st
  | n + 1 => runBody env c n (runIterations env c st n)

/-- The global flag the reduction of iteration `k` delivers, if the loop gets
that far. -/
def globalFlag (env : RunEnv) (steps : Nat) (heat_map : HeatMap) (mpi_wrapper : MPIWrapper)
    (k : Nat) : Int :=
  (runIterations env (Nat.sqrt steps) (RunState.mk heat_map mpi_wrapper 0 0 []) (k + 1)).converged_global

/-- An environment whose reductions deliver the flags `g 0, g 1, ...`, with
zeroed locals, no incoming data and exact subtraction. -/
def flagsEnv (g : Nat → Int) : RunEnv :=
  RunEnv.mk (fun _ _ _ _ => 0) (fun _ _ _ => 0) (fun _ => (0, 0)) (fun i _ => g i)
    (fun a b => a - b)

end hybrid

/-! ## `cuda/heat_transfer.h` -/

namespace cuda

/-- Fields of the single-node `HeatTransfer`; `grid_ k` is the element at
offset `k` of the memory `grid_` points to. -/
structure HeatTransfer where
  steps_ : Nat
  height_ : Nat
  width_ : Nat
  grid_ : Nat → ℚ

namespace HeatTransfer

/-- `HeatTransfer::GetCellValue`. -/
def GetCellValue (s : HeatTransfer) (i j : Nat) (val : ℚ) : Int × ℚ :=
  if ¬ (i < s.height_) ∨ i < 0 ∨ ¬ (j < s.width_) ∨ j < 0 then (1, val)
  else (0, s.grid_ (u32 (i * s.width_) + j))

/-- `HeatTransfer::SetCellValue`. -/
def SetCellValue (s : HeatTransfer) (i j : Nat) (val : ℚ) : Int × HeatTransfer :=
  if ¬ (i < s.height_) ∨ i < 0 ∨ ¬ (j < s.width_) ∨ j < 0 then (1, s)
  else (0, HeatTransfer.mk s.steps_ s.height_ s.width_
    (Function.update s.grid_ (u32 (i * s.width_) + j) val))

/-- The value `(i + 1) * (height_ - i) * (j + 1) * (width_ - j)` of `InitGrid`,
an `unsigned int` expression. -/
def gridVal (height width i j : Nat) : Nat :=
  u32 (u32 (u32 (u32 (i + 1) * usub height i) * u32 (j + 1)) * usub width j)

/-- `HeatTransfer::InitGrid`; the memory returned by `new double[block_size]`
is the `grid_` of the argument. -/
def InitGrid (s : HeatTransfer) : Int × HeatTransfer :=
  (0, forUInt 0 s.height_
        (fun i t => forUInt 0 s.width_
          (fun j t1 => (SetCellValue t1 i j ((gridVal s.height_ s.width_ i j : Nat) : ℚ)).2) t) s)

/-- `HeatTransfer::Init`; `mem` is the memory the grid will occupy. -/
def Init (mem : Nat → ℚ) (height width steps : Nat) : Int × HeatTransfer :=
  (0, (InitGrid (HeatTransfer.mk steps height width mem)).2)

end HeatTransfer

end cuda

/-! ## `cuda/argparse.h` and `cuda/cuda.cc` -/

/-- Fields of `Argument`. -/
structure Argument where
  option_ : String
  description_ : String
  required_ : Bool

/-- A `ParsedArgument`: the argument and the token stored as its value. -/
structure ParsedArgument where
  arg : Argument
  value_ : String

/-- Fields of `ArgumentParser`; the map `parsed_args_` is a partial function
on option names. -/
structure ArgumentParser where
  prog_name_ : String
  prog_desc_ : String
  args_ : List Argument
  parsed_args_ : String → Option ParsedArgument

namespace ArgumentParser

/-- The constructor `ArgumentParser(prog_name, prog_desc)`. -/
def new (prog_name prog_desc : String) : ArgumentParser :=
  ArgumentParser.mk prog_name prog_desc [] (fun _ => none)

end ArgumentParser

namespace cuda

end cuda

/-! ## Machine arithmetic: basic facts -/

theorem u32_lt (n : Nat) : u32 n < UINT_MOD :=
  Nat.mod_lt _ (by decide)

theorem u32_of_lt {n : Nat} (h : n < UINT_MOD) : u32 n = n :=
  Nat.mod_eq_of_lt h

theorem usub_of_le {a b : Nat} (ha : a < UINT_MOD) (hb : b ≤ a) : usub a b = a - b := by
  simp only [usub, u32, UINT_MOD] at *
  omega

theorem usub_zero_one : usub 0 1 = UINT_MOD - 1 := by
  decide

theorem mul_add_lt_mul {i j h w : Nat} (hi : i < h) (hj : j < w) : i * w + j < h * w := by
  calc i * w + j < i * w + w := by omega
    _ = (i + 1) * w := by ring
    _ ≤ h * w := Nat.mul_le_mul_right w hi

theorem mul_add_inj {w i j a b : Nat} (hj : j < w) (hb : b < w)
    (h : i * w + j = a * w + b) : i = a ∧ j = b := by
  have hw : 0 < w := by omega
  have h1 : (i * w + j) / w = i := by
    rw [Nat.add_comm, Nat.add_mul_div_right _ _ hw, Nat.div_eq_of_lt hj, Nat.zero_add]
  have h2 : (a * w + b) / w = a := by
    rw [Nat.add_comm, Nat.add_mul_div_right _ _ hw, Nat.div_eq_of_lt hb, Nat.zero_add]
  have hia : i = a := by rw [← h1, ← h2, h]
  subst hia
  exact ⟨rfl, by omega⟩

namespace HeatMap

/-! ## The accessors -/

/-- The failure condition of both accessors. -/
theorem accessor_guard (s : HeatMap) (i j : Nat) (grid : Int) :
    ((¬ (i < u32 (s.block_height_ + 2)) ∨ i < 0 ∨ ¬ (j < u32 (s.block_width_ + 2)) ∨ j < 0)
      ∨ (grid < 0 ∨ grid > 1)) ↔
    (u32 (s.block_height_ + 2) ≤ i ∨ u32 (s.block_width_ + 2) ≤ j ∨ ¬ (grid = 0 ∨ grid = 1)) := by
  constructor
  · rintro ((h | h | h | h) | h)
    · exact Or.inl (by omega)
    · omega
    · exact Or.inr (Or.inl (by omega))
    · omega
    · exact Or.inr (Or.inr (by omega))
  · rintro (h | h | h)
    · exact Or.inl (Or.inl (by omega))
    · exact Or.inl (Or.inr (Or.inr (Or.inl (by omega))))
    · exact Or.inr (by omega)

theorem GetCellValue_ok (s : HeatMap) {i j : Nat} {grid : Int} (val : ℚ)
    (hi : i < u32 (s.block_height_ + 2)) (hj : j < u32 (s.block_width_ + 2))
    (hg : grid = 0 ∨ grid = 1) :
    GetCellValue s i j grid val = (0, s.grids_ grid (cellOffset s i j)) := by
  unfold GetCellValue
  rw [if_neg (by omega), if_neg (by omega)]

theorem GetCellValue_fail (s : HeatMap) {i j : Nat} {grid : Int} (val : ℚ)
    (h : u32 (s.block_height_ + 2) ≤ i ∨ u32 (s.block_width_ + 2) ≤ j ∨ ¬ (grid = 0 ∨ grid = 1)) :
    GetCellValue s i j grid val = (1, val) := by
  unfold GetCellValue
  by_cases h1 : ¬ (i < u32 (s.block_height_ + 2)) ∨ i < 0 ∨ ¬ (j < u32 (s.block_width_ + 2)) ∨ j < 0
  · rw [if_pos h1]
  · rw [if_neg h1, if_pos (by omega)]

theorem SetCellValue_ok (s : HeatMap) {i j : Nat} {grid : Int} (val : ℚ)
    (hi : i < u32 (s.block_height_ + 2)) (hj : j < u32 (s.block_width_ + 2))
    (hg : grid = 0 ∨ grid = 1) :
    SetCellValue s i j grid val = (0, store s grid (cellOffset s i j) val) := by
  unfold SetCellValue
  rw [if_neg (by omega), if_neg (by omega)]

theorem SetCellValue_fail (s : HeatMap) {i j : Nat} {grid : Int} (val : ℚ)
    (h : u32 (s.block_height_ + 2) ≤ i ∨ u32 (s.block_width_ + 2) ≤ j ∨ ¬ (grid = 0 ∨ grid = 1)) :
    SetCellValue s i j grid val = (1, s) := by
  unfold SetCellValue
  by_cases h1 : ¬ (i < u32 (s.block_height_ + 2)) ∨ i < 0 ∨ ¬ (j < u32 (s.block_width_ + 2)) ∨ j < 0
  · rw [if_pos h1]
  · rw [if_neg h1, if_pos (by omega)]

/-! ## Frame facts of `store` and `CellUpdate` -/

theorem cell_eq (s : HeatMap) (g : Int) (i j : Nat) :
    cell s g i j = s.grids_ g (cellOffset s i j) :=
  rfl

theorem store_same (s : HeatMap) (g : Int) (k : Nat) (v : ℚ) :
    (store s g k v).grids_ g k = v := by
  simp [store]

theorem store_other (s : HeatMap) (g : Int) (k : Nat) (v : ℚ) (g1 : Int) (k1 : Nat)
    (h : g1 ≠ g ∨ k1 ≠ k) : (store s g k v).grids_ g1 k1 = s.grids_ g1 k1 := by
  unfold store
  by_cases hg : g1 = g
  · subst hg
    have hk : k1 ≠ k := by
      rcases h with h | h
      · exact absurd rfl h
      · exact h
    simp [Function.update_noteq hk]
  · simp [Function.update_noteq hg]

theorem store_other_grid (s : HeatMap) (g : Int) (k : Nat) (v : ℚ) (g1 : Int)
    (h : g1 ≠ g) : (store s g k v).grids_ g1 = s.grids_ g1 := by
  simp [store, Function.update_noteq h]

theorem CellUpdate_inb (s : HeatMap) {i j : Nat} (val : CHANNEL → ℚ)
    (hi : i < u32 (s.block_height_ + 2)) (hj : j < u32 (s.block_width_ + 2))
    (hw : s.working_grid_ = 0 ∨ s.working_grid_ = 1) :
    (CellUpdate s i j val).2
      = store s (1 - s.working_grid_) (cellOffset s i j) (new_val s i j val) := by
  unfold CellUpdate
  simp only []
  rw [SetCellValue_ok s _ hi hj (by omega)]

theorem CellUpdate_oob (s : HeatMap) {i j : Nat} (val : CHANNEL → ℚ)
    (h : u32 (s.block_height_ + 2) ≤ i ∨ u32 (s.block_width_ + 2) ≤ j
      ∨ ¬ (s.working_grid_ = 0 ∨ s.working_grid_ = 1)) :
    (CellUpdate s i j val).2 = s := by
  unfold CellUpdate
  simp only []
  rw [SetCellValue_fail s _ (by omega)]

/-- `CellUpdate` either leaves the state as it is or stores into the other
grid at the offset of the cell. -/
theorem CellUpdate_cases (s : HeatMap) (i j : Nat) (val : CHANNEL → ℚ) :
    (CellUpdate s i j val).2 = s ∨
    (CellUpdate s i j val).2
      = store s (1 - s.working_grid_) (cellOffset s i j) (new_val s i j val) := by
  by_cases h : i < u32 (s.block_height_ + 2) ∧ j < u32 (s.block_width_ + 2)
      ∧ (s.working_grid_ = 0 ∨ s.working_grid_ = 1)
  · exact Or.inr (CellUpdate_inb s val h.1 h.2.1 h.2.2)
  · exact Or.inl (CellUpdate_oob s val (by omega))

theorem CellUpdate_fields (s : HeatMap) (i j : Nat) (val : CHANNEL → ℚ) :
    (CellUpdate s i j val).2.working_grid_ = s.working_grid_ ∧
    (CellUpdate s i j val).2.block_height_ = s.block_height_ ∧
    (CellUpdate s i j val).2.block_width_ = s.block_width_ := by
  rcases CellUpdate_cases s i j val with h | h <;> rw [h] <;> simp [store]

theorem CellUpdate_working (s : HeatMap) (i j : Nat) (val : CHANNEL → ℚ) :
    (CellUpdate s i j val).2.grids_ s.working_grid_ = s.grids_ s.working_grid_ := by
  rcases CellUpdate_cases s i j val with h | h <;> rw [h]
  exact store_other_grid s _ _ _ _ (by omega)

theorem CellUpdate_other (s : HeatMap) (i j : Nat) (val : CHANNEL → ℚ) (g : Int) (k : Nat)
    (h : g ≠ 1 - s.working_grid_ ∨ k ≠ cellOffset s i j) :
    (CellUpdate s i j val).2.grids_ g k = s.grids_ g k := by
  rcases CellUpdate_cases s i j val with h1 | h1 <;> rw [h1]
  exact store_other s _ _ _ _ _ h

end HeatMap

/-! ## Loops -/

theorem forUIntFuel_preserves {σ : Type} (P : σ → Prop) (body : Nat → σ → σ) (stop : Nat)
    (hbody : ∀ i s, P s → P (body i s)) :
    ∀ (fuel i : Nat) (s : σ), P s → P (forUIntFuel body stop fuel i s) := by
  intro fuel
  induction fuel with
  | zero => intro i s hs; exact hs
  | succ n ih =>
    intro i s hs
    unfold forUIntFuel
    by_cases h : i = stop
    · rw [if_pos h]; exact hs
    · rw [if_neg h]; exact ih _ _ (hbody i s hs)

theorem forUInt_preserves {σ : Type} (P : σ → Prop) (body : Nat → σ → σ) (start stop : Nat)
    (hbody : ∀ i s, P s → P (body i s)) (s : σ) (hs : P s) :
    P (forUInt start stop body s) :=
  forUIntFuel_preserves P body stop hbody _ _ s hs

theorem usub_self_eq (i : Nat) : usub i i = 0 := by
  simp only [usub, u32, UINT_MOD] at *
  omega

theorem usub_step {i stop : Nat} (hi : i < UINT_MOD) (hs : stop < UINT_MOD) (h : i ≠ stop) :
    usub stop i = usub stop (u32 (i + 1)) + 1 := by
  simp only [usub, u32, UINT_MOD] at *
  omega

/-- With enough fuel the loop stops by its own test, after `stop - start`
(modulo `2^32`) executions of the body. -/
theorem forUIntFuel_eq_iterFrom {σ : Type} (body : Nat → σ → σ) (stop : Nat)
    (hstop : stop < UINT_MOD) :
    ∀ (fuel i : Nat) (s : σ), i < UINT_MOD → usub stop i < fuel →
      forUIntFuel body stop fuel i s = iterFrom body (usub stop i) i s := by
  intro fuel
  induction fuel with
  | zero => intro i s _ h; omega
  | succ n ih =>
    intro i s hi hf
    unfold forUIntFuel
    by_cases h : i = stop
    · subst h
      rw [if_pos rfl, usub_self_eq]
      rfl
    · rw [if_neg h, usub_step hi hstop h]
      have h1 := usub_step hi hstop h
      rw [ih (u32 (i + 1)) (body i s) (u32_lt _) (by omega)]
      rfl

/-- The loop `for (unsigned int i = start; i != stop; ++i)` always terminates:
it runs its body `stop - start` (modulo `2^32`) times. -/
theorem forUInt_eq_iterFrom {σ : Type} (body : Nat → σ → σ) {start stop : Nat}
    (hstart : start < UINT_MOD) (hstop : stop < UINT_MOD) (s : σ) :
    forUInt start stop body s = iterFrom body (usub stop start) start s := by
  unfold forUInt
  apply forUIntFuel_eq_iterFrom body stop hstop _ _ _ hstart
  unfold usub
  exact u32_lt _

theorem iterFrom_preserves {σ : Type} (P : σ → Prop) (body : Nat → σ → σ)
    (hbody : ∀ i s, P s → P (body i s)) :
    ∀ (n i : Nat) (s : σ), P s → P (iterFrom body n i s) := by
  intro n
  induction n with
  | zero => intro i s hs; exact hs
  | succ n ih => intro i s hs; exact ih _ _ (hbody i s hs)

/-- A property `Q` that the body establishes at counter value `k` (from the
loop invariant `P`) and preserves at every counter value holds after a loop
whose range contains `k`. -/
theorem iterFrom_visits {σ : Type} (P Q : σ → Prop) (body : Nat → σ → σ) (k : Nat)
    (hP : ∀ i s, P s → P (body i s))
    (hk : ∀ s, P s → Q (body k s)) (hpres : ∀ i s, Q s → Q (body i s)) :
    ∀ (n i : Nat) (s : σ), i ≤ k → k < i + n → i + n ≤ UINT_MOD → P s →
      Q (iterFrom body n i s) := by
  intro n
  induction n with
  | zero => intro i s h1 h2 _ _; omega
  | succ n ih =>
    intro i s h1 h2 h3 hs
    show Q (iterFrom body n (u32 (i + 1)) (body i s))
    by_cases h : i = k
    · subst h
      exact iterFrom_preserves Q body hpres _ _ _ (hk s hs)
    · have hu : u32 (i + 1) = i + 1 := u32_of_lt (by omega)
      rw [hu]
      exact ih _ _ (by omega) (by omega) (by omega) (hP i s hs)

theorem forUInt_visits {σ : Type} (P Q : σ → Prop) (body : Nat → σ → σ) (k : Nat)
    (hP : ∀ i s, P s → P (body i s))
    (hk : ∀ s, P s → Q (body k s)) (hpres : ∀ i s, Q s → Q (body i s))
    {start stop : Nat} (h1 : start ≤ k) (h2 : k < stop) (h3 : stop < UINT_MOD)
    (s : σ) (hs : P s) : Q (forUInt start stop body s) := by
  rw [forUInt_eq_iterFrom body (by omega) h3, usub_of_le h3 (by omega)]
  exact iterFrom_visits P Q body k hP hk hpres _ _ s h1 (by omega) (by omega) hs

theorem iterFrom_preserves_range {σ : Type} (P : σ → Prop) (body : Nat → σ → σ) :
    ∀ (n i : Nat) (s : σ), (∀ k, i ≤ k → k < i + n → ∀ t, P t → P (body k t)) →
      i + n ≤ UINT_MOD → P s → P (iterFrom body n i s) := by
  intro n
  induction n with
  | zero => intro i s _ _ hs; exact hs
  | succ n ih =>
    intro i s hb h3 hs
    show P (iterFrom body n (u32 (i + 1)) (body i s))
    have h0 : P (body i s) := hb i (by omega) (by omega) s hs
    by_cases hn : n = 0
    · subst hn
      exact h0
    · have hu : u32 (i + 1) = i + 1 := u32_of_lt (by omega)
      rw [hu]
      apply ih
      · intro k hk1 hk2 t ht
        exact hb k (by omega) (by omega) t ht
      · omega
      · exact h0

theorem forUInt_preserves_range {σ : Type} (P : σ → Prop) (body : Nat → σ → σ)
    {start stop : Nat} (h1 : start ≤ stop) (h3 : stop < UINT_MOD)
    (hb : ∀ k, start ≤ k → k < stop → ∀ t, P t → P (body k t)) (s : σ) (hs : P s) :
    P (forUInt start stop body s) := by
  rw [forUInt_eq_iterFrom body (by omega) h3, usub_of_le h3 h1]
  apply iterFrom_preserves_range P body _ _ s _ (by omega) hs
  intro k hk1 hk2 t ht
  exact hb k hk1 (by omega) t ht

theorem iterFrom_add {σ : Type} (body : Nat → σ → σ) :
    ∀ (m n i : Nat) (s : σ), i < UINT_MOD →
      iterFrom body (m + n) i s = iterFrom body n (u32 (i + m)) (iterFrom body m i s) := by
  intro m
  induction m with
  | zero =>
    intro n i s hi
    rw [Nat.zero_add, Nat.add_zero, u32_of_lt hi]
    rfl
  | succ m ih =>
    intro n i s hi
    have h1 : m + 1 + n = (m + n) + 1 := by omega
    rw [h1]
    show iterFrom body (m + n) (u32 (i + 1)) (body i s) = _
    rw [ih n _ _ (u32_lt _)]
    have h2 : u32 (u32 (i + 1) + m) = u32 (i + (m + 1)) := by
      simp only [u32, UINT_MOD]
      omega
    rw [h2]
    rfl

/-- A loop whose body does nothing at every counter value of its range does nothing. -/
theorem iterFrom_skip {σ : Type} (body : Nat → σ → σ) :
    ∀ (n i : Nat) (s : σ), (∀ m, m < n → body (u32 (i + m)) s = s) → i < UINT_MOD →
      iterFrom body n i s = s := by
  intro n
  induction n with
  | zero => intro i s _ _; rfl
  | succ n ih =>
    intro i s h hi
    show iterFrom body n (u32 (i + 1)) (body i s) = s
    have h0 := h 0 (by omega)
    rw [Nat.add_zero, u32_of_lt hi] at h0
    rw [h0]
    apply ih _ _ _ (u32_lt _)
    intro m hm
    have h2 : u32 (u32 (i + 1) + m) = u32 (i + (m + 1)) := by
      simp only [u32, UINT_MOD]
      omega
    rw [h2]
    exact h (m + 1) (by omega)

namespace HeatMap

/-! ## Blocks whose element count is representable -/

theorem dims_lt {h w : Nat} (hsize : (h + 2) * (w + 2) < UINT_MOD) :
    h + 2 < UINT_MOD ∧ w + 2 < UINT_MOD := by
  constructor
  · calc h + 2 ≤ (h + 2) * (w + 2) := Nat.le_mul_of_pos_right _ (by omega)
      _ < UINT_MOD := hsize
  · calc w + 2 ≤ (h + 2) * (w + 2) := Nat.le_mul_of_pos_left _ (by omega)
      _ < UINT_MOD := hsize

theorem cellOffset_eq (s : HeatMap)
    (hsize : (s.block_height_ + 2) * (s.block_width_ + 2) < UINT_MOD)
    {i j : Nat} (hi : i < s.block_height_ + 2) (hj : j < s.block_width_ + 2) :
    cellOffset s i j = i * (s.block_width_ + 2) + j := by
  unfold cellOffset
  have h1 := mul_add_lt_mul hi hj
  rw [u32_of_lt (dims_lt hsize).2, u32_of_lt (by omega)]

theorem cellOffset_lt (s : HeatMap)
    (hsize : (s.block_height_ + 2) * (s.block_width_ + 2) < UINT_MOD)
    {i j : Nat} (hi : i < s.block_height_ + 2) (hj : j < s.block_width_ + 2) :
    cellOffset s i j < (s.block_height_ + 2) * (s.block_width_ + 2) := by
  rw [cellOffset_eq s hsize hi hj]
  exact mul_add_lt_mul hi hj

theorem cellOffset_inj (s : HeatMap)
    (hsize : (s.block_height_ + 2) * (s.block_width_ + 2) < UINT_MOD)
    {i j a b : Nat} (hi : i < s.block_height_ + 2) (hj : j < s.block_width_ + 2)
    (ha : a < s.block_height_ + 2) (hb : b < s.block_width_ + 2)
    (h : cellOffset s i j = cellOffset s a b) : i = a ∧ j = b := by
  rw [cellOffset_eq s hsize hi hj, cellOffset_eq s hsize ha hb] at h
  exact mul_add_inj hj hb h

theorem cellOffset_congr {s t : HeatMap} (h : t.block_width_ = s.block_width_) (i j : Nat) :
    cellOffset t i j = cellOffset s i j := by
  unfold cellOffset
  rw [h]

/-- On an owned cell of a representable block `CellUpdate` computes the
update rule of the specification from the working grid. -/
theorem new_val_owned (s : HeatMap)
    (hsize : (s.block_height_ + 2) * (s.block_width_ + 2) < UINT_MOD)
    (hw : s.working_grid_ = 0 ∨ s.working_grid_ = 1)
    {i j : Nat} (hi1 : 1 ≤ i) (hi2 : i ≤ s.block_height_) (hj1 : 1 ≤ j)
    (hj2 : j ≤ s.block_width_) (val : CHANNEL → ℚ) :
    new_val s i j val = jacobi (cell s s.working_grid_) i j := by
  have hd := dims_lt hsize
  have hH : u32 (s.block_height_ + 2) = s.block_height_ + 2 := u32_of_lt hd.1
  have hW : u32 (s.block_width_ + 2) = s.block_width_ + 2 := u32_of_lt hd.2
  have e1 : usub i 1 = i - 1 := usub_of_le (by omega) hi1
  have e2 : usub j 1 = j - 1 := usub_of_le (by omega) hj1
  have e3 : u32 (i + 1) = i + 1 := u32_of_lt (by omega)
  have e4 : u32 (j + 1) = j + 1 := u32_of_lt (by omega)
  unfold new_val jacobi cell
  simp only []
  rw [e1, e2, e3, e4]
  rw [GetCellValue_ok s _ (by omega) (by omega) hw,
    GetCellValue_ok s _ (by omega) (by omega) hw,
    GetCellValue_ok s _ (by omega) (by omega) hw,
    GetCellValue_ok s _ (by omega) (by omega) hw,
    GetCellValue_ok s _ (by omega) (by omega) hw]
  simp only []
  ring

/-! ## The two stencil passes compute one Jacobi sweep -/

theorem SweepInv_refl (s : HeatMap) : SweepInv s s :=
  ⟨rfl, rfl, rfl, rfl⟩

theorem CellUpdate_SweepInv (s0 t : HeatMap) (i j : Nat) (val : CHANNEL → ℚ)
    (h : SweepInv s0 t) : SweepInv s0 (CellUpdate t i j val).2 := by
  obtain ⟨h1, h2, h3, h4⟩ := h
  have hf := CellUpdate_fields t i j val
  have hg := CellUpdate_working t i j val
  rw [h1] at hg
  exact ⟨hf.1.trans h1, hf.2.1.trans h2, hf.2.2.trans h3, hg.trans h4⟩

theorem cell_of_SweepInv (s0 t : HeatMap) (h : SweepInv s0 t) :
    cell t t.working_grid_ = cell s0 s0.working_grid_ := by
  obtain ⟨h1, _, h3, h4⟩ := h
  funext x y
  unfold cell
  rw [cellOffset_congr h3, h1, h4]

/-- One `CellUpdate` keeps an owned cell `(a, b)` updated, and updates it when
called on `(a, b)`. -/
theorem CellUpdate_Updated (s0 : HeatMap)
    (hsize : (s0.block_height_ + 2) * (s0.block_width_ + 2) < UINT_MOD)
    (hw : s0.working_grid_ = 0 ∨ s0.working_grid_ = 1)
    {a b : Nat} (ha1 : 1 ≤ a) (ha2 : a ≤ s0.block_height_) (hb1 : 1 ≤ b)
    (hb2 : b ≤ s0.block_width_) (t : HeatMap) (hinv : SweepInv s0 t)
    (i j : Nat) (val : CHANNEL → ℚ)
    (h : (i = a ∧ j = b) ∨
      t.grids_ (1 - s0.working_grid_) (cellOffset s0 a b) = jacobi (cell s0 s0.working_grid_) a b) :
    Updated s0 a b (CellUpdate t i j val).2 := by
  refine ⟨CellUpdate_SweepInv s0 t i j val hinv, ?_⟩
  have hcell := cell_of_SweepInv s0 t hinv
  obtain ⟨h1, h2, h3, h4⟩ := hinv
  have hd := dims_lt hsize
  have hsizet : (t.block_height_ + 2) * (t.block_width_ + 2) < UINT_MOD := by rw [h2, h3]; exact hsize
  have hwt : t.working_grid_ = 0 ∨ t.working_grid_ = 1 := by rw [h1]; exact hw
  by_cases hin : i < u32 (t.block_height_ + 2) ∧ j < u32 (t.block_width_ + 2)
  · rw [CellUpdate_inb t val hin.1 hin.2 hwt, h1]
    have hi : i < s0.block_height_ + 2 := by
      have := hin.1; rw [h2, u32_of_lt hd.1] at this; exact this
    have hj : j < s0.block_width_ + 2 := by
      have := hin.2; rw [h3, u32_of_lt hd.2] at this; exact this
    by_cases hoff : cellOffset s0 a b = cellOffset t i j
    · rw [hoff, store_same]
      rw [cellOffset_congr h3] at hoff
      have hab := cellOffset_inj s0 hsize (by omega) (by omega) hi hj hoff
      rw [← hab.1, ← hab.2, new_val_owned t hsizet hwt ha1 (by omega) hb1 (by omega), hcell]
    · rw [store_other _ _ _ _ _ _ (Or.inr hoff)]
      rcases h with h | h
      · exfalso
        apply hoff
        rw [cellOffset_congr h3, h.1, h.2]
      · exact h
  · rw [CellUpdate_oob t val (by omega)]
    rcases h with h | h
    · exfalso
      apply hin
      rw [h2, h3, u32_of_lt hd.1, u32_of_lt hd.2, h.1, h.2]
      omega
    · exact h

theorem StandaloneUpdate_SweepInv (s0 t : HeatMap) (stk : Stack) (h : SweepInv s0 t) :
    SweepInv s0 (StandaloneUpdate t stk).2 := by
  unfold StandaloneUpdate
  apply forUInt_preserves (SweepInv s0) _ _ _ _ t h
  intro i t1 h1
  apply forUInt_preserves (SweepInv s0) _ _ _ _ t1 h1
  intro j t2 h2
  exact CellUpdate_SweepInv s0 t2 i j _ h2

theorem CollaborativeUpdate_SweepInv (s0 t : HeatMap) (stk : Stack) (h : SweepInv s0 t) :
    SweepInv s0 (CollaborativeUpdate t stk).2 := by
  unfold CollaborativeUpdate
  apply forUInt_preserves (SweepInv s0)
  · intro i t1 h1
    exact CellUpdate_SweepInv s0 _ _ _ _ (CellUpdate_SweepInv s0 _ _ _ _ h1)
  · apply forUInt_preserves (SweepInv s0) _ _ _ _ t h
    intro j t1 h1
    exact CellUpdate_SweepInv s0 _ _ _ _ (CellUpdate_SweepInv s0 _ _ _ _ h1)

theorem StandaloneUpdate_Updated (s0 : HeatMap)
    (hsize : (s0.block_height_ + 2) * (s0.block_width_ + 2) < UINT_MOD)
    (hw : s0.working_grid_ = 0 ∨ s0.working_grid_ = 1)
    {a b : Nat} (ha1 : 1 ≤ a) (ha2 : a ≤ s0.block_height_) (hb1 : 1 ≤ b)
    (hb2 : b ≤ s0.block_width_) (t : HeatMap) (stk : Stack) (h : Updated s0 a b t) :
    Updated s0 a b (StandaloneUpdate t stk).2 := by
  unfold StandaloneUpdate
  apply forUInt_preserves (Updated s0 a b) _ _ _ _ t h
  intro i t1 h1
  apply forUInt_preserves (Updated s0 a b) _ _ _ _ t1 h1
  intro j t2 h2
  exact CellUpdate_Updated s0 hsize hw ha1 ha2 hb1 hb2 t2 h2.1 i j _ (Or.inr h2.2)

theorem CollaborativeUpdate_Updated (s0 : HeatMap)
    (hsize : (s0.block_height_ + 2) * (s0.block_width_ + 2) < UINT_MOD)
    (hw : s0.working_grid_ = 0 ∨ s0.working_grid_ = 1)
    {a b : Nat} (ha1 : 1 ≤ a) (ha2 : a ≤ s0.block_height_) (hb1 : 1 ≤ b)
    (hb2 : b ≤ s0.block_width_) (t : HeatMap) (stk : Stack) (h : Updated s0 a b t) :
    Updated s0 a b (CollaborativeUpdate t stk).2 := by
  have hstep : ∀ (u : HeatMap) (i j : Nat) (val : CHANNEL → ℚ), Updated s0 a b u →
      Updated s0 a b (CellUpdate u i j val).2 :=
    fun u i j val hu => CellUpdate_Updated s0 hsize hw ha1 ha2 hb1 hb2 u hu.1 i j val (Or.inr hu.2)
  unfold CollaborativeUpdate
  apply forUInt_preserves (Updated s0 a b)
  · intro i t1 h1
    exact hstep _ _ _ _ (hstep _ _ _ _ h1)
  · apply forUInt_preserves (Updated s0 a b) _ _ _ _ t h
    intro j t1 h1
    exact hstep _ _ _ _ (hstep _ _ _ _ h1)

/-- The interior pass updates every cell of rows `2 .. block_height-1` and
columns `2 .. block_width-1`. -/
theorem StandaloneUpdate_interior (s0 : HeatMap)
    (hsize : (s0.block_height_ + 2) * (s0.block_width_ + 2) < UINT_MOD)
    (hw : s0.working_grid_ = 0 ∨ s0.working_grid_ = 1)
    {a b : Nat} (ha1 : 2 ≤ a) (ha2 : a < s0.block_height_) (hb1 : 2 ≤ b)
    (hb2 : b < s0.block_width_) (t : HeatMap) (stk : Stack) (h : SweepInv s0 t) :
    Updated s0 a b (StandaloneUpdate t stk).2 := by
  have hd := dims_lt hsize
  have e2 := h.2.1
  have e3 := h.2.2.1
  have hstepI : ∀ (u : HeatMap) (i j : Nat) (val : CHANNEL → ℚ), SweepInv s0 u →
      SweepInv s0 (CellUpdate u i j val).2 :=
    fun u i j val hu => CellUpdate_SweepInv s0 u i j val hu
  have hstepU : ∀ (u : HeatMap) (i j : Nat) (val : CHANNEL → ℚ), Updated s0 a b u →
      Updated s0 a b (CellUpdate u i j val).2 :=
    fun u i j val hu => CellUpdate_Updated s0 hsize hw (by omega) (by omega) (by omega)
      (by omega) u hu.1 i j val (Or.inr hu.2)
  unfold StandaloneUpdate
  apply forUInt_visits (SweepInv s0) (Updated s0 a b) _ a _ _ _ ha1 (by omega) (by omega) t h
  · intro i t1 h1
    exact forUInt_preserves (SweepInv s0) _ _ _ (fun j u hu => hstepI u i j _ hu) t1 h1
  · intro t1 h1
    apply forUInt_visits (SweepInv s0) (Updated s0 a b) _ b _ _ _ hb1 (by omega) (by omega) t1 h1
    · intro j u hu
      exact hstepI u a j _ hu
    · intro u hu
      exact CellUpdate_Updated s0 hsize hw (by omega) (by omega) (by omega) (by omega) u hu a b _
        (Or.inl ⟨rfl, rfl⟩)
    · intro j u hu
      exact hstepU u a j _ hu
  · intro i t1 h1
    exact forUInt_preserves (Updated s0 a b) _ _ _ (fun j u hu => hstepU u i j _ hu) t1 h1

/-- The boundary pass updates every owned cell of the first and last rows and
of the first and last columns. -/
theorem CollaborativeUpdate_perimeter (s0 : HeatMap)
    (hsize : (s0.block_height_ + 2) * (s0.block_width_ + 2) < UINT_MOD)
    (hw : s0.working_grid_ = 0 ∨ s0.working_grid_ = 1)
    {a b : Nat} (ha1 : 1 ≤ a) (ha2 : a ≤ s0.block_height_) (hb1 : 1 ≤ b)
    (hb2 : b ≤ s0.block_width_)
    (hedge : a = 1 ∨ a = s0.block_height_ ∨ b = 1 ∨ b = s0.block_width_)
    (t : HeatMap) (stk : Stack) (h : SweepInv s0 t) :
    Updated s0 a b (CollaborativeUpdate t stk).2 := by
  have hd := dims_lt hsize
  have e2 := h.2.1
  have e3 := h.2.2.1
  have hstepI : ∀ (u : HeatMap) (i j : Nat) (val : CHANNEL → ℚ), SweepInv s0 u →
      SweepInv s0 (CellUpdate u i j val).2 :=
    fun u i j val hu => CellUpdate_SweepInv s0 u i j val hu
  have hstepU : ∀ (u : HeatMap) (i j : Nat) (val : CHANNEL → ℚ), Updated s0 a b u →
      Updated s0 a b (CellUpdate u i j val).2 :=
    fun u i j val hu => CellUpdate_Updated s0 hsize hw ha1 ha2 hb1 hb2 u hu.1 i j val (Or.inr hu.2)
  have hstepE : ∀ (u : HeatMap) (val : CHANNEL → ℚ), SweepInv s0 u →
      Updated s0 a b (CellUpdate u a b val).2 :=
    fun u val hu => CellUpdate_Updated s0 hsize hw ha1 ha2 hb1 hb2 u hu a b val (Or.inl ⟨rfl, rfl⟩)
  have hW : u32 (1 + t.block_width_) = 1 + t.block_width_ := u32_of_lt (by omega)
  have hH : u32 (1 + t.block_height_) = 1 + t.block_height_ := u32_of_lt (by omega)
  unfold CollaborativeUpdate
  simp only []
  rw [hW, hH, e2, e3]
  by_cases hrow : a = 1 ∨ a = s0.block_height_
  · apply forUInt_preserves (Updated s0 a b)
    · intro i u hu
      exact hstepU _ _ _ _ (hstepU _ _ _ _ hu)
    · apply forUInt_visits (SweepInv s0) (Updated s0 a b) _ b _ _ _ hb1 (by omega) (by omega) t h
      · intro j u hu
        exact hstepI _ _ _ _ (hstepI _ _ _ _ hu)
      · intro u hu
        rcases hrow with hr | hr
        · apply hstepU
          rw [← hr]
          exact hstepE u _ hu
        · rw [← hr]
          exact hstepE _ _ (hstepI _ _ _ _ hu)
      · intro j u hu
        exact hstepU _ _ _ _ (hstepU _ _ _ _ hu)
  · have hcol : b = 1 ∨ b = s0.block_width_ := by omega
    apply forUInt_visits (SweepInv s0) (Updated s0 a b) _ a _ _ _ ha1 (by omega) (by omega)
    · apply forUInt_preserves (SweepInv s0) _ _ _ _ t h
      intro j u hu
      exact hstepI _ _ _ _ (hstepI _ _ _ _ hu)
    · intro i u hu
      exact hstepI _ _ _ _ (hstepI _ _ _ _ hu)
    · intro u hu
      rcases hcol with hc | hc
      · apply hstepU
        rw [← hc]
        exact hstepE u _ hu
      · rw [← hc]
        exact hstepE _ _ (hstepI _ _ _ _ hu)
    · intro i u hu
      exact hstepU _ _ _ _ (hstepU _ _ _ _ hu)

/-- After the interior pass and the boundary pass every owned cell of the
other grid holds the value of the update rule on the working grid. -/
theorem sweep_Updated (s : HeatMap)
    (hsize : (s.block_height_ + 2) * (s.block_width_ + 2) < UINT_MOD)
    (hw : s.working_grid_ = 0 ∨ s.working_grid_ = 1)
    {a b : Nat} (ha1 : 1 ≤ a) (ha2 : a ≤ s.block_height_) (hb1 : 1 ≤ b)
    (hb2 : b ≤ s.block_width_) (stk1 stk2 : Stack) :
    Updated s a b (CollaborativeUpdate (StandaloneUpdate s stk1).2 stk2).2 := by
  by_cases hedge : a = 1 ∨ a = s.block_height_ ∨ b = 1 ∨ b = s.block_width_
  · exact CollaborativeUpdate_perimeter s hsize hw ha1 ha2 hb1 hb2 hedge _ _
      (StandaloneUpdate_SweepInv s s stk1 (SweepInv_refl s))
  · exact CollaborativeUpdate_Updated s hsize hw ha1 ha2 hb1 hb2 _ _
      (StandaloneUpdate_interior s hsize hw (by omega) (by omega) (by omega) (by omega) s stk1
        (SweepInv_refl s))

end HeatMap

namespace HeatMap

/-! ## `Init` -/

theorem iterFrom_zeroFill : ∀ (n i : Nat) (m : Nat → ℚ), i + n ≤ UINT_MOD →
    iterFrom (fun i m => Function.update m i (0 : ℚ)) n i m
      = fun k => if i ≤ k ∧ k < i + n then 0 else m k := by
  intro n
  induction n with
  | zero =>
    intro i m _
    funext k
    show m k = _
    rw [if_neg (by omega)]
  | succ n ih =>
    intro i m h
    show iterFrom _ n (u32 (i + 1)) (Function.update m i 0) = _
    by_cases hn : n = 0
    · subst hn
      funext k
      show Function.update m i 0 k = _
      by_cases hk : k = i
      · subst hk
        rw [Function.update_same, if_pos (by omega)]
      · rw [Function.update_noteq hk, if_neg (by omega)]
    · rw [u32_of_lt (by omega), ih _ _ (by omega)]
      funext k
      by_cases hk : k = i
      · subst hk
        rw [if_neg (by omega), Function.update_same, if_pos (by omega)]
      · rw [Function.update_noteq hk]
        by_cases h1 : i + 1 ≤ k ∧ k < i + 1 + n
        · rw [if_pos h1, if_pos (by omega)]
        · rw [if_neg h1, if_neg (by omega)]

/-- The allocation loop zeroes exactly the first `block_size` elements. -/
theorem zeroFill_apply {n : Nat} (hn : n < UINT_MOD) (m : Nat → ℚ) (k : Nat) :
    zeroFill n m k = if k < n then 0 else m k := by
  unfold zeroFill
  rw [forUInt_eq_iterFrom _ (by decide) hn, usub_of_le hn (Nat.zero_le _),
    iterFrom_zeroFill _ _ _ (by omega)]
  simp

theorem allocGrids_eq (s : HeatMap) (n : Nat) :
    allocGrids s n = HeatMap.mk
      (Function.update (Function.update s.grids_ 0 (zeroFill n (s.grids_ 0))) 1
        (zeroFill n (s.grids_ 1)))
      s.working_grid_ s.block_height_ s.block_width_ := by
  unfold allocGrids
  rw [forUInt_eq_iterFrom _ (by decide) (by decide)]
  have h2 : usub 2 0 = 2 := by decide
  have h1 : u32 (0 + 1) = 1 := by decide
  have h3 : u32 1 = 1 := by decide
  rw [h2]
  simp only [iterFrom, h1]
  simp [h3]

theorem SetCellValue_cases (s : HeatMap) (i j : Nat) (grid : Int) (val : ℚ) :
    (SetCellValue s i j grid val).2 = s ∨
    (i < u32 (s.block_height_ + 2) ∧ j < u32 (s.block_width_ + 2) ∧
      (SetCellValue s i j grid val).2 = store s grid (cellOffset s i j) val) := by
  by_cases h : i < u32 (s.block_height_ + 2) ∧ j < u32 (s.block_width_ + 2)
      ∧ (grid = 0 ∨ grid = 1)
  · right
    rw [SetCellValue_ok s val h.1 h.2.1 h.2.2]
    exact ⟨h.1, h.2.1, rfl⟩
  · left
    rw [SetCellValue_fail s val (by omega)]

theorem FillInv_refl (s : HeatMap) : FillInv s s :=
  ⟨rfl, rfl, rfl, fun _ _ => rfl⟩

theorem SetCellValue_FillInv (s0 t : HeatMap) (i j : Nat) (val : ℚ) (h : FillInv s0 t) :
    FillInv s0 (SetCellValue t i j 0 val).2 := by
  rcases SetCellValue_cases t i j 0 val with h1 | ⟨_, _, h1⟩ <;> rw [h1]
  · exact h
  · obtain ⟨e1, e2, e3, e4⟩ := h
    refine ⟨e1, e2, e3, ?_⟩
    intro g hg
    rw [store_other_grid _ _ _ _ _ hg]
    exact e4 g hg

theorem fillInitial_FillInv (s : HeatMap) (x y ox oy : Nat) :
    FillInv s (fillInitial s x y ox oy) := by
  unfold fillInitial
  apply forUInt_preserves (FillInv s) _ _ _ _ s (FillInv_refl s)
  intro i t ht
  apply forUInt_preserves (FillInv s) _ _ _ _ t ht
  intro j t1 ht1
  exact SetCellValue_FillInv s t1 i j _ ht1

/-- The filling loop stores its value in every owned cell of buffer 0. -/
theorem fillInitial_owned (s : HeatMap) (x y ox oy : Nat)
    (hsize : (s.block_height_ + 2) * (s.block_width_ + 2) < UINT_MOD)
    {a b : Nat} (ha1 : 1 ≤ a) (ha2 : a ≤ s.block_height_) (hb1 : 1 ≤ b)
    (hb2 : b ≤ s.block_width_) :
    (fillInitial s x y ox oy).grids_ 0 (cellOffset s a b) = (initVal x y ox oy a b : ℚ) := by
  have hd := dims_lt hsize
  have hstep : ∀ (t : HeatMap) (i j : Nat), FillInv s t →
      ((i = a ∧ j = b) ∨ t.grids_ 0 (cellOffset s a b) = (initVal x y ox oy a b : ℚ)) →
      FillInv s (SetCellValue t i j 0 ((initVal x y ox oy i j : Nat) : ℚ)).2 ∧
      (SetCellValue t i j 0 ((initVal x y ox oy i j : Nat) : ℚ)).2.grids_ 0 (cellOffset s a b)
        = (initVal x y ox oy a b : ℚ) := by
    intro t i j ht h
    refine ⟨SetCellValue_FillInv s t i j _ ht, ?_⟩
    obtain ⟨_, e2, e3, _⟩ := ht
    by_cases hin : i < u32 (t.block_height_ + 2) ∧ j < u32 (t.block_width_ + 2)
    · rw [SetCellValue_ok t _ hin.1 hin.2 (Or.inl rfl)]
      have hi : i < s.block_height_ + 2 := by
        have := hin.1; rw [e2, u32_of_lt hd.1] at this; exact this
      have hj : j < s.block_width_ + 2 := by
        have := hin.2; rw [e3, u32_of_lt hd.2] at this; exact this
      by_cases hoff : cellOffset s a b = cellOffset t i j
      · rw [hoff, store_same]
        rw [cellOffset_congr e3] at hoff
        have hab := cellOffset_inj s hsize (by omega) (by omega) hi hj hoff
        rw [← hab.1, ← hab.2]
      · rw [store_other _ _ _ _ _ _ (Or.inr hoff)]
        rcases h with h | h
        · exfalso
          apply hoff
          rw [cellOffset_congr e3, h.1, h.2]
        · exact h
    · rw [SetCellValue_fail t _ (by omega)]
      rcases h with h | h
      · exfalso
        apply hin
        rw [e2, e3, u32_of_lt hd.1, u32_of_lt hd.2, h.1, h.2]
        omega
      · exact h
  have hW : u32 (1 + s.block_width_) = 1 + s.block_width_ := u32_of_lt (by omega)
  have hH : u32 (1 + s.block_height_) = 1 + s.block_height_ := u32_of_lt (by omega)
  unfold fillInitial
  rw [hW, hH]
  refine (forUInt_visits (FillInv s)
    (fun t => FillInv s t ∧ t.grids_ 0 (cellOffset s a b) = (initVal x y ox oy a b : ℚ))
    _ a ?_ ?_ ?_ ha1 (by omega) (by omega) s (FillInv_refl s)).2
  · intro i t ht
    apply forUInt_preserves (FillInv s) _ _ _ _ t ht
    intro j t1 ht1
    exact SetCellValue_FillInv s t1 i j _ ht1
  · intro t ht
    apply forUInt_visits (FillInv s)
      (fun t => FillInv s t ∧ t.grids_ 0 (cellOffset s a b) = (initVal x y ox oy a b : ℚ))
      _ b _ _ _ hb1 (by omega) (by omega) t ht
    · intro j t1 ht1
      exact SetCellValue_FillInv s t1 a j _ ht1
    · intro t1 ht1
      exact hstep t1 a b ht1 (Or.inl ⟨rfl, rfl⟩)
    · intro j t1 ht1
      exact hstep t1 a j ht1.1 (Or.inr ht1.2)
  · intro i t ht
    apply forUInt_preserves
      (fun t => FillInv s t ∧ t.grids_ 0 (cellOffset s a b) = (initVal x y ox oy a b : ℚ))
      _ _ _ _ t ht
    intro j t1 ht1
    exact hstep t1 i j ht1.1 (Or.inr ht1.2)

/-- The filling loop leaves every element that is not an owned cell as it was. -/
theorem fillInitial_frame (s : HeatMap) (x y ox oy : Nat)
    (hsize : (s.block_height_ + 2) * (s.block_width_ + 2) < UINT_MOD) (k : Nat)
    (hk : ∀ i j, 1 ≤ i → i ≤ s.block_height_ → 1 ≤ j → j ≤ s.block_width_ →
      k ≠ cellOffset s i j) :
    (fillInitial s x y ox oy).grids_ 0 k = s.grids_ 0 k := by
  have hd := dims_lt hsize
  have hW : u32 (1 + s.block_width_) = 1 + s.block_width_ := u32_of_lt (by omega)
  have hH : u32 (1 + s.block_height_) = 1 + s.block_height_ := u32_of_lt (by omega)
  unfold fillInitial
  rw [hW, hH]
  refine (forUInt_preserves_range
    (fun t => FillInv s t ∧ t.grids_ 0 k = s.grids_ 0 k) _ (by omega) (by omega) ?_ s
    ⟨FillInv_refl s, rfl⟩).2
  intro i hi1 hi2 t ht
  apply forUInt_preserves_range
    (fun t => FillInv s t ∧ t.grids_ 0 k = s.grids_ 0 k) _ (by omega) (by omega) _ t ht
  intro j hj1 hj2 t1 ht1
  refine ⟨SetCellValue_FillInv s t1 i j _ ht1.1, ?_⟩
  rcases SetCellValue_cases t1 i j 0 ((initVal x y ox oy i j : Nat) : ℚ) with h1 | ⟨_, _, h1⟩
      <;> rw [h1]
  · exact ht1.2
  · rw [store_other _ _ _ _ _ _ (Or.inr _)]
    · exact ht1.2
    · rw [cellOffset_congr ht1.1.2.2.1]
      exact hk i j hi1 (by omega) hj1 (by omega)

theorem block_size_eq {h w : Nat} (hsize : (h + 2) * (w + 2) < UINT_MOD) :
    block_size h w = (h + 2) * (w + 2) := by
  have hd := dims_lt hsize
  unfold block_size
  rw [u32_of_lt hd.1, u32_of_lt hd.2, u32_of_lt hsize]

theorem allocated_grid0 (s : HeatMap) (bh bw : Nat) :
    (allocated s bh bw).grids_ 0 = zeroFill (block_size bh bw) (s.grids_ 0) := by
  unfold allocated
  simp

theorem allocated_grid1 (s : HeatMap) (bh bw : Nat) :
    (allocated s bh bw).grids_ 1 = zeroFill (block_size bh bw) (s.grids_ 1) := by
  unfold allocated
  simp

theorem Init_unfold (s : HeatMap) (block_height block_width : Int) (w : MPIWrapper) :
    (Init s block_height block_width w).2
      = fillInitial (allocated s (toUInt block_height) (toUInt block_width))
          (imul w.topology_height_ (toUInt block_height))
          (imul w.topology_width_ (toUInt block_width))
          (imul w.topology_coord_x_ (toUInt block_height))
          (imul w.topology_coord_y_ (toUInt block_width)) := by
  unfold Init
  simp only [allocGrids_eq]
  rfl

/-- `Init` returns `0`, stores the block dimensions and leaves the working
grid indicator as the constructor set it. -/
theorem Init_fields (s : HeatMap) (block_height block_width : Int) (w : MPIWrapper) :
    (Init s block_height block_width w).1 = 0 ∧
    (Init s block_height block_width w).2.working_grid_ = s.working_grid_ ∧
    (Init s block_height block_width w).2.block_height_ = toUInt block_height ∧
    (Init s block_height block_width w).2.block_width_ = toUInt block_width := by
  refine ⟨rfl, ?_⟩
  rw [Init_unfold]
  have h := fillInitial_FillInv (allocated s (toUInt block_height) (toUInt block_width))
    (imul w.topology_height_ (toUInt block_height))
    (imul w.topology_width_ (toUInt block_width))
    (imul w.topology_coord_x_ (toUInt block_height))
    (imul w.topology_coord_y_ (toUInt block_width))
  exact ⟨h.1, h.2.1, h.2.2.1⟩

/-- After `Init` on a block whose element count is representable, an owned
cell of buffer 0 holds the value `val` the source computes for it. -/
theorem Init_owned (s : HeatMap) (block_height block_width : Int) (w : MPIWrapper)
    (hsize : (toUInt block_height + 2) * (toUInt block_width + 2) < UINT_MOD)
    {a b : Nat} (ha1 : 1 ≤ a) (ha2 : a ≤ toUInt block_height) (hb1 : 1 ≤ b)
    (hb2 : b ≤ toUInt block_width) :
    cell (Init s block_height block_width w).2 0 a b
      = (initVal (imul w.topology_height_ (toUInt block_height))
          (imul w.topology_width_ (toUInt block_width))
          (imul w.topology_coord_x_ (toUInt block_height))
          (imul w.topology_coord_y_ (toUInt block_width)) a b : ℚ) := by
  unfold cell
  have hf := Init_fields s block_height block_width w
  have hc : cellOffset (Init s block_height block_width w).2 a b
      = cellOffset (allocated s (toUInt block_height) (toUInt block_width)) a b :=
    cellOffset_congr hf.2.2.2 a b
  rw [hc, Init_unfold]
  exact fillInitial_owned _ _ _ _ _ hsize ha1 ha2 hb1 hb2

/-- After `Init` on a block whose element count is representable, every ghost
cell of buffer 0 holds zero. -/
theorem Init_ghost (s : HeatMap) (block_height block_width : Int) (w : MPIWrapper)
    (hsize : (toUInt block_height + 2) * (toUInt block_width + 2) < UINT_MOD)
    {a b : Nat} (ha : a < toUInt block_height + 2) (hb : b < toUInt block_width + 2)
    (hghost : a = 0 ∨ a = toUInt block_height + 1 ∨ b = 0 ∨ b = toUInt block_width + 1) :
    cell (Init s block_height block_width w).2 0 a b = 0 := by
  unfold cell
  have hf := Init_fields s block_height block_width w
  have hc : cellOffset (Init s block_height block_width w).2 a b
      = cellOffset (allocated s (toUInt block_height) (toUInt block_width)) a b :=
    cellOffset_congr hf.2.2.2 a b
  rw [hc, Init_unfold, fillInitial_frame _ _ _ _ _ hsize]
  · rw [allocated_grid0, block_size_eq hsize, zeroFill_apply hsize, if_pos]
    exact cellOffset_lt (allocated s (toUInt block_height) (toUInt block_width)) hsize ha hb
  · intro i j hi1 hi2 hj1 hj2 heq
    have hi2' : i ≤ toUInt block_height := hi2
    have hj2' : j ≤ toUInt block_width := hj2
    have := cellOffset_inj (allocated s (toUInt block_height) (toUInt block_width)) hsize
      ha hb (show i < toUInt block_height + 2 by omega)
      (show j < toUInt block_width + 2 by omega) heq
    omega

/-- After `Init` on a block whose element count is representable, every
element of buffer 1 holds zero. -/
theorem Init_other (s : HeatMap) (block_height block_width : Int) (w : MPIWrapper)
    (hsize : (toUInt block_height + 2) * (toUInt block_width + 2) < UINT_MOD)
    {k : Nat} (hk : k < (toUInt block_height + 2) * (toUInt block_width + 2)) :
    (Init s block_height block_width w).2.grids_ 1 k = 0 := by
  rw [Init_unfold]
  have h := fillInitial_FillInv (allocated s (toUInt block_height) (toUInt block_width))
    (imul w.topology_height_ (toUInt block_height))
    (imul w.topology_width_ (toUInt block_width))
    (imul w.topology_coord_x_ (toUInt block_height))
    (imul w.topology_coord_y_ (toUInt block_width))
  rw [h.2.2.2 1 (by decide), allocated_grid1, block_size_eq hsize, zeroFill_apply hsize,
    if_pos hk]

end HeatMap

/-! ## What the passes leave untouched on blocks of at least two rows and columns -/

namespace HeatMap

/-! ### A worker without neighbours issues no transfer -/

theorem ExchangeMessages_no_neighbor (s : HeatMap) (w : MPIWrapper)
    (h : ∀ ch, w.neighbors_ ch = none) : ExchangeMessages s w = (0, w) := by
  have hs : ∀ (buf : Nat) (ch : CHANNEL) (tag : Int), w.Send buf ch tag = (0, w) := by
    intro buf ch tag
    unfold MPIWrapper.Send
    rw [h ch]
  have hr : ∀ (buf : Nat) (ch : CHANNEL) (tag : Int), w.Receive buf ch tag = (0, w) := by
    intro buf ch tag
    unfold MPIWrapper.Receive
    rw [h ch]
  unfold ExchangeMessages
  simp only [hs, hr]

theorem waitChannel_no_neighbor (s : HeatMap) (w : MPIWrapper)
    (incoming : CHANNEL → Nat → ℚ) (ch : CHANNEL) (h : ∀ ch, w.neighbors_ ch = none) :
    waitChannel (s, w) incoming ch = (s, w) := by
  unfold waitChannel MPIWrapper.Wait MPIWrapper.HasNeighbor
  simp [h ch]

theorem WaitForMessages_no_neighbor (s : HeatMap) (w : MPIWrapper)
    (incoming : CHANNEL → Nat → ℚ) (h : ∀ ch, w.neighbors_ ch = none) :
    WaitForMessages s w incoming = (0, s, w) := by
  unfold WaitForMessages
  simp only [waitChannel_no_neighbor _ _ _ _ h]

/-- Without neighbours one pass of the pipeline is the two stencil passes
followed by the exchange of the grids; the wrapper, and with it the set of
outstanding requests, is unchanged. -/
theorem pipelineStep_no_neighbor (s : HeatMap) (w : MPIWrapper) (stk : Stack)
    (incoming : CHANNEL → Nat → ℚ) (h : ∀ ch, w.neighbors_ ch = none) :
    pipelineStep (s, w) stk incoming
      = (ExchangeGrids (CollaborativeUpdate (StandaloneUpdate s stk).2 stk).2, w) := by
  unfold pipelineStep
  simp only [ExchangeMessages_no_neighbor _ _ h, WaitForMessages_no_neighbor _ _ _ h]

theorem pipelineStep_no_neighbor_map (s : HeatMap) (w : MPIWrapper) (stk : Stack)
    (incoming : CHANNEL → Nat → ℚ) (h : ∀ ch, w.neighbors_ ch = none) :
    (pipelineStep (s, w) stk incoming).1
      = ExchangeGrids (CollaborativeUpdate (StandaloneUpdate s stk).2 stk).2 := by
  rw [pipelineStep_no_neighbor s w stk incoming h]

theorem pipelineStep_no_neighbor_wrapper (s : HeatMap) (w : MPIWrapper) (stk : Stack)
    (incoming : CHANNEL → Nat → ℚ) (h : ∀ ch, w.neighbors_ ch = none) :
    (pipelineStep (s, w) stk incoming).2 = w := by
  rw [pipelineStep_no_neighbor s w stk incoming h]

theorem cell_ExchangeGrids (t : HeatMap) (g : Int) (i j : Nat) :
    cell (ExchangeGrids t) g i j = cell t g i j :=
  rfl

/-- A successful accessor call on a block whose element count is representable
dereferences an offset inside the allocation. -/
theorem accessor_within_allocation (s : HeatMap) (i j : Nat) (grid : Int) (val : ℚ)
    (hsize : (s.block_height_ + 2) * (s.block_width_ + 2) < UINT_MOD)
    (hok : (GetCellValue s i j grid val).1 = 0 ∨ (SetCellValue s i j grid val).1 = 0) :
    cellOffset s i j < block_size s.block_height_ s.block_width_ := by
  have hd := dims_lt hsize
  by_cases h : u32 (s.block_height_ + 2) ≤ i ∨ u32 (s.block_width_ + 2) ≤ j
      ∨ ¬ (grid = 0 ∨ grid = 1)
  · rw [GetCellValue_fail s val h, SetCellValue_fail s val h] at hok
    rcases hok with h1 | h1 <;> exact absurd (show (1 : Int) = 0 from h1) (by decide)
  · rw [u32_of_lt hd.1, u32_of_lt hd.2] at h
    rw [block_size_eq hsize]
    exact cellOffset_lt s hsize (by omega) (by omega)

/-- One `CellUpdate` on a cell whose offset is not `k` keeps the element `k`
of buffer `g` (and the loop invariant). -/
theorem CellUpdate_keeps (s0 t : HeatMap) (i j : Nat) (val : CHANNEL → ℚ) (g : Int) (k : Nat)
    (hne : g ≠ 1 - s0.working_grid_ ∨ k ≠ cellOffset s0 i j)
    (h : SweepInv s0 t ∧ t.grids_ g k = s0.grids_ g k) :
    SweepInv s0 (CellUpdate t i j val).2 ∧ (CellUpdate t i j val).2.grids_ g k = s0.grids_ g k := by
  refine ⟨CellUpdate_SweepInv s0 t i j val h.1, ?_⟩
  rw [CellUpdate_other t i j val g k]
  · exact h.2
  · rw [h.1.1, cellOffset_congr h.1.2.2.1]
    exact hne

/-- On a block with at least two rows and two columns the interior pass
changes no element other than the cells of rows `2 .. block_height-1` and
columns `2 .. block_width-1` of the other buffer. -/
theorem StandaloneUpdate_frame (s : HeatMap) (stk : Stack)
    (h2h : 2 ≤ s.block_height_) (h2w : 2 ≤ s.block_width_)
    (hh : s.block_height_ < UINT_MOD) (hw : s.block_width_ < UINT_MOD) (g : Int) (k : Nat)
    (hk : ∀ i j, 2 ≤ i → i < s.block_height_ → 2 ≤ j → j < s.block_width_ →
      (g ≠ 1 - s.working_grid_ ∨ k ≠ cellOffset s i j)) :
    (StandaloneUpdate s stk).2.grids_ g k = s.grids_ g k := by
  unfold StandaloneUpdate
  refine (forUInt_preserves_range
    (fun t : HeatMap => SweepInv s t ∧ t.grids_ g k = s.grids_ g k) _ h2h hh ?_ s
    ⟨SweepInv_refl s, rfl⟩).2
  intro i hi1 hi2 t ht
  refine forUInt_preserves_range
    (fun t : HeatMap => SweepInv s t ∧ t.grids_ g k = s.grids_ g k) _ h2w hw ?_ t ht
  intro j hj1 hj2 u hu
  exact CellUpdate_keeps s u i j _ g k (hk i j hi1 hi2 hj1 hj2) hu

/-- The boundary pass changes no element other than owned cells of the other
buffer. -/
theorem CollaborativeUpdate_frame (s0 t : HeatMap) (stk : Stack) (hinv : SweepInv s0 t)
    (h1h : 1 ≤ s0.block_height_) (h1w : 1 ≤ s0.block_width_)
    (hh : s0.block_height_ + 1 < UINT_MOD) (hw : s0.block_width_ + 1 < UINT_MOD)
    (g : Int) (k : Nat)
    (hk : ∀ i j, 1 ≤ i → i ≤ s0.block_height_ → 1 ≤ j → j ≤ s0.block_width_ →
      (g ≠ 1 - s0.working_grid_ ∨ k ≠ cellOffset s0 i j)) :
    (CollaborativeUpdate t stk).2.grids_ g k = t.grids_ g k := by
  have e2 := hinv.2.1
  have e3 := hinv.2.2.1
  have hW : u32 (1 + t.block_width_) = 1 + t.block_width_ := u32_of_lt (by omega)
  have hH : u32 (1 + t.block_height_) = 1 + t.block_height_ := u32_of_lt (by omega)
  have key : SweepInv s0 (CollaborativeUpdate t stk).2 ∧
      (CollaborativeUpdate t stk).2.grids_ g k = t.grids_ g k := by
    unfold CollaborativeUpdate
    simp only []
    rw [hW, hH, e2, e3]
    refine forUInt_preserves_range
      (fun u : HeatMap => SweepInv s0 u ∧ u.grids_ g k = t.grids_ g k) _
      (show 1 ≤ 1 + s0.block_height_ by omega) (by omega) ?_ _ ?_
    · intro i hi1 hi2 u hu
      have a1 := CellUpdate_SweepInv s0 u i 1 (stk i 1) hu.1
      have b1 : (CellUpdate u i 1 (stk i 1)).2.grids_ g k = t.grids_ g k := by
        rw [CellUpdate_other u i 1 _ g k]
        · exact hu.2
        · rw [hu.1.1, cellOffset_congr hu.1.2.2.1]
          exact hk i 1 hi1 (by omega) (by omega) h1w
      refine ⟨CellUpdate_SweepInv s0 _ _ _ _ a1, ?_⟩
      rw [CellUpdate_other _ i s0.block_width_ _ g k]
      · exact b1
      · rw [a1.1, cellOffset_congr a1.2.2.1]
        exact hk i s0.block_width_ hi1 (by omega) h1w (by omega)
    · refine forUInt_preserves_range
        (fun u : HeatMap => SweepInv s0 u ∧ u.grids_ g k = t.grids_ g k) _
        (show 1 ≤ 1 + s0.block_width_ by omega) (by omega) ?_ t ⟨hinv, rfl⟩
      intro j hj1 hj2 u hu
      have a1 := CellUpdate_SweepInv s0 u 1 j (stk 1 j) hu.1
      have b1 : (CellUpdate u 1 j (stk 1 j)).2.grids_ g k = t.grids_ g k := by
        rw [CellUpdate_other u 1 j _ g k]
        · exact hu.2
        · rw [hu.1.1, cellOffset_congr hu.1.2.2.1]
          exact hk 1 j (by omega) h1h hj1 (by omega)
      refine ⟨CellUpdate_SweepInv s0 _ _ _ _ a1, ?_⟩
      rw [CellUpdate_other _ s0.block_height_ j _ g k]
      · exact b1
      · rw [a1.1, cellOffset_congr a1.2.2.1]
        exact hk s0.block_height_ j h1h (by omega) hj1 (by omega)
  exact key.2

/-- On a representable block with at least two rows and two columns the two
stencil passes change no ghost cell of either buffer. -/
theorem sweep_keeps_ghost (s : HeatMap) (stk1 stk2 : Stack)
    (hsize : (s.block_height_ + 2) * (s.block_width_ + 2) < UINT_MOD)
    (h2h : 2 ≤ s.block_height_) (h2w : 2 ≤ s.block_width_) (g : Int) {a b : Nat}
    (ha : a < s.block_height_ + 2) (hb : b < s.block_width_ + 2)
    (hghost : a = 0 ∨ a = s.block_height_ + 1 ∨ b = 0 ∨ b = s.block_width_ + 1) :
    cell (CollaborativeUpdate (StandaloneUpdate s stk1).2 stk2).2 g a b = cell s g a b := by
  have hd := dims_lt hsize
  have hinv := StandaloneUpdate_SweepInv s s stk1 (SweepInv_refl s)
  have hinv2 := CollaborativeUpdate_SweepInv s _ stk2 hinv
  have hne : ∀ i j, 1 ≤ i → i ≤ s.block_height_ → 1 ≤ j → j ≤ s.block_width_ →
      (g ≠ 1 - s.working_grid_ ∨ cellOffset s a b ≠ cellOffset s i j) := by
    intro i j hi1 hi2 hj1 hj2
    right
    intro heq
    have := cellOffset_inj s hsize ha hb (by omega) (by omega) heq
    omega
  unfold cell
  rw [cellOffset_congr hinv2.2.2.1,
    CollaborativeUpdate_frame s _ stk2 hinv (by omega) (by omega) (by omega) (by omega) g _ hne,
    StandaloneUpdate_frame s stk1 h2h h2w (by omega) (by omega) g _
      (fun i j hi1 hi2 hj1 hj2 => hne i j (by omega) (by omega) (by omega) (by omega))]

/-- Without neighbours, on a representable block with at least two rows and
two columns, one pass of the pipeline keeps all ghost cells at zero. -/
theorem pipelineStep_GhostZero (s : HeatMap) (w : MPIWrapper) (stk : Stack)
    (incoming : CHANNEL → Nat → ℚ) (hnn : ∀ ch, w.neighbors_ ch = none)
    (hsize : (s.block_height_ + 2) * (s.block_width_ + 2) < UINT_MOD)
    (h2h : 2 ≤ s.block_height_) (h2w : 2 ≤ s.block_width_) (hz : GhostZero s) :
    GhostZero (pipelineStep (s, w) stk incoming).1 ∧
    (pipelineStep (s, w) stk incoming).1.block_height_ = s.block_height_ ∧
    (pipelineStep (s, w) stk incoming).1.block_width_ = s.block_width_ ∧
    (pipelineStep (s, w) stk incoming).2 = w := by
  have hinv := CollaborativeUpdate_SweepInv s _ stk
    (StandaloneUpdate_SweepInv s s stk (SweepInv_refl s))
  rw [pipelineStep_no_neighbor s w stk incoming hnn]
  refine ⟨?_, hinv.2.1, hinv.2.2.1, rfl⟩
  intro g hg a b ha hb hghost
  have ha' : a < s.block_height_ + 2 := by
    have : (ExchangeGrids (CollaborativeUpdate (StandaloneUpdate s stk).2 stk).2).block_height_
        = s.block_height_ := hinv.2.1
    rw [← this]; exact ha
  have hb' : b < s.block_width_ + 2 := by
    have : (ExchangeGrids (CollaborativeUpdate (StandaloneUpdate s stk).2 stk).2).block_width_
        = s.block_width_ := hinv.2.2.1
    rw [← this]; exact hb
  have hghost' : a = 0 ∨ a = s.block_height_ + 1 ∨ b = 0 ∨ b = s.block_width_ + 1 := by
    have e1 : (ExchangeGrids (CollaborativeUpdate (StandaloneUpdate s stk).2 stk).2).block_height_
        = s.block_height_ := hinv.2.1
    have e2 : (ExchangeGrids (CollaborativeUpdate (StandaloneUpdate s stk).2 stk).2).block_width_
        = s.block_width_ := hinv.2.2.1
    rw [e1, e2] at hghost
    exact hghost
  rw [cell_ExchangeGrids, sweep_keeps_ghost s stk stk hsize h2h h2w g ha' hb' hghost']
  exact hz g hg a b ha' hb' hghost'

/-- After `Init` on a representable block all ghost cells of both buffers hold zero. -/
theorem Init_GhostZero (s : HeatMap) (block_height block_width : Int) (w : MPIWrapper)
    (hsize : (toUInt block_height + 2) * (toUInt block_width + 2) < UINT_MOD) :
    GhostZero (Init s block_height block_width w).2 := by
  have hf := Init_fields s block_height block_width w
  intro g hg a b ha hb hghost
  rw [hf.2.2.1] at ha hghost
  rw [hf.2.2.2] at hb hghost
  rcases hg with hg | hg
  · rw [hg]
    exact Init_ghost s block_height block_width w hsize ha hb hghost
  · rw [hg]
    unfold cell
    apply Init_other s block_height block_width w hsize
    have hsz' : ((Init s block_height block_width w).2.block_height_ + 2)
        * ((Init s block_height block_width w).2.block_width_ + 2) < UINT_MOD := by
      rw [hf.2.2.1, hf.2.2.2]; exact hsize
    have := cellOffset_lt (Init s block_height block_width w).2 hsz'
      (show a < (Init s block_height block_width w).2.block_height_ + 2 by rw [hf.2.2.1]; exact ha)
      (show b < (Init s block_height block_width w).2.block_width_ + 2 by rw [hf.2.2.2]; exact hb)
    rw [hf.2.2.1, hf.2.2.2] at this
    exact this

/-- A worker without neighbours on a representable block with at least two
rows and two columns: after `Init` and after any number of passes of the
pipeline every ghost cell of both buffers holds zero, and no transfer has been
issued (the wrapper is unchanged). -/
theorem ghost_cells_stay_zero (stk : Nat → Stack) (incoming : Nat → CHANNEL → Nat → ℚ)
    (w : MPIWrapper) (hnn : ∀ ch, w.neighbors_ ch = none) :
    ∀ (n i : Nat) (s : HeatMap),
      (s.block_height_ + 2) * (s.block_width_ + 2) < UINT_MOD →
      2 ≤ s.block_height_ → 2 ≤ s.block_width_ → GhostZero s →
      GhostZero (pipelineSteps stk incoming n i (s, w)).1 ∧
      (pipelineSteps stk incoming n i (s, w)).2 = w := by
  intro n
  induction n with
  | zero => intro i s _ _ _ hz; exact ⟨hz, rfl⟩
  | succ n ih =>
    intro i s hsize h2h h2w hz
    obtain ⟨g1, g2, g3, g4⟩ := pipelineStep_GhostZero s w (stk i) (incoming i) hnn hsize h2h h2w hz
    show GhostZero (pipelineSteps stk incoming n (i + 1) (pipelineStep (s, w) (stk i) (incoming i))).1
      ∧ (pipelineSteps stk incoming n (i + 1) (pipelineStep (s, w) (stk i) (incoming i))).2 = w
    have hp : pipelineStep (s, w) (stk i) (incoming i)
        = ((pipelineStep (s, w) (stk i) (incoming i)).1, w) := Prod.ext rfl g4
    rw [hp]
    exact ih (i + 1) _ (by rw [g2, g3]; exact hsize) (by rw [g2]; exact h2h)
      (by rw [g3]; exact h2w) g1

/-- On a representable block with at least two rows and two columns the
interior pass does not depend on ghost data: two states with the same
dimensions and indicator that agree on all owned cells of the working buffer
and on the other buffer get the same other buffer from `StandaloneUpdate`. -/
theorem StandaloneUpdate_ignores_ghost (s t : HeatMap) (stk1 stk2 : Stack)
    (hsize : (s.block_height_ + 2) * (s.block_width_ + 2) < UINT_MOD)
    (hw : s.working_grid_ = 0 ∨ s.working_grid_ = 1)
    (h2h : 2 ≤ s.block_height_) (h2w : 2 ≤ s.block_width_)
    (eh : t.block_height_ = s.block_height_) (ew : t.block_width_ = s.block_width_)
    (eg : t.working_grid_ = s.working_grid_)
    (hown : ∀ i j, 1 ≤ i → i ≤ s.block_height_ → 1 ≤ j → j ≤ s.block_width_ →
      cell s s.working_grid_ i j = cell t s.working_grid_ i j)
    (hother : s.grids_ (1 - s.working_grid_) = t.grids_ (1 - s.working_grid_)) :
    (StandaloneUpdate s stk1).2.grids_ (1 - s.working_grid_)
      = (StandaloneUpdate t stk2).2.grids_ (1 - s.working_grid_) := by
  have hd := dims_lt hsize
  have hsizet : (t.block_height_ + 2) * (t.block_width_ + 2) < UINT_MOD := by
    rw [eh, ew]; exact hsize
  funext k
  by_cases hk : ∃ i j, 2 ≤ i ∧ i < s.block_height_ ∧ 2 ≤ j ∧ j < s.block_width_
      ∧ k = cellOffset s i j
  · obtain ⟨i, j, hi1, hi2, hj1, hj2, rfl⟩ := hk
    have u1 := StandaloneUpdate_interior s hsize hw hi1 hi2 hj1 hj2 s stk1 (SweepInv_refl s)
    have u2 := StandaloneUpdate_interior t hsizet (by rw [eg]; exact hw)
      (show 2 ≤ i from hi1) (show i < t.block_height_ by rw [eh]; exact hi2)
      (show 2 ≤ j from hj1) (show j < t.block_width_ by rw [ew]; exact hj2) t stk2
      (SweepInv_refl t)
    have h2 := u2.2
    rw [eg, cellOffset_congr ew] at h2
    rw [u1.2, h2]
    unfold jacobi
    rw [hown i j (by omega) (by omega) (by omega) (by omega),
      hown (i - 1) j (by omega) (by omega) (by omega) (by omega),
      hown (i + 1) j (by omega) (by omega) (by omega) (by omega),
      hown i (j - 1) (by omega) (by omega) (by omega) (by omega),
      hown i (j + 1) (by omega) (by omega) (by omega) (by omega)]
  · have hk' : ∀ i j, 2 ≤ i → i < s.block_height_ → 2 ≤ j → j < s.block_width_ →
        ((1 - s.working_grid_) ≠ 1 - s.working_grid_ ∨ k ≠ cellOffset s i j) := by
      intro i j hi1 hi2 hj1 hj2
      right
      intro h
      exact hk ⟨i, j, hi1, hi2, hj1, hj2, h⟩
    rw [StandaloneUpdate_frame s stk1 h2h h2w (by omega) (by omega) _ k hk',
      StandaloneUpdate_frame t stk2 (by rw [eh]; exact h2h) (by rw [ew]; exact h2w)
        (by rw [eh]; omega) (by rw [ew]; omega) _ k
        (by rw [eh, ew, eg]; intro i j a1 a2 a3 a4; rw [cellOffset_congr ew]; exact hk' i j a1 a2 a3 a4),
      hother]

end HeatMap

/-! ## The interior pass on a block of height one -/

namespace HeatMap

/-- On a `1 x 3` block the counter of the outer loop of `StandaloneUpdate`
starts at `2`, beyond its bound `1`, and wraps around: the pass calls
`CellUpdate` on the rows `2, 3, ..., 2^32-1, 0`.  The rows `3 ..` are rejected
by `SetCellValue`; what remains is `CellUpdate(2, 2)` then `CellUpdate(0, 2)`,
both on ghost cells. -/
theorem StandaloneUpdate_one_by_three (s : HeatMap) (stk : Stack)
    (hbh : s.block_height_ = 1) (hbw : s.block_width_ = 3) :
    (StandaloneUpdate s stk).2
      = (CellUpdate (CellUpdate s 2 2 (stk 2 2)).2 0 2 (stk 0 2)).2 := by
  have hrow : ∀ (i : Nat) (t : HeatMap),
      forUInt 2 3 (fun j s2 => (CellUpdate s2 i j (stk i j)).2) t
        = (CellUpdate t i 2 (stk i 2)).2 := by
    intro i t
    rw [forUInt_eq_iterFrom _ (by decide) (by decide)]
    have e : usub 3 2 = 1 := by decide
    rw [e]
    rfl
  have e : usub 1 2 = 1 + (4294967293 + 1) := by decide
  have e3 : u32 (2 + 1) = 3 := by decide
  have e0 : u32 (3 + 4294967293) = 0 := by decide
  unfold StandaloneUpdate
  simp only []
  rw [hbh, hbw, forUInt_eq_iterFrom _ (by decide) (by decide), e,
    iterFrom_add _ 1 _ 2 s (by decide), iterFrom_add _ 4294967293 1 (u32 (2 + 1)) _ (u32_lt _),
    e3, e0]
  have h1 : iterFrom (fun i s1 => forUInt 2 3 (fun j s2 => (CellUpdate s2 i j (stk i j)).2) s1)
      1 2 s = (CellUpdate s 2 2 (stk 2 2)).2 := hrow 2 s
  rw [h1]
  have hf := CellUpdate_fields s 2 2 (stk 2 2)
  rw [iterFrom_skip _ 4294967293 3 _ _ (by decide)]
  · exact hrow 0 _
  · intro m hm
    rw [hrow]
    apply CellUpdate_oob
    left
    rw [hf.2.1, hbh]
    have e4 : u32 (1 + 2) = 3 := by decide
    rw [e4, u32_of_lt (by unfold UINT_MOD; omega)]
    omega

/-- The value `CellUpdate(2, 2)` computes on a `1 x 3` block: the cell is a
ghost cell of row `block_height_+1`, its lower neighbour is outside the padded
extent, so `val[BOTTOM]` keeps the content it had at entry. -/
theorem new_val_one_by_three (s : HeatMap) (val : CHANNEL → ℚ)
    (hw : s.working_grid_ = 0) (hbh : s.block_height_ = 1) (hbw : s.block_width_ = 3) :
    new_val s 2 2 val
      = cell s 0 2 2 + (1 / 10 : ℚ) * (cell s 0 1 2 + val CHANNEL.BOTTOM - 2 * cell s 0 2 2)
        + (1 / 10 : ℚ) * (cell s 0 2 3 + cell s 0 2 1 - 2 * cell s 0 2 2) := by
  have eH : u32 (s.block_height_ + 2) = 3 := by rw [hbh]; decide
  have eW : u32 (s.block_width_ + 2) = 5 := by rw [hbw]; decide
  have e1 : usub 2 1 = 1 := by decide
  have e3 : u32 (2 + 1) = 3 := by decide
  unfold new_val cell
  simp only []
  rw [hw, e1, e3,
    @GetCellValue_ok s 2 2 0 _ (by rw [eH]; decide) (by rw [eW]; decide) (Or.inl rfl),
    @GetCellValue_ok s 2 1 0 _ (by rw [eH]; decide) (by rw [eW]; decide) (Or.inl rfl),
    @GetCellValue_ok s 1 2 0 _ (by rw [eH]; decide) (by rw [eW]; decide) (Or.inl rfl),
    @GetCellValue_ok s 2 3 0 _ (by rw [eH]; decide) (by rw [eW]; decide) (Or.inl rfl),
    @GetCellValue_fail s 3 2 0 _ (Or.inl (by rw [eH]))]

/-- On a `1 x 3` block `StandaloneUpdate` writes the ghost cell `(2, 2)` of
the other buffer. -/
theorem StandaloneUpdate_ghost_written (s : HeatMap) (stk : Stack)
    (hw : s.working_grid_ = 0) (hbh : s.block_height_ = 1) (hbw : s.block_width_ = 3) :
    cell (StandaloneUpdate s stk).2 1 2 2
      = cell s 0 2 2
        + (1 / 10 : ℚ) * (cell s 0 1 2 + stk 2 2 CHANNEL.BOTTOM - 2 * cell s 0 2 2)
        + (1 / 10 : ℚ) * (cell s 0 2 3 + cell s 0 2 1 - 2 * cell s 0 2 2) := by
  have eH : u32 (s.block_height_ + 2) = 3 := by rw [hbh]; decide
  have eW : u32 (s.block_width_ + 2) = 5 := by rw [hbw]; decide
  have hf := CellUpdate_fields s 2 2 (stk 2 2)
  have hf2 := CellUpdate_fields (CellUpdate s 2 2 (stk 2 2)).2 0 2 (stk 0 2)
  have hc : ∀ (t : HeatMap) (i j : Nat), t.block_width_ = 3 →
      cellOffset t i j = u32 (i * 5) + j := by
    intro t i j ht
    unfold cellOffset
    rw [ht]
    rfl
  unfold cell
  rw [StandaloneUpdate_one_by_three s stk hbh hbw, hc _ 2 2 (hf2.2.2.trans (hf.2.2.trans hbw)),
    CellUpdate_other _ 0 2 _ 1 _ (Or.inr (by rw [hc _ 0 2 (hf.2.2.trans hbw)]; decide)),
    CellUpdate_inb s _ (by rw [eH]; decide) (by rw [eW]; decide) (Or.inl hw), hw,
    hc s 2 2 hbw, show (1 : Int) - 0 = 1 from rfl, store_same,
    new_val_one_by_three s _ hw hbh hbw]
  unfold cell
  rw [hc s 2 2 hbw]

/-- On a `1 x 3` block `CollaborativeUpdate` does not touch the element at
offset `12` (the ghost cell `(2, 2)`) of buffer 1. -/
theorem CollaborativeUpdate_one_by_three (t : HeatMap) (stk : Stack)
    (hbh : t.block_height_ = 1) (hbw : t.block_width_ = 3) :
    (CollaborativeUpdate t stk).2.block_width_ = 3 ∧
    (CollaborativeUpdate t stk).2.grids_ 1 12 = t.grids_ 1 12 := by
  have hstep : ∀ (u : HeatMap) (i j : Nat) (val : CHANNEL → ℚ), u32 (i * 5) + j ≠ 12 →
      (u.block_width_ = 3 ∧ u.grids_ 1 12 = t.grids_ 1 12) →
      ((CellUpdate u i j val).2.block_width_ = 3 ∧
        (CellUpdate u i j val).2.grids_ 1 12 = t.grids_ 1 12) := by
    intro u i j val hne hu
    refine ⟨(CellUpdate_fields u i j val).2.2.trans hu.1, ?_⟩
    rw [CellUpdate_other u i j val 1 12 (Or.inr _)]
    · exact hu.2
    · unfold cellOffset
      rw [hu.1]
      exact fun h => hne h.symm
  have e4 : u32 (1 + 3) = 4 := by decide
  have e2 : u32 (1 + 1) = 2 := by decide
  have e5 : u32 (1 * 5) = 5 := by decide
  unfold CollaborativeUpdate
  simp only []
  rw [hbh, hbw, e4, e2]
  refine forUInt_preserves_range
    (fun u : HeatMap => u.block_width_ = 3 ∧ u.grids_ 1 12 = t.grids_ 1 12) _
    (show 1 ≤ 2 by decide) (show 2 < UINT_MOD by decide) ?_ _ ?_
  · intro i hi1 hi2 u hu
    have hi : i = 1 := by omega
    subst hi
    exact hstep _ _ _ _ (by rw [e5]; decide) (hstep _ _ _ _ (by rw [e5]; decide) hu)
  · refine forUInt_preserves_range
      (fun u : HeatMap => u.block_width_ = 3 ∧ u.grids_ 1 12 = t.grids_ 1 12) _
      (show 1 ≤ 4 by decide) (show 4 < UINT_MOD by decide) ?_ t ⟨hbw, rfl⟩
    intro j hj1 hj2 u hu
    exact hstep _ _ _ _ (by rw [e5]; omega) (hstep _ _ _ _ (by rw [e5]; omega) hu)

/-- Without neighbours, one pass of the pipeline on a `1 x 3` block leaves in
the ghost cell `(2, 2)` of buffer 1 the value `StandaloneUpdate` wrote. -/
theorem pipelineStep_one_by_three (s : HeatMap) (w : MPIWrapper) (stk : Stack)
    (incoming : CHANNEL → Nat → ℚ) (hnn : ∀ ch, w.neighbors_ ch = none)
    (hw : s.working_grid_ = 0) (hbh : s.block_height_ = 1) (hbw : s.block_width_ = 3) :
    cell (pipelineStep (s, w) stk incoming).1 1 2 2
      = cell s 0 2 2
        + (1 / 10 : ℚ) * (cell s 0 1 2 + stk 2 2 CHANNEL.BOTTOM - 2 * cell s 0 2 2)
        + (1 / 10 : ℚ) * (cell s 0 2 3 + cell s 0 2 1 - 2 * cell s 0 2 2) := by
  have hs := StandaloneUpdate_ghost_written s stk hw hbh hbw
  have hi := StandaloneUpdate_SweepInv s s stk (SweepInv_refl s)
  have hc := CollaborativeUpdate_one_by_three (StandaloneUpdate s stk).2 stk
    (hi.2.1.trans hbh) (hi.2.2.1.trans hbw)
  have hoff : ∀ t : HeatMap, t.block_width_ = 3 → cellOffset t 2 2 = 12 := by
    intro t ht
    unfold cellOffset
    rw [ht]
    rfl
  have e1 : cell (pipelineStep (s, w) stk incoming).1 1 2 2
      = cell (CollaborativeUpdate (StandaloneUpdate s stk).2 stk).2 1 2 2 := by
    rw [pipelineStep_no_neighbor_map s w stk incoming hnn]
    exact cell_ExchangeGrids (CollaborativeUpdate (StandaloneUpdate s stk).2 stk).2 1 2 2
  have e2 : cell (CollaborativeUpdate (StandaloneUpdate s stk).2 stk).2 1 2 2
      = cell (StandaloneUpdate s stk).2 1 2 2 := by
    unfold cell
    rw [hoff (CollaborativeUpdate (StandaloneUpdate s stk).2 stk).2 hc.1,
      hoff (StandaloneUpdate s stk).2 (hi.2.2.1.trans hbw), hc.2]
  rw [e1, e2, hs]

end HeatMap

/-! ## Topology creation -/

theorem toUInt_natCast (n : Nat) : toUInt (n : Int) = u32 n := by
  unfold toUInt u32
  rw [← Int.natCast_mod, Int.toNat_natCast]

theorem imul_natCast {c n : Nat} (h : c * n < UINT_MOD) : HeatMap.imul (c : Int) n = c * n := by
  unfold HeatMap.imul
  rw [toUInt_natCast]
  by_cases hn : n = 0
  · subst hn
    simp [u32]
  · have hc : c < UINT_MOD := by
      calc c ≤ c * n := Nat.le_mul_of_pos_right _ (by omega)
        _ < UINT_MOD := h
    rw [u32_of_lt hc, u32_of_lt h]

theorem globalIndex_eq {off i : Nat} (hi : 1 ≤ i) (h : i + off < UINT_MOD) :
    HeatMap.globalIndex off i = off + i - 1 := by
  unfold HeatMap.globalIndex
  rw [usub_of_le (by omega) hi, u32_of_lt (by omega)]
  omega

theorem MPIWrapper.CreateTopology_abort (w : MPIWrapper) (env : CartEnv) (height width : Int)
    (h : Int.tmod height env.d0 ≠ 0 ∨ Int.tmod width env.d1 ≠ 0) :
    w.CreateTopology env height width = TopologyResult.aborted 1
      (if w.rank_ = 0 then
        [Diagnostic.incompatible, Diagnostic.triedToSplit height width env.d0 env.d1]
       else []) := by
  unfold MPIWrapper.CreateTopology
  rw [if_pos h]

theorem MPIWrapper.CreateTopology_ok (w : MPIWrapper) (env : CartEnv) (height width : Int)
    (h : ¬ (Int.tmod height env.d0 ≠ 0 ∨ Int.tmod width env.d1 ≠ 0)) :
    ∃ w1, w.CreateTopology env height width = TopologyResult.returned 0 w1 ∧
      w1.topology_height_ = env.d0 ∧ w1.topology_width_ = env.d1 ∧
      w1.topology_coord_x_ = env.coord_x ∧ w1.topology_coord_y_ = env.coord_y ∧
      w1.block_height_ = Int.tdiv height env.d0 ∧ w1.block_width_ = Int.tdiv width env.d1 ∧
      w1.neighbors_ = env.shift ∧ w1.requests_ = w.requests_ ∧ w1.rank_ = env.cart_rank := by
  unfold MPIWrapper.CreateTopology
  rw [if_neg h]
  exact ⟨_, rfl, rfl, rfl, rfl, rfl, rfl, rfl, rfl, rfl, rfl⟩

/-- A one-process run: `Init` then `CreateTopology` yield the wrapper `solo`. -/
theorem MPIWrapper.CreateTopology_solo (height width : Int) :
    (MPIWrapper.Init MPIWrapper.blank 0 1).2.CreateTopology soloEnv height width
      = TopologyResult.returned 0 (MPIWrapper.solo height width) := by
  unfold MPIWrapper.CreateTopology
  rw [if_neg]
  · simp [MPIWrapper.Init, MPIWrapper.blank, MPIWrapper.solo, MPIWrapper.CreateTypes,
      MPIWrapper.AssignNeighbors, soloEnv, Int.tdiv_one]
  · simp [soloEnv, Int.tmod_one]

/-- When the factorisation divides the grid, `CreateTopology` returns and
stores the quotients as block dimensions. -/
theorem MPIWrapper.CreateTopology_divisible (w : MPIWrapper) (env : CartEnv) (H W d0 d1 : Nat)
    (he0 : env.d0 = d0) (he1 : env.d1 = d1) (h0 : d0 ∣ H) (h1 : d1 ∣ W) :
    ∃ w1, w.CreateTopology env H W = TopologyResult.returned 0 w1 ∧
      w1.topology_height_ = (d0 : Int) ∧ w1.topology_width_ = (d1 : Int) ∧
      w1.topology_coord_x_ = env.coord_x ∧ w1.topology_coord_y_ = env.coord_y ∧
      w1.block_height_ = ((H / d0 : Nat) : Int) ∧ w1.block_width_ = ((W / d1 : Nat) : Int) := by
  have hnd : ¬ (Int.tmod (H : Int) env.d0 ≠ 0 ∨ Int.tmod (W : Int) env.d1 ≠ 0) := by
    rw [he0, he1]
    have e0 : Int.tmod (H : Int) (d0 : Int) = ((H % d0 : Nat) : Int) := rfl
    have e1 : Int.tmod (W : Int) (d1 : Int) = ((W % d1 : Nat) : Int) := rfl
    rw [e0, e1, Nat.mod_eq_zero_of_dvd h0, Nat.mod_eq_zero_of_dvd h1]
    simp
  obtain ⟨w1, hw1, a1, a2, a3, a4, a5, a6, _⟩ := MPIWrapper.CreateTopology_ok w env H W hnd
  refine ⟨w1, hw1, by rw [a1, he0], by rw [a2, he1], a3, a4, ?_, ?_⟩
  · rw [a5, he0]; rfl
  · rw [a6, he1]; rfl

/-- Splitting an index of `[0, d*b)` into a block number and a 1-based local
index is unique. -/
theorem block_split_unique {b : Nat} (hb : 1 ≤ b) (g c i : Nat) (hi1 : 1 ≤ i) (hi2 : i ≤ b) :
    c * b + i - 1 = g ↔ (c = g / b ∧ i = g % b + 1) := by
  constructor
  · intro h
    have hg : g = (i - 1) + b * c := by rw [← h, Nat.mul_comm]; omega
    have h1 : g / b = c := by
      rw [hg, Nat.add_mul_div_left _ _ (by omega), Nat.div_eq_of_lt (by omega), Nat.zero_add]
    have h2 : g % b = i - 1 := by
      rw [hg, Nat.add_mul_mod_self_left, Nat.mod_eq_of_lt (by omega)]
    exact ⟨h1.symm, by omega⟩
  · rintro ⟨h1, h2⟩
    have := Nat.div_add_mod g b
    rw [h1, h2, Nat.mul_comm]
    omega

/-- When the mathematical product is below `2^32` the `unsigned int`
expression of `Init` computes it exactly. -/
theorem initVal_exact {x y ox oy i j : Nat} (hi : 1 ≤ i) (hj : 1 ≤ j)
    (hx : i + ox ≤ x) (hy : j + oy ≤ y) (hxm : x < UINT_MOD) (hym : y < UINT_MOD)
    (hp : (i + ox) * (x - (ox + i - 1)) * (j + oy) * (y - (oy + j - 1)) < UINT_MOD) :
    HeatMap.initVal x y ox oy i j
      = (i + ox) * (x - (ox + i - 1)) * (j + oy) * (y - (oy + j - 1)) := by
  have gx : HeatMap.globalIndex ox i = ox + i - 1 := globalIndex_eq hi (by omega)
  have gy : HeatMap.globalIndex oy j = oy + j - 1 := globalIndex_eq hj (by omega)
  have bx : usub x (ox + i - 1) = x - (ox + i - 1) := usub_of_le hxm (by omega)
  have b_y : usub y (oy + j - 1) = y - (oy + j - 1) := usub_of_le hym (by omega)
  have hD : 1 ≤ y - (oy + j - 1) := by omega
  have hC : 1 ≤ j + oy := by omega
  have h3 : (i + ox) * (x - (ox + i - 1)) * (j + oy) < UINT_MOD :=
    lt_of_le_of_lt (Nat.le_mul_of_pos_right _ hD) hp
  have h2 : (i + ox) * (x - (ox + i - 1)) < UINT_MOD :=
    lt_of_le_of_lt (Nat.le_mul_of_pos_right _ hC) h3
  unfold HeatMap.initVal
  rw [gx, gy, bx, b_y, u32_of_lt (show i + ox < UINT_MOD by omega),
    u32_of_lt (show j + oy < UINT_MOD by omega), u32_of_lt h2, u32_of_lt h3, u32_of_lt hp]

/-- One axis of the decomposition: the global index `Init` computes for the
local index `i` of block number `c` is `c*(H/d) + i - 1`, inside `[0, H)`. -/
theorem axis_index {H d : Nat} (hH1 : 1 ≤ H) (hH : H < 2 ^ 31) (hd : d ∣ H) :
    1 ≤ H / d ∧
    (∀ c i, c < d → 1 ≤ i → i ≤ H / d →
      HeatMap.globalIndex (HeatMap.imul (c : Int) (H / d)) i = c * (H / d) + i - 1 ∧
      c * (H / d) + i - 1 < H) ∧
    (∀ g, g < H → g / (H / d) < d) := by
  have hq : d * (H / d) = H := Nat.mul_div_cancel' hd
  have hM : (2 : Nat) ^ 31 < UINT_MOD := by decide
  have hb : 1 ≤ H / d := by
    rcases Nat.eq_zero_or_pos (H / d) with h | h
    · rw [h] at hq; omega
    · exact h
  refine ⟨hb, ?_, ?_⟩
  · intro c i hc hi1 hi2
    have h1 : (c + 1) * (H / d) ≤ d * (H / d) := Nat.mul_le_mul_right _ hc
    have h2 : (c + 1) * (H / d) = c * (H / d) + H / d := by ring
    rw [imul_natCast (by omega), globalIndex_eq hi1 (by omega)]
    exact ⟨rfl, by omega⟩
  · intro g hg
    apply Nat.div_lt_of_lt_mul
    rw [Nat.mul_comm, hq]
    exact hg

/-! ## The requests of `ExchangeMessages` -/

namespace HeatMap

theorem Send_fields (w : MPIWrapper) (buf : Nat) (ch : CHANNEL) (tag : Int) :
    (w.Send buf ch tag).2.neighbors_ = w.neighbors_ ∧
    (w.Send buf ch tag).2.block_width_ = w.block_width_ ∧
    (w.Send buf ch tag).2.column_t_ = w.column_t_ := by
  unfold MPIWrapper.Send
  cases w.neighbors_ ch <;> exact ⟨rfl, rfl, rfl⟩

theorem Receive_fields (w : MPIWrapper) (buf : Nat) (ch : CHANNEL) (tag : Int) :
    (w.Receive buf ch tag).2.neighbors_ = w.neighbors_ ∧
    (w.Receive buf ch tag).2.block_width_ = w.block_width_ ∧
    (w.Receive buf ch tag).2.column_t_ = w.column_t_ := by
  unfold MPIWrapper.Receive
  cases w.neighbors_ ch <;> exact ⟨rfl, rfl, rfl⟩

theorem countAndType_congr (w v : MPIWrapper) (h1 : v.block_width_ = w.block_width_)
    (h2 : v.column_t_ = w.column_t_) (ch : CHANNEL) :
    v.countAndType ch = w.countAndType ch := by
  cases ch <;> simp [MPIWrapper.countAndType, h1, h2]

/-- The request table after `Send`. -/
theorem Send_requests (w : MPIWrapper) (buf : Nat) (ch : CHANNEL) (tag : Int)
    (c : CHANNEL) (d : DIRECTION) :
    (w.Send buf ch tag).2.requests_ c d =
      if c = ch ∧ d = DIRECTION.OUT then
        (match w.neighbors_ ch with
          | some p => some (posted w buf ch p tag)
          | none => w.requests_ c d)
      else w.requests_ c d := by
  unfold MPIWrapper.Send posted
  cases w.neighbors_ ch
  · simp
  · rfl

/-- The request table after `Receive`. -/
theorem Receive_requests (w : MPIWrapper) (buf : Nat) (ch : CHANNEL) (tag : Int)
    (c : CHANNEL) (d : DIRECTION) :
    (w.Receive buf ch tag).2.requests_ c d =
      if c = ch ∧ d = DIRECTION.IN then
        (match w.neighbors_ ch with
          | some p => some (posted w buf ch p tag)
          | none => w.requests_ c d)
      else w.requests_ c d := by
  unfold MPIWrapper.Receive posted
  cases w.neighbors_ ch
  · simp
  · rfl

end HeatMap

namespace HeatMap

theorem Send_neighbors (w : MPIWrapper) (buf : Nat) (ch : CHANNEL) (tag : Int) :
    (w.Send buf ch tag).2.neighbors_ = w.neighbors_ :=
  (Send_fields w buf ch tag).1

theorem Receive_neighbors (w : MPIWrapper) (buf : Nat) (ch : CHANNEL) (tag : Int) :
    (w.Receive buf ch tag).2.neighbors_ = w.neighbors_ :=
  (Receive_fields w buf ch tag).1

theorem posted_Send (w : MPIWrapper) (b : Nat) (c : CHANNEL) (t : Int) (buf : Nat)
    (ch : CHANNEL) (p tag : Int) :
    posted (w.Send b c t).2 buf ch p tag = posted w buf ch p tag := by
  unfold posted
  rw [countAndType_congr w _ (Send_fields w b c t).2.1 (Send_fields w b c t).2.2 ch]

theorem posted_Receive (w : MPIWrapper) (b : Nat) (c : CHANNEL) (t : Int) (buf : Nat)
    (ch : CHANNEL) (p tag : Int) :
    posted (w.Receive b c t).2 buf ch p tag = posted w buf ch p tag := by
  unfold posted
  rw [countAndType_congr w _ (Receive_fields w b c t).2.1 (Receive_fields w b c t).2.2 ch]

/-- What `ExchangeMessages` posts on a channel that has a neighbour: a send
from `sendBuf` with `sendTag` and a receive into `recvBuf` with `recvTag`. -/
theorem ExchangeMessages_requests (s : HeatMap) (w : MPIWrapper) (ch : CHANNEL) (p : Int)
    (h : w.neighbors_ ch = some p) :
    (ExchangeMessages s w).2.requests_ ch DIRECTION.OUT
        = some (posted w (sendBuf s ch) ch p (sendTag ch)) ∧
    (ExchangeMessages s w).2.requests_ ch DIRECTION.IN
        = some (posted w (recvBuf s ch) ch p (recvTag ch)) := by
  unfold ExchangeMessages
  cases ch <;>
    simp only [Send_requests, Receive_requests, Send_neighbors, Receive_neighbors, posted_Send,
      posted_Receive, h, sendBuf, recvBuf, sendTag, recvTag, reduceCtorEq, and_self, and_true,
      and_false, false_and, true_and, if_true, if_false]

end HeatMap

/-! ## The regions of the transfers -/

namespace HeatMap

end HeatMap

namespace HeatMap

end HeatMap

/-! ## The calls of `CellUpdate` made by the stencil passes -/

/-- Counting through a loop whose body adds `c` at counter value `a` and
nothing at any other: the loop adds `c` exactly when its range, which may wrap
around `2^32`, contains `a`. -/
theorem iterFrom_count {σ : Type} (cnt : σ → Nat) (body : Nat → σ → σ) (a c : Nat)
    (ha : a < UINT_MOD)
    (hb : ∀ k s, cnt (body k s) = cnt s + if k = a then c else 0) :
    ∀ (n i : Nat) (s : σ), i < UINT_MOD → n ≤ UINT_MOD →
      cnt (iterFrom body n i s) = cnt s + if usub a i < n then c else 0 := by
  intro n
  induction n with
  | zero =>
    intro i s _ _
    rw [if_neg (by omega)]
    rfl
  | succ n ih =>
    intro i s hi hn
    show cnt (iterFrom body n (u32 (i + 1)) (body i s)) = _
    rw [ih _ _ (u32_lt _) (by omega), hb]
    by_cases h : i = a
    · subst h
      have e1 : usub i i = 0 := usub_self_eq i
      have e2 : usub i (u32 (i + 1)) = UINT_MOD - 1 := by
        simp only [usub, u32, UINT_MOD] at *
        omega
      rw [if_pos rfl, e1, e2, if_neg (by omega), if_pos (by omega)]
      rfl
    · have e := usub_step hi ha h
      rw [if_neg h, e]
      by_cases h2 : usub a (u32 (i + 1)) < n
      · rw [if_pos h2, if_pos (by omega)]
        rfl
      · rw [if_neg h2, if_neg (by omega)]

theorem forUInt_count {σ : Type} (cnt : σ → Nat) (body : Nat → σ → σ) (a c : Nat)
    (ha : a < UINT_MOD)
    (hb : ∀ k s, cnt (body k s) = cnt s + if k = a then c else 0)
    {start stop : Nat} (hstart : start < UINT_MOD) (hstop : stop < UINT_MOD) (s : σ) :
    cnt (forUInt start stop body s)
      = cnt s + if usub a start < usub stop start then c else 0 := by
  rw [forUInt_eq_iterFrom body hstart hstop]
  exact iterFrom_count cnt body a c ha hb _ _ s hstart (le_of_lt (u32_lt _))

namespace HeatMap

theorem count_record (a b i j : Nat) (l : List (Nat × Nat)) :
    List.count (a, b) (record i j l)
      = List.count (a, b) l + if j = b then (if i = a then 1 else 0) else 0 := by
  unfold record
  rw [List.count_append, List.count_singleton]
  by_cases h1 : j = b <;> by_cases h2 : i = a <;> simp [h1, h2]

/-- `StandaloneUpdate` is its loop nest with `CellUpdate` as the visit. -/
theorem StandaloneUpdate_eq_loop (s : HeatMap) (stk : Stack) :
    StandaloneUpdate s stk
      = (0, standaloneLoop s.block_height_ s.block_width_
              (fun i j t => (CellUpdate t i j (stk i j)).2) s) :=
  rfl

/-- `CollaborativeUpdate` is its two loops with `CellUpdate` as the visit. -/
theorem CollaborativeUpdate_eq_loop (s : HeatMap) (stk : Stack) :
    CollaborativeUpdate s stk
      = (0, collaborativeLoop s.block_height_ s.block_width_
              (fun i j t => (CellUpdate t i j (stk i j)).2) s) :=
  rfl

/-- Number of calls `CellUpdate(a, b)` made by `StandaloneUpdate`, for every
block size: one if the (wrapping) ranges of both counters contain the cell,
none otherwise. -/
theorem standaloneCalls_count (bh bw a b : Nat) (hbh : bh < UINT_MOD) (hbw : bw < UINT_MOD)
    (ha : a < UINT_MOD) (hb : b < UINT_MOD) (l : List (Nat × Nat)) :
    List.count (a, b) (standaloneCalls bh bw l)
      = List.count (a, b) l
        + if usub a 2 < usub bh 2 ∧ usub b 2 < usub bw 2 then 1 else 0 := by
  unfold standaloneCalls standaloneLoop
  rw [forUInt_count (List.count (a, b)) _ a (if usub b 2 < usub bw 2 then 1 else 0) ha _
    (by decide) hbh]
  · by_cases h1 : usub a 2 < usub bh 2 <;> by_cases h2 : usub b 2 < usub bw 2 <;>
      simp [h1, h2]
  · intro i t
    rw [forUInt_count (List.count (a, b)) _ b (if i = a then 1 else 0) hb _ (by decide) hbw]
    · by_cases h1 : i = a <;> by_cases h2 : usub b 2 < usub bw 2 <;> simp [h1, h2]
    · intro j t1
      exact count_record a b i j t1

/-- Number of calls `CellUpdate(a, b)` made by `CollaborativeUpdate`. -/
theorem collaborativeCalls_count (bh bw a b : Nat)
    (ha : a < UINT_MOD) (hb : b < UINT_MOD) (l : List (Nat × Nat)) :
    List.count (a, b) (collaborativeCalls bh bw l)
      = List.count (a, b) l
        + (if usub b 1 < usub (u32 (1 + bw)) 1 then
            (if 1 = a then 1 else 0) + (if bh = a then 1 else 0) else 0)
        + (if usub a 1 < usub (u32 (1 + bh)) 1 then
            (if 1 = b then 1 else 0) + (if bw = b then 1 else 0) else 0) := by
  unfold collaborativeCalls collaborativeLoop
  rw [forUInt_count (List.count (a, b)) _ a
    ((if 1 = b then 1 else 0) + (if bw = b then 1 else 0)) ha _ (by decide) (u32_lt _)]
  · rw [forUInt_count (List.count (a, b)) _ b
      ((if 1 = a then 1 else 0) + (if bh = a then 1 else 0)) hb _ (by decide) (u32_lt _)]
    intro j t
    rw [count_record, count_record]
    by_cases h : j = b <;> simp [h, Nat.add_assoc]
  · intro i t
    rw [count_record, count_record]
    by_cases h1 : 1 = b <;> by_cases h2 : bw = b <;> by_cases h3 : i = a <;>
      simp [h1, h2, h3, Nat.add_assoc]

end HeatMap

namespace HeatMap

/-- On a block with at least two rows and two columns the interior pass calls
`CellUpdate` once on every cell of rows `2 .. bh-1` and columns `2 .. bw-1`
and on no other cell. -/
theorem standaloneCalls_regular (bh bw a b : Nat) (h2h : 2 ≤ bh) (hbh : bh < UINT_MOD)
    (h2w : 2 ≤ bw) (hbw : bw < UINT_MOD) (ha : a < UINT_MOD) (hb : b < UINT_MOD) :
    List.count (a, b) (standaloneCalls bh bw [])
      = if 2 ≤ a ∧ a ≤ bh - 1 ∧ 2 ≤ b ∧ b ≤ bw - 1 then 1 else 0 := by
  rw [standaloneCalls_count bh bw a b hbh hbw ha hb, List.count_nil, Nat.zero_add]
  have e : (usub a 2 < usub bh 2 ∧ usub b 2 < usub bw 2)
      ↔ (2 ≤ a ∧ a ≤ bh - 1 ∧ 2 ≤ b ∧ b ≤ bw - 1) := by
    simp only [usub, u32, UINT_MOD] at *
    omega
  rw [if_congr e rfl rfl]

/-- Number of calls `CellUpdate(a, b)` one full iteration makes for an owned
cell. -/
theorem iterationCalls_count (bh bw a b : Nat) (hbh : bh + 1 < UINT_MOD)
    (hbw : bw + 1 < UINT_MOD) (ha1 : 1 ≤ a) (ha2 : a ≤ bh) (hb1 : 1 ≤ b) (hb2 : b ≤ bw) :
    List.count (a, b) (iterationCalls bh bw) = callCount bh bw a b := by
  unfold iterationCalls callCount
  rw [collaborativeCalls_count bh bw a b (by omega) (by omega),
    standaloneCalls_count bh bw a b (by omega) (by omega) (by omega) (by omega),
    List.count_nil, Nat.zero_add]
  have e1 : (usub a 2 < usub bh 2 ∧ usub b 2 < usub bw 2)
      ↔ (2 ≤ a ∧ a < bh ∧ 2 ≤ b ∧ b < bw) := by
    simp only [usub, u32, UINT_MOD] at *
    omega
  have e2 : usub b 1 < usub (u32 (1 + bw)) 1 := by
    simp only [usub, u32, UINT_MOD] at *
    omega
  have e3 : usub a 1 < usub (u32 (1 + bh)) 1 := by
    simp only [usub, u32, UINT_MOD] at *
    omega
  rw [if_congr e1 rfl rfl, if_pos e2, if_pos e3]
  have c1 : (if 1 = a then 1 else 0) = (if a = 1 then 1 else 0) := if_congr eq_comm rfl rfl
  have c2 : (if bh = a then 1 else 0) = (if a = bh then 1 else 0) := if_congr eq_comm rfl rfl
  have c3 : (if 1 = b then 1 else 0) = (if b = 1 then 1 else 0) := if_congr eq_comm rfl rfl
  have c4 : (if bw = b then 1 else 0) = (if b = bw then 1 else 0) := if_congr eq_comm rfl rfl
  rw [c1, c2, c3, c4]

end HeatMap

/-! ## Loops with `return` -/

theorem passRet_error {σ ρ : Type} (body : Nat → σ → Except ρ σ) (i : Nat) (r : ρ) :
    passRet body i (Except.error r) = Except.error r :=
  rfl

theorem passRet_ok {σ ρ : Type} (body : Nat → σ → Except ρ σ) (i : Nat) (s : σ) :
    passRet body i (Except.ok s) = body i s :=
  rfl

/-- A loop with `return` is the plain loop over the bodies that pass a
returned state through. -/
theorem forUIntFuelRet_eq {σ ρ : Type} (body : Nat → σ → Except ρ σ) (stop : Nat) :
    ∀ (fuel i : Nat) (s : σ),
      forUIntFuelRet body stop fuel i s
        = forUIntFuel (passRet body) stop fuel i (Except.ok s) := by
  intro fuel
  induction fuel with
  | zero => intro i s; rfl
  | succ n ih =>
    intro i s
    unfold forUIntFuelRet forUIntFuel
    by_cases h : i = stop
    · rw [if_pos h, if_pos h]
    · rw [if_neg h, if_neg h, passRet_ok]
      cases hb : body i s with
      | error r =>
        exact (forUIntFuel_preserves (fun st => st = Except.error r) (passRet body) stop
          (fun k st hst => by rw [hst]; rfl) n _ _ rfl).symm
      | ok s1 => exact ih _ s1

theorem forUIntRet_eq {σ ρ : Type} (start stop : Nat) (body : Nat → σ → Except ρ σ) (s : σ) :
    forUIntRet start stop body s = forUInt start stop (passRet body) (Except.ok s) :=
  forUIntFuelRet_eq body stop _ _ s

/-! ## `CheckConvergence` -/

namespace HeatMap

/-- The test of `CheckConvergence` on a cell inside the padded extent. -/
theorem convergenceBody_owned (s : HeatMap) (dsub : ℚ → ℚ → ℚ)
    (hw : s.working_grid_ = 0 ∨ s.working_grid_ = 1)
    {i j : Nat} (hi : i < u32 (s.block_height_ + 2)) (hj : j < u32 (s.block_width_ + 2))
    (v : ℚ × ℚ) :
    convergenceBody s dsub i j v
      = if UnderEpsilon s dsub i j then Except.error (0, 1)
        else Except.ok (cell s s.working_grid_ i j, cell s (1 - s.working_grid_) i j) := by
  unfold convergenceBody UnderEpsilon
  rw [GetCellValue_ok s v.1 hi hj hw, GetCellValue_ok s v.2 hi hj (by omega)]
  rfl

/-- The result of the scan of `CheckConvergence`: it returns from inside the
loops, with status `0` and flag `1`, exactly if some owned cell is under the
threshold. -/
theorem scan_result (s : HeatMap) (dsub : ℚ → ℚ → ℚ)
    (hw : s.working_grid_ = 0 ∨ s.working_grid_ = 1)
    (hh : s.block_height_ + 2 < UINT_MOD) (hwd : s.block_width_ + 2 < UINT_MOD)
    (v : ℚ × ℚ) :
    ((∃ i j, Owned s i j ∧ UnderEpsilon s dsub i j) →
      forUIntRet 1 (u32 (1 + s.block_height_))
        (fun i v1 => forUIntRet 1 (u32 (1 + s.block_width_))
          (fun j v2 => convergenceBody s dsub i j v2) v1) v = Except.error (0, 1)) ∧
    (∀ r, forUIntRet 1 (u32 (1 + s.block_height_))
        (fun i v1 => forUIntRet 1 (u32 (1 + s.block_width_))
          (fun j v2 => convergenceBody s dsub i j v2) v1) v = Except.error r →
      r = (0, 1) ∧ ∃ i j, Owned s i j ∧ UnderEpsilon s dsub i j) := by
  have eH : u32 (1 + s.block_height_) = 1 + s.block_height_ := u32_of_lt (by omega)
  have eW : u32 (1 + s.block_width_) = 1 + s.block_width_ := u32_of_lt (by omega)
  have eH2 : u32 (s.block_height_ + 2) = s.block_height_ + 2 := u32_of_lt hh
  have eW2 : u32 (s.block_width_ + 2) = s.block_width_ + 2 := u32_of_lt hwd
  have sound : ∀ r, forUIntRet 1 (u32 (1 + s.block_height_))
        (fun i v1 => forUIntRet 1 (u32 (1 + s.block_width_))
          (fun j v2 => convergenceBody s dsub i j v2) v1) v = Except.error r →
      r = (0, 1) ∧ ∃ i j, Owned s i j ∧ UnderEpsilon s dsub i j := by
    rw [forUIntRet_eq, eH]
    refine forUInt_preserves_range
      (fun st : Except (Int × Int) (ℚ × ℚ) => ∀ r, st = Except.error r →
        r = (0, 1) ∧ ∃ i j, Owned s i j ∧ UnderEpsilon s dsub i j) _
      (Nat.le_add_right 1 _) (by omega) ?_ (Except.ok v) ?_
    · intro i hi1 hi2 st hst
      cases st with
      | error r0 => exact hst
      | ok v1 =>
        rw [passRet_ok, forUIntRet_eq, eW]
        refine forUInt_preserves_range
          (fun st : Except (Int × Int) (ℚ × ℚ) => ∀ r, st = Except.error r →
            r = (0, 1) ∧ ∃ i j, Owned s i j ∧ UnderEpsilon s dsub i j) _
          (Nat.le_add_right 1 _) (by omega) ?_ (Except.ok v1) ?_
        · intro j hj1 hj2 st2 hst2
          cases st2 with
          | error r0 => exact hst2
          | ok v2 =>
            rw [passRet_ok, convergenceBody_owned s dsub hw (by omega) (by omega)]
            by_cases hu : UnderEpsilon s dsub i j
            · rw [if_pos hu]
              intro r hr
              cases hr
              exact ⟨rfl, i, j, ⟨hi1, by omega, hj1, by omega⟩, hu⟩
            · rw [if_neg hu]
              intro r hr
              cases hr
        · intro r hr
          cases hr
    · intro r hr
      cases hr
  refine ⟨?_, sound⟩
  rintro ⟨a, b, hown, hu⟩
  unfold Owned at hown
  have herr : ∃ r, forUIntRet 1 (u32 (1 + s.block_height_))
        (fun i v1 => forUIntRet 1 (u32 (1 + s.block_width_))
          (fun j v2 => convergenceBody s dsub i j v2) v1) v = Except.error r := by
    rw [forUIntRet_eq, eH]
    refine forUInt_visits (fun _ => True)
      (fun st : Except (Int × Int) (ℚ × ℚ) => ∃ r, st = Except.error r) _ a
      (fun _ _ _ => trivial) ?_ ?_ hown.1 (by omega) (by omega) (Except.ok v) trivial
    · intro st _
      cases st with
      | error r0 => exact ⟨r0, rfl⟩
      | ok v1 =>
        rw [passRet_ok, forUIntRet_eq, eW]
        refine forUInt_visits (fun _ => True)
          (fun st : Except (Int × Int) (ℚ × ℚ) => ∃ r, st = Except.error r) _ b
          (fun _ _ _ => trivial) ?_ ?_ hown.2.2.1 (by omega) (by omega) (Except.ok v1) trivial
        · intro st2 _
          cases st2 with
          | error r0 => exact ⟨r0, rfl⟩
          | ok v2 =>
            rw [passRet_ok, convergenceBody_owned s dsub hw (by omega) (by omega), if_pos hu]
            exact ⟨_, rfl⟩
        · rintro j st2 ⟨r0, rfl⟩
          exact ⟨r0, rfl⟩
    · rintro i st ⟨r0, rfl⟩
      exact ⟨r0, rfl⟩
  obtain ⟨r, hr⟩ := herr
  rw [hr, (sound r hr).1]

/-- `CheckConvergence` returns status `0` and sets the flag to `1` if some
owned cell is under the threshold, to `0` otherwise. -/
theorem CheckConvergence_eq (s : HeatMap) (dsub : ℚ → ℚ → ℚ)
    (hw : s.working_grid_ = 0 ∨ s.working_grid_ = 1)
    (hh : s.block_height_ + 2 < UINT_MOD) (hwd : s.block_width_ + 2 < UINT_MOD)
    (val1 val2 : ℚ) :
    ((∃ i j, Owned s i j ∧ UnderEpsilon s dsub i j) → CheckConvergence s dsub val1 val2 = (0, 1)) ∧
    ((¬ ∃ i j, Owned s i j ∧ UnderEpsilon s dsub i j) → CheckConvergence s dsub val1 val2 = (0, 0)) := by
  have h := scan_result s dsub hw hh hwd (val1, val2)
  constructor
  · intro hex
    unfold CheckConvergence
    rw [h.1 hex]
  · intro hnex
    unfold CheckConvergence
    cases hr : forUIntRet 1 (u32 (1 + s.block_height_))
        (fun i v1 => forUIntRet 1 (u32 (1 + s.block_width_))
          (fun j v2 => convergenceBody s dsub i j v2) v1) (val1, val2) with
    | error r => exact absurd (h.2 r hr).2 hnex
    | ok v => rfl

end HeatMap

/-! ## The reduction of the convergence flags -/

/-- The minimum of flags that are `0` or `1` is `0` or `1`, and it is `1`
exactly if every flag is `1`. -/
theorem foldl_min_flags (rest : List Int) :
    ∀ first : Int, (first = 0 ∨ first = 1) → (∀ f ∈ rest, f = 0 ∨ f = 1) →
      (rest.foldl min first = 0 ∨ rest.foldl min first = 1) ∧
      (rest.foldl min first = 1 ↔ first = 1 ∧ ∀ f ∈ rest, f = 1) := by
  induction rest with
  | nil =>
    intro first h0 _
    exact ⟨h0, by simp⟩
  | cons x t ih =>
    intro first h0 hall
    have hx : x = 0 ∨ x = 1 := hall x (List.mem_cons_self _ _)
    have hm : min first x = 0 ∨ min first x = 1 := by
      rcases h0 with h | h <;> rcases hx with h1 | h1 <;> subst h <;> subst h1 <;> decide
    have h := ih (min first x) hm (fun f hf => hall f (List.mem_cons_of_mem _ hf))
    rw [List.foldl_cons]
    refine ⟨h.1, ?_⟩
    rw [h.2]
    have e : min first x = 1 ↔ first = 1 ∧ x = 1 := by
      rcases h0 with h | h <;> rcases hx with h1 | h1 <;> subst h <;> subst h1 <;> decide
    rw [e]
    simp only [List.mem_cons, forall_eq_or_imp]
    tauto

/-! ## The main loop of `Run` -/

/-- Number of multiples of `c` below `n + 1`, from the number below `n`. -/
theorem ceil_div_succ (c n : Nat) (hc : 1 ≤ c) :
    (n + 1 + c - 1) / c = (n + c - 1) / c + if n % c = 0 then 1 else 0 := by
  have hn : c * (n / c) + n % c = n := Nat.div_add_mod n c
  have hr : n % c < c := Nat.mod_lt _ (by omega)
  have e1 : n + 1 + c - 1 = c * (n / c) + (n % c + c) := by omega
  have e2 : n + c - 1 = c * (n / c) + (n % c + c - 1) := by omega
  rw [e1, e2, Nat.mul_add_div (by omega), Nat.mul_add_div (by omega)]
  have d1 : (n % c + c) / c = 1 := by
    apply Nat.div_eq_of_lt_le
    · omega
    · omega
  rw [d1]
  by_cases h0 : n % c = 0
  · have d0 : (n % c + c - 1) / c = 0 := Nat.div_eq_of_lt (by omega)
    rw [if_pos h0, d0]
  · rw [if_neg h0]
    have d2 : (n % c + c - 1) / c = 1 := by
      apply Nat.div_eq_of_lt_le
      · omega
      · omega
    rw [d2]

namespace hybrid

theorem Send_rank (w : MPIWrapper) (buf : Nat) (ch : CHANNEL) (tag : Int) :
    (w.Send buf ch tag).2.rank_ = w.rank_ := by
  unfold MPIWrapper.Send
  cases w.neighbors_ ch <;> rfl

theorem Receive_rank (w : MPIWrapper) (buf : Nat) (ch : CHANNEL) (tag : Int) :
    (w.Receive buf ch tag).2.rank_ = w.rank_ := by
  unfold MPIWrapper.Receive
  cases w.neighbors_ ch <;> rfl

theorem ExchangeMessages_rank (s : HeatMap) (w : MPIWrapper) :
    (HeatMap.ExchangeMessages s w).2.rank_ = w.rank_ := by
  unfold HeatMap.ExchangeMessages
  simp only [Send_rank, Receive_rank]

theorem Wait_rank (w : MPIWrapper) (ch : CHANNEL) : (w.Wait ch).2.1.rank_ = w.rank_ := by
  unfold MPIWrapper.Wait
  by_cases h : w.HasNeighbor ch = true
  · rw [if_pos h]
  · rw [if_neg h]

theorem waitChannel_rank (sw : HeatMap × MPIWrapper) (incoming : CHANNEL → Nat → ℚ)
    (ch : CHANNEL) : (HeatMap.waitChannel sw incoming ch).2.rank_ = sw.2.rank_ := by
  unfold HeatMap.waitChannel
  simp only []
  split <;> exact Wait_rank sw.2 ch

theorem WaitForMessages_rank (s : HeatMap) (w : MPIWrapper) (incoming : CHANNEL → Nat → ℚ) :
    (HeatMap.WaitForMessages s w incoming).2.2.rank_ = w.rank_ := by
  unfold HeatMap.WaitForMessages
  simp only [waitChannel_rank]

/-- The stencil passes leave the rank of the worker as it is. -/
theorem stencilStep_rank (sw : HeatMap × MPIWrapper) (stk : HeatMap.Stack)
    (incoming : CHANNEL → Nat → ℚ) : (stencilStep sw stk incoming).2.rank_ = sw.2.rank_ := by
  unfold stencilStep
  simp only [WaitForMessages_rank, ExchangeMessages_rank]

theorem runBody_rank (env : RunEnv) (c i : Nat) (st : RunState) :
    (runBody env c i st).mpi_wrapper_.rank_ = st.mpi_wrapper_.rank_ :=
  stencilStep_rank _ _ _

/-- The calls one iteration of the loop body adds to the record. -/
theorem runBody_events (env : RunEnv) (c i : Nat) (st : RunState) :
    (runBody env c i st).events
      = st.events ++ ([RunEvent.stencil i, RunEvent.modulus i c]
          ++ (if i % c = 0 then [RunEvent.scan i] else [])
          ++ [RunEvent.reduce i (runBody env c i st).converged_global, RunEvent.swap i]) := by
  unfold runBody
  by_cases h : i % c = 0
  · simp only [if_pos h, List.append_assoc]
  · simp only [if_neg h, List.append_assoc, List.append_nil]

theorem runIterations_rank (env : RunEnv) (c : Nat) (st : RunState) (n : Nat) :
    (runIterations env c st n).mpi_wrapper_.rank_ = st.mpi_wrapper_.rank_ := by
  induction n with
  | zero => rfl
  | succ n ih =>
    show (runBody env c n (runIterations env c st n)).mpi_wrapper_.rank_ = _
    rw [runBody_rank, ih]

end hybrid

namespace hybrid

theorem runIterations_succ_events (env : RunEnv) (c : Nat) (st : RunState) (n : Nat) :
    (runIterations env c st (n + 1)).events
      = (runIterations env c st n).events ++ ([RunEvent.stencil n, RunEvent.modulus n c]
          ++ (if n % c = 0 then [RunEvent.scan n] else [])
          ++ [RunEvent.reduce n (runIterations env c st (n + 1)).converged_global,
              RunEvent.swap n]) :=
  runBody_events env c n (runIterations env c st n)

/-- The numbers of calls in the record after `n` complete iterations: `n`
stencil passes, `n` reductions, no report, and a scan for each of the
iterations `i < n` with `i % c = 0`. -/
theorem runIterations_counts (env : RunEnv) (c : Nat) (st : RunState) (hst : st.events = [])
    (n : Nat) :
    List.countP RunEvent.isStencil (runIterations env c st n).events = n ∧
    List.countP RunEvent.isReduce (runIterations env c st n).events = n ∧
    List.countP RunEvent.isReport (runIterations env c st n).events = 0 ∧
    (1 ≤ c → List.countP RunEvent.isScan (runIterations env c st n).events = (n + c - 1) / c) := by
  induction n with
  | zero =>
    show List.countP _ st.events = 0 ∧ List.countP _ st.events = 0 ∧
      List.countP _ st.events = 0 ∧ (1 ≤ c → List.countP _ st.events = (0 + c - 1) / c)
    rw [hst]
    refine ⟨rfl, rfl, rfl, fun hc => ?_⟩
    rw [Nat.div_eq_of_lt (by omega)]
    rfl
  | succ n ih =>
    rw [runIterations_succ_events]
    obtain ⟨h1, h2, h3, h4⟩ := ih
    refine ⟨?_, ?_, ?_, ?_⟩
    · by_cases h : n % c = 0 <;>
        simp [h, List.countP_append, List.countP_cons, RunEvent.isStencil, h1]
    · by_cases h : n % c = 0 <;>
        simp [h, List.countP_append, List.countP_cons, RunEvent.isReduce, h2]
    · by_cases h : n % c = 0 <;>
        simp [h, List.countP_append, List.countP_cons, RunEvent.isReport, h3]
    · intro hc
      rw [ceil_div_succ c n hc]
      by_cases h : n % c = 0 <;>
        simp [h, List.countP_append, List.countP_cons, RunEvent.isScan, h4 hc]

/-- Which calls the record holds after `n` complete iterations. -/
theorem runIterations_members (env : RunEnv) (c : Nat) (st : RunState) (hst : st.events = [])
    (n : Nat) :
    (∀ i, RunEvent.stencil i ∈ (runIterations env c st n).events ↔ i < n) ∧
    (∀ i d, RunEvent.modulus i d ∈ (runIterations env c st n).events ↔ (i < n ∧ d = c)) ∧
    (∀ i, RunEvent.scan i ∈ (runIterations env c st n).events ↔ (i < n ∧ i % c = 0)) ∧
    (∀ i, (∃ g, RunEvent.reduce i g ∈ (runIterations env c st n).events) ↔ i < n) ∧
    (∀ i, RunEvent.report i ∉ (runIterations env c st n).events) := by
  induction n with
  | zero =>
    show (∀ i, RunEvent.stencil i ∈ st.events ↔ i < 0) ∧
      (∀ i d, RunEvent.modulus i d ∈ st.events ↔ (i < 0 ∧ d = c)) ∧
      (∀ i, RunEvent.scan i ∈ st.events ↔ (i < 0 ∧ i % c = 0)) ∧
      (∀ i, (∃ g, RunEvent.reduce i g ∈ st.events) ↔ i < 0) ∧
      (∀ i, RunEvent.report i ∉ st.events)
    rw [hst]
    simp
  | succ n ih =>
    rw [runIterations_succ_events]
    obtain ⟨h1, h2, h3, h4, h5⟩ := ih
    refine ⟨?_, ?_, ?_, ?_, ?_⟩
    · intro i
      by_cases h : n % c = 0 <;> simp [h, h1 i] <;> omega
    · intro i d
      by_cases h : n % c = 0 <;> simp [h, h2 i d] <;> omega
    · intro i
      by_cases h : n % c = 0
      · simp only [h, if_true, List.mem_append, h3 i, List.mem_cons, List.mem_singleton,
          reduceCtorEq, RunEvent.scan.injEq, List.not_mem_nil, or_false, false_or]
        constructor
        · rintro (⟨ha, hb⟩ | hc)
          · exact ⟨by omega, hb⟩
          · subst hc
            exact ⟨by omega, h⟩
        · rintro ⟨ha, hb⟩
          by_cases hin : i = n
          · exact Or.inr hin
          · exact Or.inl ⟨by omega, hb⟩
      · simp only [h, if_false, List.mem_append, h3 i, List.mem_cons, List.mem_singleton,
          reduceCtorEq, List.not_mem_nil, or_false, false_or]
        constructor
        · rintro ⟨ha, hb⟩
          exact ⟨by omega, hb⟩
        · rintro ⟨ha, hb⟩
          have hne : i ≠ n := fun e => h (e ▸ hb)
          exact ⟨by omega, hb⟩
    · intro i
      constructor
      · rintro ⟨g, hg⟩
        by_cases h : n % c = 0 <;>
          simp only [h, if_true, if_false, List.mem_append, List.mem_cons, List.mem_singleton,
            reduceCtorEq, RunEvent.reduce.injEq, List.not_mem_nil, or_false, false_or] at hg <;>
          rcases hg with hg | hg
        · have := (h4 i).mp ⟨g, hg⟩
          omega
        · omega
        · have := (h4 i).mp ⟨g, hg⟩
          omega
        · omega
      · intro hi
        by_cases hin : i = n
        · subst hin
          refine ⟨(runIterations env c st (i + 1)).converged_global, ?_⟩
          apply List.mem_append_right
          apply List.mem_append_right
          exact List.mem_cons_self _ _
        · obtain ⟨g, hg⟩ := (h4 i).mpr (by omega)
          exact ⟨g, List.mem_append_left _ hg⟩
    · intro i
      by_cases h : n % c = 0 <;> simp [h, h5 i]

end hybrid

namespace hybrid

/-- While `converged_global` is zero at the head of the loop body the loop
goes on. -/
theorem runLoop_continue (env : RunEnv) (c : Nat) (st : RunState) :
    ∀ (a r i : Nat),
      (∀ m, i ≤ m → m < i + a → (runIterations env c st m).converged_global = 0) →
      runLoop env c (a + r) i (runIterations env c st i)
        = runLoop env c r (i + a) (runIterations env c st (i + a)) := by
  intro a
  induction a with
  | zero =>
    intro r i _
    rw [Nat.zero_add]
    rfl
  | succ a ih =>
    intro r i h
    have e : a + 1 + r = (a + r) + 1 := by omega
    have h0 : (runIterations env c st i).converged_global = 0 := h i (le_refl _) (by omega)
    rw [e]
    show (if (runIterations env c st i).converged_global ≠ 0 then
        reportConvergence (runIterations env c st i) i
      else runLoop env c (a + r) (i + 1) (runBody env c i (runIterations env c st i))) = _
    rw [if_neg (by rw [h0]; exact fun hne => hne rfl)]
    have h1 := ih r (i + 1) (fun m hm1 hm2 => h m (by omega) (by omega))
    have e2 : i + 1 + a = i + (a + 1) := by omega
    rw [e2] at h1
    exact h1

/-- With `converged_global` set and an iteration left, the loop reports and
breaks. -/
theorem runLoop_break (env : RunEnv) (c r i : Nat) (st : RunState)
    (h : st.converged_global ≠ 0) :
    runLoop env c (r + 1) i st = reportConvergence st i := by
  show (if st.converged_global ≠ 0 then reportConvergence st i else _) = _
  rw [if_pos h]

/-- The run when the reduction of iteration `k` is the first to deliver a set
flag: `k + 1` complete iterations, followed by the report if an iteration was
left. -/
theorem Run_converged (env : RunEnv) (steps : Nat) (hm : HeatMap) (w : MPIWrapper) (k : Nat)
    (hk : k < steps) (hfirst : ∀ m, m < k → globalFlag env steps hm w m = 0)
    (hset : globalFlag env steps hm w k ≠ 0) :
    Run env steps hm w
      = if k + 1 < steps then
          reportConvergence
            (runIterations env (Nat.sqrt steps) (RunState.mk hm w 0 0 []) (k + 1)) (k + 1)
        else runIterations env (Nat.sqrt steps) (RunState.mk hm w 0 0 []) (k + 1) := by
  have htop : ∀ m, 0 ≤ m → m < 0 + (k + 1) →
      (runIterations env (Nat.sqrt steps) (RunState.mk hm w 0 0 []) m).converged_global = 0 := by
    intro m _ hm2
    cases m with
    | zero => rfl
    | succ m => exact hfirst m (by omega)
  have h := runLoop_continue env (Nat.sqrt steps) (RunState.mk hm w 0 0 []) (k + 1)
    (steps - (k + 1)) 0 htop
  have e : k + 1 + (steps - (k + 1)) = steps := by omega
  rw [e, Nat.zero_add] at h
  unfold Run
  rw [show runLoop env (Nat.sqrt steps) steps 0 (RunState.mk hm w 0 0 [])
      = runLoop env (Nat.sqrt steps) steps 0
          (runIterations env (Nat.sqrt steps) (RunState.mk hm w 0 0 []) 0) from rfl, h]
  by_cases hlast : k + 1 < steps
  · rw [if_pos hlast]
    have e2 : steps - (k + 1) = (steps - (k + 1) - 1) + 1 := by omega
    rw [e2]
    exact runLoop_break env _ _ _ _ hset
  · rw [if_neg hlast]
    have e2 : steps - (k + 1) = 0 := by omega
    rw [e2]
    rfl

/-- The run when no reduction delivers a set flag: `steps` complete
iterations. -/
theorem Run_not_converged (env : RunEnv) (steps : Nat) (hm : HeatMap) (w : MPIWrapper)
    (hnone : ∀ k, k < steps → globalFlag env steps hm w k = 0) :
    Run env steps hm w = runIterations env (Nat.sqrt steps) (RunState.mk hm w 0 0 []) steps := by
  have htop : ∀ m, 0 ≤ m → m < 0 + steps →
      (runIterations env (Nat.sqrt steps) (RunState.mk hm w 0 0 []) m).converged_global = 0 := by
    intro m _ hm2
    cases m with
    | zero => rfl
    | succ m => exact hnone m (by omega)
  have h := runLoop_continue env (Nat.sqrt steps) (RunState.mk hm w 0 0 []) steps 0 0 htop
  rw [Nat.add_zero, Nat.zero_add] at h
  unfold Run
  rw [show runLoop env (Nat.sqrt steps) steps 0 (RunState.mk hm w 0 0 [])
      = runLoop env (Nat.sqrt steps) steps 0
          (runIterations env (Nat.sqrt steps) (RunState.mk hm w 0 0 []) 0) from rfl, h]
  rfl

/-- The record of a run is the record of some number `n ≤ steps` of complete
iterations, followed by the report or not. -/
theorem Run_shape (env : RunEnv) (steps : Nat) (hm : HeatMap) (w : MPIWrapper) :
    ∃ n, n ≤ steps ∧
      ((Run env steps hm w).events
          = (runIterations env (Nat.sqrt steps) (RunState.mk hm w 0 0 []) n).events ∨
       (Run env steps hm w).events
          = (runIterations env (Nat.sqrt steps) (RunState.mk hm w 0 0 []) n).events
              ++ [RunEvent.report n]) := by
  by_cases hex : ∃ k, k < steps ∧ globalFlag env steps hm w k ≠ 0
  · have hk := Nat.find_spec hex
    have hmin : ∀ m, m < Nat.find hex → globalFlag env steps hm w m = 0 := by
      intro m hm1
      by_contra hne
      exact Nat.find_min hex hm1 ⟨by omega, hne⟩
    refine ⟨Nat.find hex + 1, hk.1, ?_⟩
    rw [Run_converged env steps hm w (Nat.find hex) hk.1 hmin hk.2]
    by_cases hlast : Nat.find hex + 1 < steps
    · rw [if_pos hlast]
      unfold reportConvergence
      by_cases hr : (runIterations env (Nat.sqrt steps) (RunState.mk hm w 0 0 [])
          (Nat.find hex + 1)).mpi_wrapper_.rank_ = 0
      · rw [if_pos hr]
        exact Or.inr rfl
      · rw [if_neg hr]
        exact Or.inl rfl
    · rw [if_neg hlast]
      exact Or.inl rfl
  · refine ⟨steps, le_refl _, Or.inl ?_⟩
    rw [Run_not_converged env steps hm w]
    intro k hk
    by_contra hne
    exact hex ⟨k, hk, hne⟩

end hybrid

namespace hybrid

theorem globalFlag_flagsEnv (g : Nat → Int) (steps : Nat) (hm : HeatMap) (w : MPIWrapper)
    (k : Nat) : globalFlag (flagsEnv g) steps hm w k = g k :=
  rfl

/-- The record of a run that made `n` stencil passes: `n` reductions, one in
each iteration; a scan in the iterations `i` with `i % c = 0` and in no
other; every modulus evaluated with the divisor `c`; at most one report. -/
theorem Run_record (env : RunEnv) (steps : Nat) (hm : HeatMap) (w : MPIWrapper) :
    ∃ n, n ≤ steps ∧
      List.countP RunEvent.isStencil (Run env steps hm w).events = n ∧
      List.countP RunEvent.isReduce (Run env steps hm w).events = n ∧
      (1 ≤ Nat.sqrt steps → List.countP RunEvent.isScan (Run env steps hm w).events
        = (n + Nat.sqrt steps - 1) / Nat.sqrt steps) ∧
      (∀ i, RunEvent.stencil i ∈ (Run env steps hm w).events ↔ i < n) ∧
      (∀ i d, RunEvent.modulus i d ∈ (Run env steps hm w).events ↔ (i < n ∧ d = Nat.sqrt steps)) ∧
      (∀ i, RunEvent.scan i ∈ (Run env steps hm w).events ↔ (i < n ∧ i % Nat.sqrt steps = 0)) ∧
      (∀ i, (∃ g, RunEvent.reduce i g ∈ (Run env steps hm w).events) ↔ i < n) := by
  obtain ⟨n, hn, hev⟩ := Run_shape env steps hm w
  have hc := runIterations_counts env (Nat.sqrt steps) (RunState.mk hm w 0 0 []) rfl n
  have hm1 := runIterations_members env (Nat.sqrt steps) (RunState.mk hm w 0 0 []) rfl n
  refine ⟨n, hn, ?_⟩
  rcases hev with h | h <;> rw [h]
  · exact ⟨hc.1, hc.2.1, hc.2.2.2, hm1.1, hm1.2.1, hm1.2.2.1, hm1.2.2.2.1⟩
  · refine ⟨?_, ?_, ?_, ?_, ?_, ?_, ?_⟩
    · simp [List.countP_append, RunEvent.isStencil, hc.1]
    · simp [List.countP_append, RunEvent.isReduce, hc.2.1]
    · intro h1
      simp [List.countP_append, RunEvent.isScan, hc.2.2.2 h1]
    · intro i
      simp [hm1.1 i]
    · intro i d
      simp [hm1.2.1 i d]
    · intro i
      simp [hm1.2.2.1 i]
    · intro i
      simp [hm1.2.2.2.1 i]

/-- The record after the report call. -/
theorem reportConvergence_events (st : RunState) (i : Nat) :
    (reportConvergence st i).events
      = if st.mpi_wrapper_.rank_ = 0 then st.events ++ [RunEvent.report i] else st.events := by
  unfold reportConvergence
  by_cases h : st.mpi_wrapper_.rank_ = 0
  · rw [if_pos h, if_pos h]
  · rw [if_neg h, if_neg h]

end hybrid

/-! ## The initial field -/

/-- The value `Init` computes on the worker at `(cx, cy)` of a `d0 x d1`
topology for its local cell `(i, j)` is the value a single worker computes
for the cell at the same global position. -/
theorem initVal_decomposition (bh bw d0 d1 cx cy i j : Nat)
    (hH : d0 * bh + 1 < UINT_MOD) (hW : d1 * bw + 1 < UINT_MOD)
    (hcx : cx < d0) (hcy : cy < d1) (hi1 : 1 ≤ i) (hi2 : i ≤ bh) (hj1 : 1 ≤ j) (hj2 : j ≤ bw) :
    HeatMap.initVal (HeatMap.imul (d0 : Int) bh) (HeatMap.imul (d1 : Int) bw)
        (HeatMap.imul (cx : Int) bh) (HeatMap.imul (cy : Int) bw) i j
      = HeatMap.initVal (d0 * bh) (d1 * bw) 0 0 (cx * bh + i) (cy * bw + j) := by
  have hx1 : (cx + 1) * bh ≤ d0 * bh := Nat.mul_le_mul_right _ hcx
  have hx2 : (cx + 1) * bh = cx * bh + bh := by ring
  have hy1 : (cy + 1) * bw ≤ d1 * bw := Nat.mul_le_mul_right _ hcy
  have hy2 : (cy + 1) * bw = cy * bw + bw := by ring
  unfold HeatMap.initVal
  rw [imul_natCast (show d0 * bh < UINT_MOD by omega),
    imul_natCast (show d1 * bw < UINT_MOD by omega),
    imul_natCast (show cx * bh < UINT_MOD by omega),
    imul_natCast (show cy * bw < UINT_MOD by omega),
    globalIndex_eq hi1 (by omega), globalIndex_eq hj1 (by omega),
    globalIndex_eq (show 1 ≤ cx * bh + i by omega) (by omega),
    globalIndex_eq (show 1 ≤ cy * bw + j by omega) (by omega),
    Nat.add_zero, Nat.add_zero, Nat.zero_add, Nat.zero_add, Nat.add_comm i (cx * bh),
    Nat.add_comm j (cy * bw)]

namespace cuda

/-- The value `InitGrid` computes for the cell `(gi, gj)`, counted from `0`,
is the value `HeatMap::Init` computes on a single worker for its local cell
`(gi + 1, gj + 1)`. -/
theorem gridVal_eq_initVal (H W gi gj : Nat) (hi : gi + 1 < UINT_MOD) (hj : gj + 1 < UINT_MOD) :
    HeatTransfer.gridVal H W gi gj = HeatMap.initVal H W 0 0 (gi + 1) (gj + 1) := by
  unfold HeatTransfer.gridVal HeatMap.initVal
  rw [globalIndex_eq (Nat.le_add_left 1 gi) (by omega),
    globalIndex_eq (Nat.le_add_left 1 gj) (by omega), Nat.add_zero, Nat.add_zero,
    Nat.zero_add, Nat.zero_add, Nat.add_sub_cancel, Nat.add_sub_cancel]

theorem SetCellValue_dims (t : HeatTransfer) (i j : Nat) (val : ℚ) :
    (HeatTransfer.SetCellValue t i j val).2.height_ = t.height_ ∧
    (HeatTransfer.SetCellValue t i j val).2.width_ = t.width_ := by
  unfold HeatTransfer.SetCellValue
  split <;> exact ⟨rfl, rfl⟩

/-- `InitGrid` stores its value in every cell of the grid. -/
theorem InitGrid_cell (s : HeatTransfer) (hsize : s.height_ * s.width_ < UINT_MOD)
    {a b : Nat} (ha : a < s.height_) (hb : b < s.width_) :
    (HeatTransfer.InitGrid s).2.grid_ (a * s.width_ + b)
      = (HeatTransfer.gridVal s.height_ s.width_ a b : ℚ) := by
  have hWM : s.width_ < UINT_MOD :=
    lt_of_le_of_lt (Nat.le_mul_of_pos_left _ (by omega)) hsize
  have hHM : s.height_ < UINT_MOD :=
    lt_of_le_of_lt (Nat.le_mul_of_pos_right _ (by omega)) hsize
  have hstep : ∀ (t : HeatTransfer) (i j : Nat),
      (t.height_ = s.height_ ∧ t.width_ = s.width_) →
      ((i = a ∧ j = b) ∨ t.grid_ (a * s.width_ + b)
        = (HeatTransfer.gridVal s.height_ s.width_ a b : ℚ)) →
      ((HeatTransfer.SetCellValue t i j
          ((HeatTransfer.gridVal s.height_ s.width_ i j : Nat) : ℚ)).2.height_ = s.height_ ∧
        (HeatTransfer.SetCellValue t i j
          ((HeatTransfer.gridVal s.height_ s.width_ i j : Nat) : ℚ)).2.width_ = s.width_) ∧
      (HeatTransfer.SetCellValue t i j
          ((HeatTransfer.gridVal s.height_ s.width_ i j : Nat) : ℚ)).2.grid_ (a * s.width_ + b)
        = (HeatTransfer.gridVal s.height_ s.width_ a b : ℚ) := by
    intro t i j ht h
    have hd := SetCellValue_dims t i j ((HeatTransfer.gridVal s.height_ s.width_ i j : Nat) : ℚ)
    refine ⟨⟨hd.1.trans ht.1, hd.2.trans ht.2⟩, ?_⟩
    unfold HeatTransfer.SetCellValue
    by_cases hin : i < t.height_ ∧ j < t.width_
    · rw [if_neg (by omega)]
      have hi : i < s.height_ := by rw [← ht.1]; exact hin.1
      have hj : j < s.width_ := by rw [← ht.2]; exact hin.2
      have hlt : i * s.width_ + j < s.height_ * s.width_ := mul_add_lt_mul hi hj
      have hoffs : u32 (i * t.width_) + j = i * s.width_ + j := by
        rw [ht.2, u32_of_lt (by omega)]
      show Function.update t.grid_ (u32 (i * t.width_) + j) _ (a * s.width_ + b) = _
      rw [hoffs]
      by_cases hoff : a * s.width_ + b = i * s.width_ + j
      · have hab := mul_add_inj hb hj hoff
        rw [hoff, Function.update_same, ← hab.1, ← hab.2]
      · rw [Function.update_noteq hoff]
        rcases h with h | h
        · exact absurd (by rw [h.1, h.2]) hoff
        · exact h
    · rw [if_pos (by omega)]
      rcases h with h | h
      · exfalso
        apply hin
        rw [ht.1, ht.2, h.1, h.2]
        exact ⟨ha, hb⟩
      · exact h
  unfold HeatTransfer.InitGrid
  refine (forUInt_visits (fun t : HeatTransfer => t.height_ = s.height_ ∧ t.width_ = s.width_)
    (fun t : HeatTransfer => (t.height_ = s.height_ ∧ t.width_ = s.width_) ∧
      t.grid_ (a * s.width_ + b) = (HeatTransfer.gridVal s.height_ s.width_ a b : ℚ))
    _ a ?_ ?_ ?_ (Nat.zero_le _) ha hHM s ⟨rfl, rfl⟩).2
  · intro i t ht
    refine forUInt_preserves
      (fun t : HeatTransfer => t.height_ = s.height_ ∧ t.width_ = s.width_) _ _ _ ?_ t ht
    intro j t1 ht1
    have hd := SetCellValue_dims t1 i j ((HeatTransfer.gridVal s.height_ s.width_ i j : Nat) : ℚ)
    exact ⟨hd.1.trans ht1.1, hd.2.trans ht1.2⟩
  · intro t ht
    refine forUInt_visits
      (fun t : HeatTransfer => t.height_ = s.height_ ∧ t.width_ = s.width_)
      (fun t : HeatTransfer => (t.height_ = s.height_ ∧ t.width_ = s.width_) ∧
        t.grid_ (a * s.width_ + b) = (HeatTransfer.gridVal s.height_ s.width_ a b : ℚ))
      _ b ?_ ?_ ?_ (Nat.zero_le _) hb hWM t ht
    · intro j t1 ht1
      have hd := SetCellValue_dims t1 a j
        ((HeatTransfer.gridVal s.height_ s.width_ a j : Nat) : ℚ)
      exact ⟨hd.1.trans ht1.1, hd.2.trans ht1.2⟩
    · intro t1 ht1
      exact hstep t1 a b ht1 (Or.inl ⟨rfl, rfl⟩)
    · intro j t1 ht1
      exact hstep t1 a j ht1.1 (Or.inr ht1.2)
  · intro i t ht
    refine forUInt_preserves
      (fun t : HeatTransfer => (t.height_ = s.height_ ∧ t.width_ = s.width_) ∧
        t.grid_ (a * s.width_ + b) = (HeatTransfer.gridVal s.height_ s.width_ a b : ℚ))
      _ _ _ ?_ t ht
    intro j t1 ht1
    exact hstep t1 i j ht1.1 (Or.inr ht1.2)

end cuda

/-! ## `ArgumentParser::Parse` -/

namespace ArgumentParser

end ArgumentParser

/-! ## The update rule as a weighted mean -/

namespace HeatMap

/-- The update rule is a weighted mean of the cell and its four neighbours,
with weights `6/10` and `1/10`. -/
theorem jacobi_weighted (old : Nat → Nat → ℚ) (i j : Nat) :
    jacobi old i j
      = 6 / 10 * old i j
        + 1 / 10 * (old (i - 1) j + old (i + 1) j + old i (j - 1) + old i (j + 1)) := by
  unfold jacobi
  ring

/-- A weighted mean with weights `6/10` and four times `1/10` lies between
any bounds of the five values. -/
theorem weighted_bounds (a b c d e m M : ℚ) (ha : m ≤ a ∧ a ≤ M) (hb : m ≤ b ∧ b ≤ M)
    (hc : m ≤ c ∧ c ≤ M) (hd : m ≤ d ∧ d ≤ M) (he : m ≤ e ∧ e ≤ M) :
    m ≤ 6 / 10 * a + 1 / 10 * (b + c + d + e) ∧ 6 / 10 * a + 1 / 10 * (b + c + d + e) ≤ M := by
  constructor <;> linarith [ha.1, ha.2, hb.1, hb.2, hc.1, hc.2, hd.1, hd.2, he.1, he.2]

/-- The value `CellUpdate(i, j)` writes for an owned cell of a representable
block. -/
theorem CellUpdate_writes (s : HeatMap)
    (hsize : (s.block_height_ + 2) * (s.block_width_ + 2) < UINT_MOD)
    (hw : s.working_grid_ = 0 ∨ s.working_grid_ = 1)
    {i j : Nat} (hi1 : 1 ≤ i) (hi2 : i ≤ s.block_height_) (hj1 : 1 ≤ j)
    (hj2 : j ≤ s.block_width_) (val : CHANNEL → ℚ) :
    cell (CellUpdate s i j val).2 (1 - s.working_grid_) i j
      = jacobi (cell s s.working_grid_) i j := by
  have hd := dims_lt hsize
  rw [cell_eq, cellOffset_congr (CellUpdate_fields s i j val).2.2,
    CellUpdate_inb s val (by rw [u32_of_lt hd.1]; omega) (by rw [u32_of_lt hd.2]; omega) hw,
    store_same, new_val_owned s hsize hw hi1 hi2 hj1 hj2 val]

end HeatMap

/-! ## `CellUpdate` with a failing read -/

namespace HeatMap

/-- On the `1 x 3` zero block the call `CellUpdate(0, 2)` reads row `2^32 - 1`
for `val[TOP]`, which fails and leaves `val[TOP]` as it was; the call writes
`val[TOP] / 10` to the cell `(0, 2)` of the other buffer. -/
theorem CellUpdate_row_zero (val : CHANNEL → ℚ) :
    GetCellValue zeroBlock13 (usub 0 1) 2 0 (val CHANNEL.TOP) = (1, val CHANNEL.TOP) ∧
    cell (CellUpdate zeroBlock13 0 2 val).2 1 0 2 = val CHANNEL.TOP / 10 := by
  have eH : u32 (zeroBlock13.block_height_ + 2) = 3 := by decide
  have eW : u32 (zeroBlock13.block_width_ + 2) = 5 := by decide
  have e1 : usub 0 1 = 4294967295 := by decide
  have e2 : usub 2 1 = 1 := by decide
  have e3 : u32 (2 + 1) = 3 := by decide
  have e4 : u32 (0 + 1) = 1 := by decide
  have hfail : GetCellValue zeroBlock13 (usub 0 1) 2 0 (val CHANNEL.TOP)
      = (1, val CHANNEL.TOP) :=
    GetCellValue_fail _ _ (Or.inl (by rw [eH, e1]; decide))
  refine ⟨hfail, ?_⟩
  have hnv : new_val zeroBlock13 0 2 val = val CHANNEL.TOP / 10 := by
    have hwg : zeroBlock13.working_grid_ = 0 := rfl
    unfold new_val
    simp only []
    rw [hwg, hfail, e2, e3, e4,
      @GetCellValue_ok zeroBlock13 0 2 0 _ (by rw [eH]; decide) (by rw [eW]; decide)
        (Or.inl rfl),
      @GetCellValue_ok zeroBlock13 0 1 0 _ (by rw [eH]; decide) (by rw [eW]; decide)
        (Or.inl rfl),
      @GetCellValue_ok zeroBlock13 0 3 0 _ (by rw [eH]; decide) (by rw [eW]; decide)
        (Or.inl rfl),
      @GetCellValue_ok zeroBlock13 1 2 0 _ (by rw [eH]; decide) (by rw [eW]; decide)
        (Or.inl rfl)]
    show (0 : ℚ) + 1 / 10 * (val CHANNEL.TOP + 0 - 2 * 0) + 1 / 10 * (0 + 0 - 2 * 0) = _
    ring
  rw [cell_eq, cellOffset_congr (CellUpdate_fields _ 0 2 val).2.2,
    CellUpdate_inb zeroBlock13 val (by rw [eH]; decide) (by rw [eW]; decide) (Or.inl rfl)]
  exact (store_same _ _ _ _).trans hnv

end HeatMap

/-! ## Bounds of the padded buffer through a sweep -/

namespace HeatMap

/-- On a representable block with at least two rows and two columns, after a
full sweep every ghost cell of the other buffer is what it was and every
owned cell of the other buffer lies between any bounds of the padded working
buffer. -/
theorem sweep_padded (s : HeatMap) (stk1 stk2 : Stack)
    (hsize : (s.block_height_ + 2) * (s.block_width_ + 2) < UINT_MOD)
    (hw : s.working_grid_ = 0 ∨ s.working_grid_ = 1)
    (h2h : 2 ≤ s.block_height_) (h2w : 2 ≤ s.block_width_) (m M : ℚ)
    (hbound : ∀ a b, a < s.block_height_ + 2 → b < s.block_width_ + 2 →
      m ≤ cell s s.working_grid_ a b ∧ cell s s.working_grid_ a b ≤ M)
    (a b : Nat) (ha : a < s.block_height_ + 2) (hb : b < s.block_width_ + 2) :
    ((a = 0 ∨ a = s.block_height_ + 1 ∨ b = 0 ∨ b = s.block_width_ + 1) →
      cell (CollaborativeUpdate (StandaloneUpdate s stk1).2 stk2).2 (1 - s.working_grid_) a b
        = cell s (1 - s.working_grid_) a b) ∧
    ((1 ≤ a ∧ a ≤ s.block_height_ ∧ 1 ≤ b ∧ b ≤ s.block_width_) →
      m ≤ cell (CollaborativeUpdate (StandaloneUpdate s stk1).2 stk2).2
          (1 - s.working_grid_) a b ∧
      cell (CollaborativeUpdate (StandaloneUpdate s stk1).2 stk2).2
          (1 - s.working_grid_) a b ≤ M) := by
  constructor
  · intro hghost
    exact sweep_keeps_ghost s stk1 stk2 hsize h2h h2w _ ha hb hghost
  · rintro ⟨ha1, ha2, hb1, hb2⟩
    have hsw := sweep_Updated s hsize hw ha1 ha2 hb1 hb2 stk1 stk2
    have hcell : cell (CollaborativeUpdate (StandaloneUpdate s stk1).2 stk2).2
          (1 - s.working_grid_) a b = jacobi (cell s s.working_grid_) a b := by
      rw [cell_eq, cellOffset_congr hsw.1.2.2.1]
      exact hsw.2
    rw [hcell, jacobi_weighted]
    exact weighted_bounds _ _ _ _ _ m M (hbound a b (by omega) (by omega))
      (hbound (a - 1) b (by omega) (by omega)) (hbound (a + 1) b (by omega) (by omega))
      (hbound a (b - 1) (by omega) (by omega)) (hbound a (b + 1) (by omega) (by omega))

/-- The padded buffers of a `1 x 3` grid on one worker after `Init`: buffer 0
holds `3, 4, 3` in the owned cells and `0` in the ghost cells, buffer 1 holds
`0` everywhere. -/
theorem Init_one_by_three_cells (mem : Int → Nat → ℚ) (a b : Nat) (ha : a < 3) (hb : b < 5) :
    (0 ≤ cell (Init (new mem) 1 3 (MPIWrapper.solo 1 3)).2 0 a b ∧
      cell (Init (new mem) 1 3 (MPIWrapper.solo 1 3)).2 0 a b ≤ 4) ∧
    cell (Init (new mem) 1 3 (MPIWrapper.solo 1 3)).2 1 a b = 0 := by
  have hsz : (toUInt 1 + 2) * (toUInt 3 + 2) < UINT_MOD := by decide
  have hf := Init_fields (new mem) 1 3 (MPIWrapper.solo 1 3)
  have hbw : (Init (new mem) 1 3 (MPIWrapper.solo 1 3)).2.block_width_ = 3 := hf.2.2.2
  constructor
  · by_cases hghost : a = 0 ∨ a = 2 ∨ b = 0 ∨ b = 4
    · rw [Init_ghost _ 1 3 _ hsz (show a < toUInt 1 + 2 from ha) (show b < toUInt 3 + 2 from hb)
        (show a = 0 ∨ a = toUInt 1 + 1 ∨ b = 0 ∨ b = toUInt 3 + 1 from hghost)]
      norm_num
    · have ha1 : a = 1 := by omega
      subst ha1
      rw [Init_owned _ 1 3 _ hsz (le_refl 1) (show 1 ≤ toUInt 1 by decide)
        (show 1 ≤ b by omega) (show b ≤ toUInt 3 from (by
          have : b ≤ 3 := by omega
          exact this))]
      show (0 : ℚ) ≤ ((initVal 1 3 0 0 1 b : Nat) : ℚ) ∧ ((initVal 1 3 0 0 1 b : Nat) : ℚ) ≤ 4
      have hb3 : b = 1 ∨ b = 2 ∨ b = 3 := by omega
      have e1 : initVal 1 3 0 0 1 1 = 3 := by decide
      have e2 : initVal 1 3 0 0 1 2 = 4 := by decide
      have e3 : initVal 1 3 0 0 1 3 = 3 := by decide
      rcases hb3 with h | h | h <;> subst h
      · rw [e1]; norm_num
      · rw [e2]; norm_num
      · rw [e3]; norm_num
  · have hoff : cellOffset (Init (new mem) 1 3 (MPIWrapper.solo 1 3)).2 a b = u32 (a * 5) + b := by
      unfold cellOffset
      rw [hbw]
      rfl
    rw [cell_eq, hoff, u32_of_lt (show a * 5 < UINT_MOD by
      have : a * 5 < 15 := by omega
      exact lt_trans this (by decide))]
    exact Init_other _ 1 3 _ hsz (show a * 5 + b < (toUInt 1 + 2) * (toUInt 3 + 2) by
      show a * 5 + b < 15
      omega)

/-- One pass of the pipeline on the `1 x 3` grid of one worker after `Init`:
the buffers are swapped and the ghost cell `(2, 2)` of the new working buffer
holds `(4 + val[BOTTOM]) / 10`. -/
theorem pipeline_one_by_three_ghost (mem : Int → Nat → ℚ) (stk : Stack)
    (incoming : CHANNEL → Nat → ℚ) :
    (pipelineStep ((Init (new mem) 1 3 (MPIWrapper.solo 1 3)).2, MPIWrapper.solo 1 3)
        stk incoming).1.working_grid_ = 1 ∧
    cell (pipelineStep ((Init (new mem) 1 3 (MPIWrapper.solo 1 3)).2, MPIWrapper.solo 1 3)
        stk incoming).1 1 2 2 = (4 + stk 2 2 CHANNEL.BOTTOM) / 10 := by
  have hf := Init_fields (new mem) 1 3 (MPIWrapper.solo 1 3)
  have hw : (Init (new mem) 1 3 (MPIWrapper.solo 1 3)).2.working_grid_ = 0 := hf.2.1
  have hbh : (Init (new mem) 1 3 (MPIWrapper.solo 1 3)).2.block_height_ = 1 := hf.2.2.1
  have hbw : (Init (new mem) 1 3 (MPIWrapper.solo 1 3)).2.block_width_ = 3 := hf.2.2.2
  have hnn : ∀ ch, (MPIWrapper.solo 1 3).neighbors_ ch = none := fun _ => rfl
  have hsz : (toUInt 1 + 2) * (toUInt 3 + 2) < UINT_MOD := by decide
  have g22 : cell (Init (new mem) 1 3 (MPIWrapper.solo 1 3)).2 0 2 2 = 0 :=
    Init_ghost _ 1 3 _ hsz (by decide) (by decide) (Or.inr (Or.inl (by decide)))
  have g23 : cell (Init (new mem) 1 3 (MPIWrapper.solo 1 3)).2 0 2 3 = 0 :=
    Init_ghost _ 1 3 _ hsz (by decide) (by decide) (Or.inr (Or.inl (by decide)))
  have g21 : cell (Init (new mem) 1 3 (MPIWrapper.solo 1 3)).2 0 2 1 = 0 :=
    Init_ghost _ 1 3 _ hsz (by decide) (by decide) (Or.inr (Or.inl (by decide)))
  have g12 : cell (Init (new mem) 1 3 (MPIWrapper.solo 1 3)).2 0 1 2 = 4 := by
    rw [Init_owned _ 1 3 _ hsz (by decide) (by decide) (by decide) (by decide)]
    have e : initVal 1 3 0 0 1 2 = 4 := by decide
    show ((initVal 1 3 0 0 1 2 : Nat) : ℚ) = 4
    rw [e]
    norm_num
  constructor
  · rw [pipelineStep_no_neighbor_map _ _ stk incoming hnn]
    have h1 := StandaloneUpdate_SweepInv (Init (new mem) 1 3 (MPIWrapper.solo 1 3)).2
      (Init (new mem) 1 3 (MPIWrapper.solo 1 3)).2 stk (SweepInv_refl _)
    have h2 := CollaborativeUpdate_SweepInv (Init (new mem) 1 3 (MPIWrapper.solo 1 3)).2 _ stk h1
    show 1 - (CollaborativeUpdate (StandaloneUpdate
      (Init (new mem) 1 3 (MPIWrapper.solo 1 3)).2 stk).2 stk).2.working_grid_ = 1
    rw [h2.1, hw]
    rfl
  · rw [pipelineStep_one_by_three (Init (new mem) 1 3 (MPIWrapper.solo 1 3)).2
      (MPIWrapper.solo 1 3) stk incoming hnn hw hbh hbw, g22, g23, g21, g12]
    ring

end HeatMap

/-! ## Claims -/

/-- C1: over exact arithmetic with `α = 1/10`, on a block whose padded element
count is representable, after `StandaloneUpdate` followed by
`CollaborativeUpdate` every owned cell `(i, j)` of the other buffer holds
`old(i,j) + α(old(i-1,j) + old(i+1,j) - 2 old(i,j)) + α(old(i,j-1) + old(i,j+1) - 2 old(i,j))`
where `old` is the working buffer before the two passes, whatever the ghost
cells and the stack contents are. -/
theorem C1_sweep_is_jacobi (s : HeatMap) (stk1 stk2 : HeatMap.Stack)
    (hsize : (s.block_height_ + 2) * (s.block_width_ + 2) < UINT_MOD)
    (hw : s.working_grid_ = 0 ∨ s.working_grid_ = 1)
    (i j : Nat) (hi1 : 1 ≤ i) (hi2 : i ≤ s.block_height_) (hj1 : 1 ≤ j)
    (hj2 : j ≤ s.block_width_) :
    HeatMap.cell (HeatMap.CollaborativeUpdate (HeatMap.StandaloneUpdate s stk1).2 stk2).2
        (1 - s.working_grid_) i j
      = HeatMap.cell s s.working_grid_ i j
        + (1 / 10 : ℚ) * (HeatMap.cell s s.working_grid_ (i - 1) j
            + HeatMap.cell s s.working_grid_ (i + 1) j - 2 * HeatMap.cell s s.working_grid_ i j)
        + (1 / 10 : ℚ) * (HeatMap.cell s s.working_grid_ i (j - 1)
            + HeatMap.cell s s.working_grid_ i (j + 1) - 2 * HeatMap.cell s s.working_grid_ i j) := by
  have h := HeatMap.sweep_Updated s hsize hw hi1 hi2 hj1 hj2 stk1 stk2
  unfold HeatMap.cell
  rw [HeatMap.cellOffset_congr h.1.2.2.1]
  exact h.2

/-- C1, the scenario of the specification: `H = W = 4`, one worker, all-zero
ghost border; the owned cell at global `(1, 1)` (local `(2, 2)`) goes from
`36` to `33.6`. -/
theorem C1_sweep_is_jacobi_witness :
    HeatMap.cell (HeatMap.Init (HeatMap.new (fun _ _ => 0)) 4 4 (MPIWrapper.solo 4 4)).2 0 2 2 = 36 ∧
    HeatMap.cell (HeatMap.CollaborativeUpdate (HeatMap.StandaloneUpdate
      (HeatMap.Init (HeatMap.new (fun _ _ => 0)) 4 4 (MPIWrapper.solo 4 4)).2
        (fun _ _ _ => 0)).2 (fun _ _ _ => 0)).2 1 2 2 = 168 / 5 := by
  have hf := HeatMap.Init_fields (HeatMap.new (fun _ _ => 0)) 4 4 (MPIWrapper.solo 4 4)
  have hwg : (HeatMap.Init (HeatMap.new (fun _ _ => 0)) 4 4 (MPIWrapper.solo 4 4)).2.working_grid_
      = 0 := hf.2.1
  have hsz : (toUInt 4 + 2) * (toUInt 4 + 2) < UINT_MOD := by decide
  have hown : ∀ a b : Nat, 1 ≤ a → a ≤ 4 → 1 ≤ b → b ≤ 4 →
      HeatMap.cell (HeatMap.Init (HeatMap.new (fun _ _ => 0)) 4 4 (MPIWrapper.solo 4 4)).2 0 a b
        = (HeatMap.initVal 4 4 0 0 a b : ℚ) :=
    fun a b h1 h2 h3 h4 =>
      HeatMap.Init_owned (HeatMap.new (fun _ _ => 0)) 4 4 (MPIWrapper.solo 4 4) hsz h1 h2 h3 h4
  have h := C1_sweep_is_jacobi
    (HeatMap.Init (HeatMap.new (fun _ _ => 0)) 4 4 (MPIWrapper.solo 4 4)).2
    (fun _ _ _ => 0) (fun _ _ _ => 0)
    (by rw [hf.2.2.1, hf.2.2.2]; exact hsz) (Or.inl hwg) 2 2 (by decide)
    (by rw [hf.2.2.1]; decide) (by decide) (by rw [hf.2.2.2]; decide)
  rw [hwg, show (1 : Int) - 0 = 1 from rfl] at h
  have e22 : (HeatMap.initVal 4 4 0 0 2 2 : ℚ) = 36 := by
    have : HeatMap.initVal 4 4 0 0 2 2 = 36 := by decide
    rw [this]; norm_num
  have e12 : (HeatMap.initVal 4 4 0 0 1 2 : ℚ) = 24 := by
    have : HeatMap.initVal 4 4 0 0 1 2 = 24 := by decide
    rw [this]; norm_num
  have e32 : (HeatMap.initVal 4 4 0 0 3 2 : ℚ) = 36 := by
    have : HeatMap.initVal 4 4 0 0 3 2 = 36 := by decide
    rw [this]; norm_num
  have e21 : (HeatMap.initVal 4 4 0 0 2 1 : ℚ) = 24 := by
    have : HeatMap.initVal 4 4 0 0 2 1 = 24 := by decide
    rw [this]; norm_num
  have e23 : (HeatMap.initVal 4 4 0 0 2 3 : ℚ) = 36 := by
    have : HeatMap.initVal 4 4 0 0 2 3 = 36 := by decide
    rw [this]; norm_num
  refine ⟨by rw [hown 2 2 (by decide) (by decide) (by decide) (by decide), e22], ?_⟩
  rw [h]
  simp only [show (2 : Nat) - 1 = 1 from rfl, show (2 : Nat) + 1 = 3 from rfl]
  rw [hown 2 2 (by decide) (by decide) (by decide) (by decide),
    hown 1 2 (by decide) (by decide) (by decide) (by decide),
    hown 3 2 (by decide) (by decide) (by decide) (by decide),
    hown 2 1 (by decide) (by decide) (by decide) (by decide),
    hown 2 3 (by decide) (by decide) (by decide) (by decide), e22, e12, e32, e21, e23]
  norm_num

/-- C2 (the code departs from the claim): on a `512 x 512` grid with one
worker, `Init` stores `33619968` in the owned cell `(256, 256)` (global
`(255, 255)`), not the integer `(255+1)*(512-255)*(255+1)*(512-255) = 4328587264`:
the `unsigned int` product wraps modulo `2^32`.  On the `4 x 4` grid of the
specification the corner cells hold `16`. -/
theorem C2_initial_value_wraps (mem : Int → Nat → ℚ) :
    HeatMap.cell (HeatMap.Init (HeatMap.new mem) 512 512 (MPIWrapper.solo 512 512)).2 0 256 256
      = 33619968 ∧
    (255 + 1) * (512 - 255) * (255 + 1) * (512 - 255) = 4328587264 ∧
    HeatMap.cell (HeatMap.Init (HeatMap.new mem) 4 4 (MPIWrapper.solo 4 4)).2 0 1 1 = 16 ∧
    HeatMap.cell (HeatMap.Init (HeatMap.new mem) 4 4 (MPIWrapper.solo 4 4)).2 0 4 4 = 16 := by
  have hsz : (toUInt 512 + 2) * (toUInt 512 + 2) < UINT_MOD := by decide
  have hsz4 : (toUInt 4 + 2) * (toUInt 4 + 2) < UINT_MOD := by decide
  have e : HeatMap.initVal 512 512 0 0 256 256 = 33619968 := by decide
  have e1 : HeatMap.initVal 4 4 0 0 1 1 = 16 := by decide
  have e4 : HeatMap.initVal 4 4 0 0 4 4 = 16 := by decide
  refine ⟨?_, by decide, ?_, ?_⟩
  · rw [HeatMap.Init_owned (HeatMap.new mem) 512 512 (MPIWrapper.solo 512 512) hsz
      (by decide) (by decide) (by decide) (by decide)]
    show ((HeatMap.initVal 512 512 0 0 256 256 : Nat) : ℚ) = 33619968
    rw [e]; norm_num
  · rw [HeatMap.Init_owned (HeatMap.new mem) 4 4 (MPIWrapper.solo 4 4) hsz4
      (by decide) (by decide) (by decide) (by decide)]
    show ((HeatMap.initVal 4 4 0 0 1 1 : Nat) : ℚ) = 16
    rw [e1]; norm_num
  · rw [HeatMap.Init_owned (HeatMap.new mem) 4 4 (MPIWrapper.solo 4 4) hsz4
      (by decide) (by decide) (by decide) (by decide)]
    show ((HeatMap.initVal 4 4 0 0 4 4 : Nat) : ℚ) = 16
    rw [e4]; norm_num

/-- C6: `GetCellValue` and `SetCellValue` return the failure status `1` exactly
when `i >= block_height_+2` or `j >= block_width_+2` (the sums being the
`unsigned int` values the source compares with) or the buffer id is neither 0
nor 1.  On failure `SetCellValue` leaves the state and `GetCellValue` leaves
the output value unchanged; otherwise both return `0`, `GetCellValue` yields
the cell and `SetCellValue` changes that cell of that buffer and nothing else.
When `block_height_+2` and `block_width_+2` do not wrap, the sums are the
mathematical ones. -/
theorem C6_accessor_status (s : HeatMap) (i j : Nat) (grid : Int) (val : ℚ) :
    ((HeatMap.GetCellValue s i j grid val).1 = 1 ↔
      (u32 (s.block_height_ + 2) ≤ i ∨ u32 (s.block_width_ + 2) ≤ j ∨ ¬ (grid = 0 ∨ grid = 1))) ∧
    ((HeatMap.SetCellValue s i j grid val).1 = 1 ↔
      (u32 (s.block_height_ + 2) ≤ i ∨ u32 (s.block_width_ + 2) ≤ j ∨ ¬ (grid = 0 ∨ grid = 1))) ∧
    ((u32 (s.block_height_ + 2) ≤ i ∨ u32 (s.block_width_ + 2) ≤ j ∨ ¬ (grid = 0 ∨ grid = 1)) →
      (HeatMap.SetCellValue s i j grid val).2 = s ∧ (HeatMap.GetCellValue s i j grid val).2 = val) ∧
    (¬ (u32 (s.block_height_ + 2) ≤ i ∨ u32 (s.block_width_ + 2) ≤ j ∨ ¬ (grid = 0 ∨ grid = 1)) →
      (HeatMap.GetCellValue s i j grid val).1 = 0 ∧
      (HeatMap.GetCellValue s i j grid val).2 = HeatMap.cell s grid i j ∧
      (HeatMap.SetCellValue s i j grid val).1 = 0 ∧
      HeatMap.cell (HeatMap.SetCellValue s i j grid val).2 grid i j = val ∧
      (∀ (g : Int) (k : Nat), g ≠ grid ∨ k ≠ HeatMap.cellOffset s i j →
        (HeatMap.SetCellValue s i j grid val).2.grids_ g k = s.grids_ g k) ∧
      (HeatMap.SetCellValue s i j grid val).2.working_grid_ = s.working_grid_ ∧
      (HeatMap.SetCellValue s i j grid val).2.block_height_ = s.block_height_ ∧
      (HeatMap.SetCellValue s i j grid val).2.block_width_ = s.block_width_) ∧
    (s.block_height_ + 2 < UINT_MOD → s.block_width_ + 2 < UINT_MOD →
      ((HeatMap.GetCellValue s i j grid val).1 = 1 ↔
        (s.block_height_ + 2 ≤ i ∨ s.block_width_ + 2 ≤ j ∨ ¬ (grid = 0 ∨ grid = 1))) ∧
      ((HeatMap.SetCellValue s i j grid val).1 = 1 ↔
        (s.block_height_ + 2 ≤ i ∨ s.block_width_ + 2 ≤ j ∨ ¬ (grid = 0 ∨ grid = 1)))) := by
  by_cases h : u32 (s.block_height_ + 2) ≤ i ∨ u32 (s.block_width_ + 2) ≤ j
      ∨ ¬ (grid = 0 ∨ grid = 1)
  · rw [HeatMap.GetCellValue_fail s val h, HeatMap.SetCellValue_fail s val h]
    refine ⟨⟨fun _ => h, fun _ => rfl⟩, ⟨fun _ => h, fun _ => rfl⟩, fun _ => ⟨rfl, rfl⟩,
      fun hn => absurd h hn, fun e1 e2 => ?_⟩
    rw [u32_of_lt e1, u32_of_lt e2] at h
    exact ⟨⟨fun _ => h, fun _ => rfl⟩, ⟨fun _ => h, fun _ => rfl⟩⟩
  · have hi : i < u32 (s.block_height_ + 2) := by omega
    have hj : j < u32 (s.block_width_ + 2) := by omega
    have hg : grid = 0 ∨ grid = 1 := by omega
    rw [HeatMap.GetCellValue_ok s val hi hj hg, HeatMap.SetCellValue_ok s val hi hj hg]
    refine ⟨⟨fun h1 => absurd (show (0 : Int) = 1 from h1) (by decide), fun h1 => absurd h1 h⟩,
      ⟨fun h1 => absurd (show (0 : Int) = 1 from h1) (by decide), fun h1 => absurd h1 h⟩,
      fun h1 => absurd h1 h, fun _ => ?_, fun e1 e2 => ?_⟩
    swap
    · rw [u32_of_lt e1, u32_of_lt e2] at h
      exact ⟨⟨fun h1 => absurd (show (0 : Int) = 1 from h1) (by decide), fun h1 => absurd h1 h⟩,
        ⟨fun h1 => absurd (show (0 : Int) = 1 from h1) (by decide), fun h1 => absurd h1 h⟩⟩
    refine ⟨rfl, rfl, rfl, ?_, ?_, rfl, rfl, rfl⟩
    · show (HeatMap.store s grid (HeatMap.cellOffset s i j) val).grids_ grid
        (HeatMap.cellOffset (HeatMap.store s grid (HeatMap.cellOffset s i j) val) i j) = val
      exact HeatMap.store_same s grid _ val
    · intro g k hgk
      exact HeatMap.store_other s grid _ val g k hgk

/-- C7 (the code departs from the claim): with `block_height = block_width =
65534` the element count `(block_height_+2)*(block_width_+2)` computed by
`Init` wraps to `0`, while both accessors accept the owned cell `(1, 1)` and
dereference offset `65537`, which is not below the element count. -/
theorem C7_offset_beyond_allocation (mem : Int → Nat → ℚ) (val : ℚ) :
    HeatMap.block_size
      (HeatMap.Init (HeatMap.new mem) 65534 65534 (MPIWrapper.solo 65534 65534)).2.block_height_
      (HeatMap.Init (HeatMap.new mem) 65534 65534 (MPIWrapper.solo 65534 65534)).2.block_width_ = 0 ∧
    (HeatMap.GetCellValue
      (HeatMap.Init (HeatMap.new mem) 65534 65534 (MPIWrapper.solo 65534 65534)).2 1 1 0 val).1 = 0 ∧
    (HeatMap.SetCellValue
      (HeatMap.Init (HeatMap.new mem) 65534 65534 (MPIWrapper.solo 65534 65534)).2 1 1 0 val).1 = 0 ∧
    HeatMap.cellOffset
      (HeatMap.Init (HeatMap.new mem) 65534 65534 (MPIWrapper.solo 65534 65534)).2 1 1 = 65537 := by
  have hf := HeatMap.Init_fields (HeatMap.new mem) 65534 65534 (MPIWrapper.solo 65534 65534)
  have hh : (HeatMap.Init (HeatMap.new mem) 65534 65534
      (MPIWrapper.solo 65534 65534)).2.block_height_ = 65534 := hf.2.2.1
  have hw : (HeatMap.Init (HeatMap.new mem) 65534 65534
      (MPIWrapper.solo 65534 65534)).2.block_width_ = 65534 := hf.2.2.2
  refine ⟨?_, ?_, ?_, ?_⟩
  · rw [hh, hw]; decide
  · rw [HeatMap.GetCellValue_ok _ val (by rw [hh]; decide) (by rw [hw]; decide) (Or.inl rfl)]
  · rw [HeatMap.SetCellValue_ok _ val (by rw [hh]; decide) (by rw [hw]; decide) (Or.inl rfl)]
  · unfold HeatMap.cellOffset
    rw [hw]; decide

/-- C10: the stencil passes read only the working buffer and write only the
other one: `CellUpdate(i, j)`, `StandaloneUpdate` and `CollaborativeUpdate`
leave every element of the working buffer (and the indicator and the block
dimensions) unchanged, and `CellUpdate(i, j)` changes no element of either
buffer other than the cell `(i, j)` of the other buffer. -/
theorem C10_passes_write_only_other_buffer (s : HeatMap) (i j : Nat) (val : CHANNEL → ℚ)
    (stk : HeatMap.Stack) :
    (HeatMap.CellUpdate s i j val).2.grids_ s.working_grid_ = s.grids_ s.working_grid_ ∧
    (HeatMap.StandaloneUpdate s stk).2.grids_ s.working_grid_ = s.grids_ s.working_grid_ ∧
    (HeatMap.CollaborativeUpdate s stk).2.grids_ s.working_grid_ = s.grids_ s.working_grid_ ∧
    (∀ (g : Int) (k : Nat), g ≠ 1 - s.working_grid_ ∨ k ≠ HeatMap.cellOffset s i j →
      (HeatMap.CellUpdate s i j val).2.grids_ g k = s.grids_ g k) ∧
    (HeatMap.CellUpdate s i j val).2.working_grid_ = s.working_grid_ ∧
    (HeatMap.StandaloneUpdate s stk).2.working_grid_ = s.working_grid_ ∧
    (HeatMap.CollaborativeUpdate s stk).2.working_grid_ = s.working_grid_ :=
  ⟨HeatMap.CellUpdate_working s i j val,
    (HeatMap.StandaloneUpdate_SweepInv s s stk (HeatMap.SweepInv_refl s)).2.2.2,
    (HeatMap.CollaborativeUpdate_SweepInv s s stk (HeatMap.SweepInv_refl s)).2.2.2,
    fun g k h => HeatMap.CellUpdate_other s i j val g k h,
    (HeatMap.CellUpdate_fields s i j val).1,
    (HeatMap.StandaloneUpdate_SweepInv s s stk (HeatMap.SweepInv_refl s)).1,
    (HeatMap.CollaborativeUpdate_SweepInv s s stk (HeatMap.SweepInv_refl s)).1⟩

/-- C4: with the factorisation `(d0, d1)`, `d0, d1 >= 1`, taken as given,
`CreateTopology(height, width)` takes the abort path exactly when
`height % d0 != 0` or `width % d1 != 0`; on the abort path the error code is
`1` and the worker prints the two diagnostic lines (the second naming the
attempted split) if its rank is 0 and prints nothing otherwise. -/
theorem C4_abort_iff_not_divisible (w : MPIWrapper) (env : CartEnv) (height width : Int)
    (_hd0 : 1 ≤ env.d0) (_hd1 : 1 ≤ env.d1) :
    ((w.CreateTopology env height width).isAborted = true ↔
      (Int.tmod height env.d0 ≠ 0 ∨ Int.tmod width env.d1 ≠ 0)) ∧
    ((w.CreateTopology env height width).isAborted = true →
      ((w.CreateTopology env height width).diagnostics ≠ [] ↔ w.rank_ = 0) ∧
      w.CreateTopology env height width = TopologyResult.aborted 1
        (if w.rank_ = 0 then
          [Diagnostic.incompatible, Diagnostic.triedToSplit height width env.d0 env.d1]
         else [])) := by
  by_cases h : Int.tmod height env.d0 ≠ 0 ∨ Int.tmod width env.d1 ≠ 0
  · rw [MPIWrapper.CreateTopology_abort w env height width h]
    refine ⟨⟨fun _ => h, fun _ => rfl⟩, fun _ => ⟨?_, rfl⟩⟩
    by_cases hr : w.rank_ = 0
    · simp [TopologyResult.diagnostics, hr]
    · simp [TopologyResult.diagnostics, hr]
  · obtain ⟨w1, hw1, _⟩ := MPIWrapper.CreateTopology_ok w env height width h
    rw [hw1]
    refine ⟨⟨fun h1 => ?_, fun h1 => absurd h1 h⟩, fun h1 => ?_⟩
    · exact absurd h1 (by simp [TopologyResult.isAborted])
    · exact absurd h1 (by simp [TopologyResult.isAborted])

/-- C4 at a concrete input: splitting a `5 x 4` grid over a `2 x 2` topology
aborts, and the worker of rank 0 prints the diagnostic. -/
theorem C4_abort_iff_not_divisible_witness :
    ((MPIWrapper.Init MPIWrapper.blank 0 4).2.CreateTopology
        ⟨2, 2, 0, 0, 0, fun _ => none⟩ 5 4).isAborted = true ∧
    (MPIWrapper.Init MPIWrapper.blank 0 4).2.CreateTopology ⟨2, 2, 0, 0, 0, fun _ => none⟩ 5 4
      = TopologyResult.aborted 1
          [Diagnostic.incompatible, Diagnostic.triedToSplit 5 4 2 2] := by
  have h := C4_abort_iff_not_divisible (MPIWrapper.Init MPIWrapper.blank 0 4).2
    ⟨2, 2, 0, 0, 0, fun _ => none⟩ 5 4 (by decide) (by decide)
  have ha := h.1.2 (Or.inl (by decide))
  exact ⟨ha, (h.2 ha).2⟩

/-- C5: for grid sizes `H`, `W` (representable as `int`) and a factorisation
`d0 x d1`, `d0, d1 >= 1`, with `d0 | H` and `d1 | W`, `CreateTopology` does
not abort and returns `0`; the block dimensions it stores satisfy
`block_height*d0 == H` and `block_width*d1 == W`, and the global extents
`topology_height()*block_height_` and `topology_width()*block_width_` that
`HeatMap::Init` recomputes equal `H` and `W`. -/
theorem C5_topology_block_dims (w : MPIWrapper) (env : CartEnv) (s : HeatMap) (H W d0 d1 : Nat)
    (hH : H < 2 ^ 31) (hW : W < 2 ^ 31) (_hd0 : 1 ≤ d0) (_hd1 : 1 ≤ d1)
    (he0 : env.d0 = d0) (he1 : env.d1 = d1) (h0 : d0 ∣ H) (h1 : d1 ∣ W) :
    ∃ w1, w.CreateTopology env H W = TopologyResult.returned 0 w1 ∧
      (w.CreateTopology env H W).isAborted = false ∧
      w1.block_height_ * d0 = H ∧ w1.block_width_ * d1 = W ∧
      HeatMap.imul w1.topology_height_
        (HeatMap.Init s w1.block_height_ w1.block_width_ w1).2.block_height_ = H ∧
      HeatMap.imul w1.topology_width_
        (HeatMap.Init s w1.block_height_ w1.block_width_ w1).2.block_width_ = W := by
  obtain ⟨w1, hw1, a1, a2, _, _, a5, a6⟩ :=
    MPIWrapper.CreateTopology_divisible w env H W d0 d1 he0 he1 h0 h1
  have hf := HeatMap.Init_fields s w1.block_height_ w1.block_width_ w1
  have hqH : d0 * (H / d0) = H := Nat.mul_div_cancel' h0
  have hqW : d1 * (W / d1) = W := Nat.mul_div_cancel' h1
  have hM : (2 : Nat) ^ 31 < UINT_MOD := by decide
  have hbH : H / d0 < UINT_MOD := lt_of_le_of_lt (Nat.div_le_self _ _) (by omega)
  have hbW : W / d1 < UINT_MOD := lt_of_le_of_lt (Nat.div_le_self _ _) (by omega)
  refine ⟨w1, hw1, by rw [hw1]; rfl, ?_, ?_, ?_, ?_⟩
  · rw [a5]
    exact_mod_cast Nat.div_mul_cancel h0
  · rw [a6]
    exact_mod_cast Nat.div_mul_cancel h1
  · rw [hf.2.2.1, a1, a5, toUInt_natCast, u32_of_lt hbH, imul_natCast (by omega), hqH]
  · rw [hf.2.2.2, a2, a6, toUInt_natCast, u32_of_lt hbW, imul_natCast (by omega), hqW]

/-- C5 at a concrete input: a `6 x 4` grid on a `3 x 2` topology: blocks of `2 x 2`. -/
theorem C5_topology_block_dims_witness :
    ∃ w1, (MPIWrapper.Init MPIWrapper.blank 0 6).2.CreateTopology
        ⟨3, 2, 0, 0, 0, fun _ => none⟩ ((6 : Nat) : Int) ((4 : Nat) : Int)
          = TopologyResult.returned 0 w1 ∧
      w1.block_height_ * ((3 : Nat) : Int) = ((6 : Nat) : Int) ∧
      w1.block_width_ * ((2 : Nat) : Int) = ((4 : Nat) : Int) := by
  obtain ⟨w1, h1, _, h2, h3, _⟩ := C5_topology_block_dims
    (MPIWrapper.Init MPIWrapper.blank 0 6).2 ⟨3, 2, 0, 0, 0, fun _ => none⟩
    (HeatMap.new (fun _ _ => 0)) 6 4 3 2 (by decide) (by decide) (by decide) (by decide)
    rfl rfl (by decide) (by decide)
  exact ⟨w1, h1, h2, h3⟩

/-- C3: for `H, W >= 1` (representable as `int`) and a topology `d0 x d1` with
`d0 | H` and `d1 | W`, `CreateTopology` stores `block_height = H/d0` and
`block_width = W/d1`, `Init` keeps them, and the global coordinates
`(i-1+off_x, j-1+off_y)` that `Init` computes with the offsets
`(cx*block_height, cy*block_width)` are `(cx*block_height + i-1,
cy*block_width + j-1)`.  This map from worker coordinates `(cx, cy)` in
`[0,d0) x [0,d1)` and owned local cells `(i, j)` is a bijection onto
`[0,H) x [0,W)`: it maps into that range and every global cell has exactly
one preimage; the owned-cell counts of all workers sum to `H*W`. -/
theorem C3_blocks_partition_grid (w : MPIWrapper) (env : CartEnv) (s : HeatMap)
    (H W d0 d1 : Nat) (hH1 : 1 ≤ H) (hW1 : 1 ≤ W) (hH : H < 2 ^ 31) (hW : W < 2 ^ 31)
    (he0 : env.d0 = d0) (he1 : env.d1 = d1) (h0 : d0 ∣ H) (h1 : d1 ∣ W) :
    ∃ w1, w.CreateTopology env H W = TopologyResult.returned 0 w1 ∧
      (HeatMap.Init s w1.block_height_ w1.block_width_ w1).2.block_height_ = H / d0 ∧
      (HeatMap.Init s w1.block_height_ w1.block_width_ w1).2.block_width_ = W / d1 ∧
      (∀ cx cy i j : Nat, cx < d0 → cy < d1 → 1 ≤ i → i ≤ H / d0 → 1 ≤ j → j ≤ W / d1 →
        HeatMap.globalIndex (HeatMap.imul (cx : Int) (H / d0)) i = cx * (H / d0) + i - 1 ∧
        HeatMap.globalIndex (HeatMap.imul (cy : Int) (W / d1)) j = cy * (W / d1) + j - 1 ∧
        cx * (H / d0) + i - 1 < H ∧ cy * (W / d1) + j - 1 < W) ∧
      (∀ gi gj : Nat, gi < H → gj < W →
        ∃! p : Nat × Nat × Nat × Nat,
          p.1 < d0 ∧ p.2.1 < d1 ∧ 1 ≤ p.2.2.1 ∧ p.2.2.1 ≤ H / d0 ∧
          1 ≤ p.2.2.2 ∧ p.2.2.2 ≤ W / d1 ∧
          HeatMap.globalIndex (HeatMap.imul (p.1 : Int) (H / d0)) p.2.2.1 = gi ∧
          HeatMap.globalIndex (HeatMap.imul (p.2.1 : Int) (W / d1)) p.2.2.2 = gj) ∧
      (∑ _c ∈ Finset.range d0 ×ˢ Finset.range d1, (H / d0) * (W / d1)) = H * W := by
  obtain ⟨w1, hw1, _, _, _, _, a5, a6⟩ :=
    MPIWrapper.CreateTopology_divisible w env H W d0 d1 he0 he1 h0 h1
  have hf := HeatMap.Init_fields s w1.block_height_ w1.block_width_ w1
  have hM : (2 : Nat) ^ 31 < UINT_MOD := by decide
  have hbH : H / d0 < UINT_MOD := lt_of_le_of_lt (Nat.div_le_self _ _) (by omega)
  have hbW : W / d1 < UINT_MOD := lt_of_le_of_lt (Nat.div_le_self _ _) (by omega)
  obtain ⟨hx1, hx2, hx3⟩ := axis_index hH1 hH h0
  obtain ⟨hy1, hy2, hy3⟩ := axis_index hW1 hW h1
  refine ⟨w1, hw1, ?_, ?_, ?_, ?_, ?_⟩
  · rw [hf.2.2.1, a5, toUInt_natCast, u32_of_lt hbH]
  · rw [hf.2.2.2, a6, toUInt_natCast, u32_of_lt hbW]
  · intro cx cy i j hcx hcy hi1 hi2 hj1 hj2
    exact ⟨(hx2 cx i hcx hi1 hi2).1, (hy2 cy j hcy hj1 hj2).1, (hx2 cx i hcx hi1 hi2).2,
      (hy2 cy j hcy hj1 hj2).2⟩
  · intro gi gj hgi hgj
    refine ⟨(gi / (H / d0), gj / (W / d1), gi % (H / d0) + 1, gj % (W / d1) + 1), ?_, ?_⟩
    · have m1 : gi % (H / d0) < H / d0 := Nat.mod_lt _ hx1
      have m2 : gj % (W / d1) < W / d1 := Nat.mod_lt _ hy1
      refine ⟨hx3 gi hgi, hy3 gj hgj, Nat.le_add_left 1 _, m1, Nat.le_add_left 1 _, m2, ?_, ?_⟩
      · show HeatMap.globalIndex (HeatMap.imul ((gi / (H / d0) : Nat) : Int) (H / d0))
          (gi % (H / d0) + 1) = gi
        rw [(hx2 _ _ (hx3 gi hgi) (by omega) (by omega)).1]
        exact (block_split_unique hx1 gi _ _ (by omega) (by omega)).2 ⟨rfl, rfl⟩
      · show HeatMap.globalIndex (HeatMap.imul ((gj / (W / d1) : Nat) : Int) (W / d1))
          (gj % (W / d1) + 1) = gj
        rw [(hy2 _ _ (hy3 gj hgj) (by omega) (by omega)).1]
        exact (block_split_unique hy1 gj _ _ (by omega) (by omega)).2 ⟨rfl, rfl⟩
    · rintro ⟨cx, cy, i, j⟩ ⟨q1, q2, q3, q4, q5, q6, q7, q8⟩
      simp only at q1 q2 q3 q4 q5 q6 q7 q8
      rw [(hx2 cx i q1 q3 q4).1] at q7
      rw [(hy2 cy j q2 q5 q6).1] at q8
      have ex := (block_split_unique hx1 gi cx i q3 q4).1 q7
      have ey := (block_split_unique hy1 gj cy j q5 q6).1 q8
      rw [ex.1, ex.2, ey.1, ey.2]
  · rw [Finset.sum_const, Finset.card_product, Finset.card_range, Finset.card_range,
      smul_eq_mul]
    have hqH : d0 * (H / d0) = H := Nat.mul_div_cancel' h0
    have hqW : d1 * (W / d1) = W := Nat.mul_div_cancel' h1
    calc d0 * d1 * (H / d0 * (W / d1)) = (d0 * (H / d0)) * (d1 * (W / d1)) := by ring
      _ = H * W := by rw [hqH, hqW]

/-- C3 at a concrete input: a `6 x 4` grid on a `3 x 2` topology; the global
cell `(5, 3)` is owned by exactly one worker cell. -/
theorem C3_blocks_partition_grid_witness :
    (∃! p : Nat × Nat × Nat × Nat,
      p.1 < 3 ∧ p.2.1 < 2 ∧ 1 ≤ p.2.2.1 ∧ p.2.2.1 ≤ 6 / 3 ∧ 1 ≤ p.2.2.2 ∧ p.2.2.2 ≤ 4 / 2 ∧
      HeatMap.globalIndex (HeatMap.imul (p.1 : Int) (6 / 3)) p.2.2.1 = 5 ∧
      HeatMap.globalIndex (HeatMap.imul (p.2.1 : Int) (4 / 2)) p.2.2.2 = 3) ∧
    (∑ _c ∈ Finset.range 3 ×ˢ Finset.range 2, (6 / 3) * (4 / 2)) = 6 * 4 := by
  obtain ⟨_, _, _, _, _, h5, h6⟩ := C3_blocks_partition_grid
    (MPIWrapper.Init MPIWrapper.blank 0 6).2 ⟨3, 2, 0, 0, 0, fun _ => none⟩
    (HeatMap.new (fun _ _ => 0)) 6 4 3 2 (by decide) (by decide) (by decide) (by decide)
    rfl rfl (by decide) (by decide)
  exact ⟨h5 5 3 (by decide) (by decide), h6⟩

/-- C8 (the code departs from the claim): a `1 x 3` grid on one worker.  After
`Init` the ghost cell `(2, 2)` (row `block_height+1`) of buffer 1 holds `0`;
after one pass of the pipeline it holds `(4 + b)/10`, where `4` is the owned
cell `(1, 2)` and `b` the uninitialised `val[BOTTOM]` of `CellUpdate(2, 2)`:
the counter of `StandaloneUpdate` starts at `2`, beyond `block_height_ = 1`,
wraps around and the pass writes ghost cells.  With a zeroed stack the ghost
cell holds `2/5`.  No transfer is issued: the wrapper is unchanged. -/
theorem C8_ghost_cell_written (mem : Int → Nat → ℚ) (stk : HeatMap.Stack)
    (incoming : CHANNEL → Nat → ℚ) :
    HeatMap.cell (HeatMap.Init (HeatMap.new mem) 1 3 (MPIWrapper.solo 1 3)).2 1 2 2 = 0 ∧
    HeatMap.cell (HeatMap.pipelineStep
        ((HeatMap.Init (HeatMap.new mem) 1 3 (MPIWrapper.solo 1 3)).2, MPIWrapper.solo 1 3)
        stk incoming).1 1 2 2 = (4 + stk 2 2 CHANNEL.BOTTOM) / 10 ∧
    HeatMap.cell (HeatMap.pipelineStep
        ((HeatMap.Init (HeatMap.new mem) 1 3 (MPIWrapper.solo 1 3)).2, MPIWrapper.solo 1 3)
        (fun _ _ _ => 0) incoming).1 1 2 2 = 2 / 5 ∧
    (HeatMap.pipelineStep
        ((HeatMap.Init (HeatMap.new mem) 1 3 (MPIWrapper.solo 1 3)).2, MPIWrapper.solo 1 3)
        stk incoming).2 = MPIWrapper.solo 1 3 := by
  have hsz : (toUInt 1 + 2) * (toUInt 3 + 2) < UINT_MOD := by decide
  have hf := HeatMap.Init_fields (HeatMap.new mem) 1 3 (MPIWrapper.solo 1 3)
  have hw : (HeatMap.Init (HeatMap.new mem) 1 3 (MPIWrapper.solo 1 3)).2.working_grid_ = 0 :=
    hf.2.1
  have hbh : (HeatMap.Init (HeatMap.new mem) 1 3 (MPIWrapper.solo 1 3)).2.block_height_ = 1 :=
    hf.2.2.1
  have hbw : (HeatMap.Init (HeatMap.new mem) 1 3 (MPIWrapper.solo 1 3)).2.block_width_ = 3 :=
    hf.2.2.2
  have hnn : ∀ ch, (MPIWrapper.solo 1 3).neighbors_ ch = none := fun _ => rfl
  have g22 : HeatMap.cell (HeatMap.Init (HeatMap.new mem) 1 3 (MPIWrapper.solo 1 3)).2 0 2 2 = 0 :=
    HeatMap.Init_ghost _ 1 3 _ hsz (by decide) (by decide) (Or.inr (Or.inl (by decide)))
  have g23 : HeatMap.cell (HeatMap.Init (HeatMap.new mem) 1 3 (MPIWrapper.solo 1 3)).2 0 2 3 = 0 :=
    HeatMap.Init_ghost _ 1 3 _ hsz (by decide) (by decide) (Or.inr (Or.inl (by decide)))
  have g21 : HeatMap.cell (HeatMap.Init (HeatMap.new mem) 1 3 (MPIWrapper.solo 1 3)).2 0 2 1 = 0 :=
    HeatMap.Init_ghost _ 1 3 _ hsz (by decide) (by decide) (Or.inr (Or.inl (by decide)))
  have g12 : HeatMap.cell (HeatMap.Init (HeatMap.new mem) 1 3 (MPIWrapper.solo 1 3)).2 0 1 2 = 4 := by
    rw [HeatMap.Init_owned _ 1 3 _ hsz (by decide) (by decide) (by decide) (by decide)]
    have e : HeatMap.initVal 1 3 0 0 1 2 = 4 := by decide
    show ((HeatMap.initVal 1 3 0 0 1 2 : Nat) : ℚ) = 4
    rw [e]; norm_num
  have hoff : ∀ t : HeatMap, t.block_width_ = 3 → HeatMap.cellOffset t 2 2 = 12 := by
    intro t ht
    unfold HeatMap.cellOffset
    rw [ht]
    rfl
  have hstep : ∀ stk1 : HeatMap.Stack,
      HeatMap.cell (HeatMap.pipelineStep
        ((HeatMap.Init (HeatMap.new mem) 1 3 (MPIWrapper.solo 1 3)).2, MPIWrapper.solo 1 3)
        stk1 incoming).1 1 2 2 = (4 + stk1 2 2 CHANNEL.BOTTOM) / 10 := by
    intro stk1
    rw [HeatMap.pipelineStep_one_by_three
      (HeatMap.Init (HeatMap.new mem) 1 3 (MPIWrapper.solo 1 3)).2 (MPIWrapper.solo 1 3)
      stk1 incoming hnn hw hbh hbw, g22, g23, g21, g12]
    ring
  refine ⟨?_, hstep stk, ?_, ?_⟩
  · unfold HeatMap.cell
    rw [hoff _ hbw]
    exact HeatMap.Init_other _ 1 3 _ hsz (by decide)
  · rw [hstep]
    norm_num
  · exact HeatMap.pipelineStep_no_neighbor_wrapper _ _ _ _ hnn

/-- C9 (the code departs from the claim): two `1 x 3` blocks that agree on all
owned cells of the working buffer and on the whole other buffer, and differ
only in the ghost cell `(2, 1)` of the working buffer; `StandaloneUpdate`
leaves different values in the cell `(2, 2)` of the other buffer. -/
theorem C9_interior_pass_reads_ghost (stk : HeatMap.Stack) :
    (∀ i j : Nat, 1 ≤ i → i ≤ 1 → 1 ≤ j → j ≤ 3 →
      HeatMap.cell HeatMap.zeroBlock13 0 i j = HeatMap.cell HeatMap.markedBlock13 0 i j) ∧
    HeatMap.zeroBlock13.grids_ 1 = HeatMap.markedBlock13.grids_ 1 ∧
    HeatMap.cell (HeatMap.StandaloneUpdate HeatMap.zeroBlock13 stk).2 1 2 2
      = stk 2 2 CHANNEL.BOTTOM / 10 ∧
    HeatMap.cell (HeatMap.StandaloneUpdate HeatMap.markedBlock13 stk).2 1 2 2
      = stk 2 2 CHANNEL.BOTTOM / 10 + 1 / 10 ∧
    (HeatMap.StandaloneUpdate HeatMap.zeroBlock13 stk).2.grids_ 1
      ≠ (HeatMap.StandaloneUpdate HeatMap.markedBlock13 stk).2.grids_ 1 := by
  have hoff : ∀ (t : HeatMap) (i j : Nat), t.block_width_ = 3 →
      HeatMap.cellOffset t i j = u32 (i * 5) + j := by
    intro t i j ht
    unfold HeatMap.cellOffset
    rw [ht]
    rfl
  have e5 : u32 (1 * 5) = 5 := by decide
  have e10 : u32 (2 * 5) = 10 := by decide
  have hA : HeatMap.cell (HeatMap.StandaloneUpdate HeatMap.zeroBlock13 stk).2 1 2 2
      = stk 2 2 CHANNEL.BOTTOM / 10 := by
    rw [HeatMap.StandaloneUpdate_ghost_written HeatMap.zeroBlock13 stk rfl rfl rfl]
    unfold HeatMap.cell
    show (0 : ℚ) + 1 / 10 * (0 + stk 2 2 CHANNEL.BOTTOM - 2 * 0) + 1 / 10 * (0 + 0 - 2 * 0) = _
    ring
  have hB : HeatMap.cell (HeatMap.StandaloneUpdate HeatMap.markedBlock13 stk).2 1 2 2
      = stk 2 2 CHANNEL.BOTTOM / 10 + 1 / 10 := by
    rw [HeatMap.StandaloneUpdate_ghost_written HeatMap.markedBlock13 stk rfl rfl rfl]
    unfold HeatMap.cell
    rw [hoff HeatMap.markedBlock13 2 2 rfl, hoff HeatMap.markedBlock13 1 2 rfl,
      hoff HeatMap.markedBlock13 2 3 rfl, hoff HeatMap.markedBlock13 2 1 rfl, e5, e10]
    show (if (0 : Int) = 0 ∧ 10 + 2 = 11 then (1 : ℚ) else 0)
      + 1 / 10 * ((if (0 : Int) = 0 ∧ 5 + 2 = 11 then (1 : ℚ) else 0) + stk 2 2 CHANNEL.BOTTOM
        - 2 * (if (0 : Int) = 0 ∧ 10 + 2 = 11 then (1 : ℚ) else 0))
      + 1 / 10 * ((if (0 : Int) = 0 ∧ 10 + 3 = 11 then (1 : ℚ) else 0)
        + (if (0 : Int) = 0 ∧ 10 + 1 = 11 then (1 : ℚ) else 0)
        - 2 * (if (0 : Int) = 0 ∧ 10 + 2 = 11 then (1 : ℚ) else 0)) = _
    rw [if_neg (by decide), if_neg (by decide), if_neg (by decide), if_pos (by decide)]
    ring
  have iA := HeatMap.StandaloneUpdate_SweepInv HeatMap.zeroBlock13 HeatMap.zeroBlock13 stk
    (HeatMap.SweepInv_refl HeatMap.zeroBlock13)
  have iB := HeatMap.StandaloneUpdate_SweepInv HeatMap.markedBlock13 HeatMap.markedBlock13 stk
    (HeatMap.SweepInv_refl HeatMap.markedBlock13)
  refine ⟨?_, ?_, hA, hB, ?_⟩
  · intro i j hi1 hi2 hj1 hj2
    have hi : i = 1 := by omega
    subst hi
    unfold HeatMap.cell
    rw [hoff HeatMap.zeroBlock13 1 j rfl, hoff HeatMap.markedBlock13 1 j rfl, e5]
    show (0 : ℚ) = if (0 : Int) = 0 ∧ 5 + j = 11 then 1 else 0
    rw [if_neg (by omega)]
  · funext k
    show (0 : ℚ) = if (1 : Int) = 0 ∧ k = 11 then 1 else 0
    rw [if_neg (by omega)]
  · intro heq
    have wA : (HeatMap.StandaloneUpdate HeatMap.zeroBlock13 stk).2.block_width_ = 3 := iA.2.2.1
    have wB : (HeatMap.StandaloneUpdate HeatMap.markedBlock13 stk).2.block_width_ = 3 := iB.2.2.1
    have oA := hoff (HeatMap.StandaloneUpdate HeatMap.zeroBlock13 stk).2 2 2 wA
    have oB := hoff (HeatMap.StandaloneUpdate HeatMap.markedBlock13 stk).2 2 2 wB
    rw [HeatMap.cell_eq, oA] at hA
    rw [HeatMap.cell_eq, oB, ← heq, hA] at hB
    exact absurd (self_eq_add_right.mp hB) (by norm_num)

/-- C11: the four send tags `LEFT_SEND`, `UP_SEND`, `RIGHT_SEND`, `DOWN_SEND`
are pairwise distinct, the four receive tags are pairwise distinct, and the
send tag of each direction is the receive tag of the opposite direction
(`LEFT_SEND = RIGHT_RECV`, `RIGHT_SEND = LEFT_RECV`, `UP_SEND = DOWN_RECV`,
`DOWN_SEND = UP_RECV`) and of no other direction.  `ExchangeMessages` posts,
on every channel that has a neighbour, its send with the send tag and its
receive with the receive tag of that channel. -/
theorem C11_tags_pair_opposite_directions (s : HeatMap) (w : MPIWrapper) :
    [LEFT_SEND, UP_SEND, RIGHT_SEND, DOWN_SEND].Nodup ∧
    [LEFT_RECV, UP_RECV, RIGHT_RECV, DOWN_RECV].Nodup ∧
    (LEFT_SEND = RIGHT_RECV ∧ RIGHT_SEND = LEFT_RECV ∧
      UP_SEND = DOWN_RECV ∧ DOWN_SEND = UP_RECV) ∧
    (∀ t ∈ [LEFT_RECV, UP_RECV, DOWN_RECV], LEFT_SEND ≠ t) ∧
    (∀ t ∈ [RIGHT_RECV, UP_RECV, DOWN_RECV], RIGHT_SEND ≠ t) ∧
    (∀ t ∈ [LEFT_RECV, RIGHT_RECV, UP_RECV], UP_SEND ≠ t) ∧
    (∀ t ∈ [LEFT_RECV, RIGHT_RECV, DOWN_RECV], DOWN_SEND ≠ t) ∧
    (∀ p, w.neighbors_ CHANNEL.LEFT = some p →
      ((HeatMap.ExchangeMessages s w).2.requests_ CHANNEL.LEFT DIRECTION.OUT).map Request.tag
        = some LEFT_SEND ∧
      ((HeatMap.ExchangeMessages s w).2.requests_ CHANNEL.LEFT DIRECTION.IN).map Request.tag
        = some LEFT_RECV) ∧
    (∀ p, w.neighbors_ CHANNEL.TOP = some p →
      ((HeatMap.ExchangeMessages s w).2.requests_ CHANNEL.TOP DIRECTION.OUT).map Request.tag
        = some UP_SEND ∧
      ((HeatMap.ExchangeMessages s w).2.requests_ CHANNEL.TOP DIRECTION.IN).map Request.tag
        = some UP_RECV) ∧
    (∀ p, w.neighbors_ CHANNEL.RIGHT = some p →
      ((HeatMap.ExchangeMessages s w).2.requests_ CHANNEL.RIGHT DIRECTION.OUT).map Request.tag
        = some RIGHT_SEND ∧
      ((HeatMap.ExchangeMessages s w).2.requests_ CHANNEL.RIGHT DIRECTION.IN).map Request.tag
        = some RIGHT_RECV) ∧
    (∀ p, w.neighbors_ CHANNEL.BOTTOM = some p →
      ((HeatMap.ExchangeMessages s w).2.requests_ CHANNEL.BOTTOM DIRECTION.OUT).map Request.tag
        = some DOWN_SEND ∧
      ((HeatMap.ExchangeMessages s w).2.requests_ CHANNEL.BOTTOM DIRECTION.IN).map Request.tag
        = some DOWN_RECV) := by
  have hreq : ∀ ch p, w.neighbors_ ch = some p →
      ((HeatMap.ExchangeMessages s w).2.requests_ ch DIRECTION.OUT).map Request.tag
        = some (HeatMap.sendTag ch) ∧
      ((HeatMap.ExchangeMessages s w).2.requests_ ch DIRECTION.IN).map Request.tag
        = some (HeatMap.recvTag ch) := by
    intro ch p h
    have e := HeatMap.ExchangeMessages_requests s w ch p h
    rw [e.1, e.2]
    exact ⟨rfl, rfl⟩
  refine ⟨by decide, by decide, by decide, by decide, by decide, by decide, by decide,
    hreq CHANNEL.LEFT, hreq CHANNEL.TOP, hreq CHANNEL.RIGHT, hreq CHANNEL.BOTTOM⟩

/-- C13 (the code departs from the claim on blocks of fewer than two rows or
columns): on a block with at least two rows and two columns
`StandaloneUpdate` calls `CellUpdate` once on every cell of rows `2 .. bh-1`,
columns `2 .. bw-1` and on no other cell.  On a `1 x 3` block and on a
`0 x 3` block, where the claim says no cell at all, it calls
`CellUpdate(2, 2)`: the row counter starts at `2`, beyond `block_height_`, and
wraps around.  On the `1 x 3` block the pass is the two effective calls
`CellUpdate(2, 2)`, `CellUpdate(0, 2)`, and the ghost cell `(2, 2)` of the
other buffer, `0` before, holds `val[BOTTOM] / 10` after. -/
theorem C13_interior_pass_calls (stk : HeatMap.Stack) :
    (∀ bh bw a b : Nat, 2 ≤ bh → bh < UINT_MOD → 2 ≤ bw → bw < UINT_MOD →
      a < UINT_MOD → b < UINT_MOD →
      List.count (a, b) (HeatMap.standaloneCalls bh bw [])
        = if 2 ≤ a ∧ a ≤ bh - 1 ∧ 2 ≤ b ∧ b ≤ bw - 1 then 1 else 0) ∧
    List.count (2, 2) (HeatMap.standaloneCalls 1 3 []) = 1 ∧
    List.count (2, 2) (HeatMap.standaloneCalls 0 3 []) = 1 ∧
    (HeatMap.StandaloneUpdate HeatMap.zeroBlock13 stk).2
      = (HeatMap.CellUpdate (HeatMap.CellUpdate HeatMap.zeroBlock13 2 2 (stk 2 2)).2
          0 2 (stk 0 2)).2 ∧
    HeatMap.cell HeatMap.zeroBlock13 1 2 2 = 0 ∧
    HeatMap.cell (HeatMap.StandaloneUpdate HeatMap.zeroBlock13 stk).2 1 2 2
      = stk 2 2 CHANNEL.BOTTOM / 10 := by
  refine ⟨?_, ?_, ?_, HeatMap.StandaloneUpdate_one_by_three HeatMap.zeroBlock13 stk rfl rfl,
    rfl, ?_⟩
  · intro bh bw a b h2h hbh h2w hbw ha hb
    exact HeatMap.standaloneCalls_regular bh bw a b h2h hbh h2w hbw ha hb
  · rw [HeatMap.standaloneCalls_count 1 3 2 2 (by decide) (by decide) (by decide) (by decide)]
    decide
  · rw [HeatMap.standaloneCalls_count 0 3 2 2 (by decide) (by decide) (by decide) (by decide)]
    decide
  · rw [HeatMap.StandaloneUpdate_ghost_written HeatMap.zeroBlock13 stk rfl rfl rfl]
    unfold HeatMap.cell
    show (0 : ℚ) + 1 / 10 * (0 + stk 2 2 CHANNEL.BOTTOM - 2 * 0) + 1 / 10 * (0 + 0 - 2 * 0) = _
    ring

/-- C18, amended: for `bh, bw ≥ 1` one full iteration (`StandaloneUpdate`
followed by `CollaborativeUpdate`) calls `CellUpdate` at least once on every
owned cell `(a, b)`: none is skipped.  The number of calls is one for each
loop position reaching the cell, `callCount`; on a block with at least two
rows and two columns it is `2` for the four corner cells, which both loops of
`CollaborativeUpdate` reach, and `1` for every other owned cell. -/
theorem C18_owned_cells_updated (bh bw a b : Nat)
    (hbh : bh + 1 < UINT_MOD) (hbw : bw + 1 < UINT_MOD)
    (ha1 : 1 ≤ a) (ha2 : a ≤ bh) (hb1 : 1 ≤ b) (hb2 : b ≤ bw) :
    List.count (a, b) (HeatMap.iterationCalls bh bw) = HeatMap.callCount bh bw a b ∧
    1 ≤ List.count (a, b) (HeatMap.iterationCalls bh bw) ∧
    (2 ≤ bh → 2 ≤ bw →
      List.count (a, b) (HeatMap.iterationCalls bh bw)
        = if (a = 1 ∨ a = bh) ∧ (b = 1 ∨ b = bw) then 2 else 1) := by
  have h := HeatMap.iterationCalls_count bh bw a b hbh hbw ha1 ha2 hb1 hb2
  rw [h]
  unfold HeatMap.callCount
  refine ⟨rfl, ?_, ?_⟩
  · split_ifs <;> omega
  · intro h2h h2w
    split_ifs <;> omega

/-- C18 at the cell `(1, 2)` of a `3 x 3` block: one call. -/
theorem C18_owned_cells_updated_witness :
    List.count (1, 2) (HeatMap.iterationCalls 3 3) = HeatMap.callCount 3 3 1 2 ∧
    1 ≤ List.count (1, 2) (HeatMap.iterationCalls 3 3) ∧
    ((2 : Nat) ≤ 3 → (2 : Nat) ≤ 3 →
      List.count (1, 2) (HeatMap.iterationCalls 3 3)
        = if ((1 : Nat) = 1 ∨ (1 : Nat) = 3) ∧ ((2 : Nat) = 1 ∨ (2 : Nat) = 3) then 2 else 1) :=
  C18_owned_cells_updated 3 3 1 2 (by decide) (by decide) (by decide) (by decide)
    (by decide) (by decide)

/-- C18, the claim as stated fails: on a `3 x 3` block one full iteration
calls `CellUpdate(1, 1)` twice, once in each loop of `CollaborativeUpdate`. -/
theorem C18_corner_updated_twice :
    List.count (1, 1) (HeatMap.iterationCalls 3 3) = 2 := by
  rw [HeatMap.iterationCalls_count 3 3 1 1 (by decide) (by decide) (by decide) (by decide)
    (by decide) (by decide)]
  decide

/-- C14, amended: in a state with a valid working-grid indicator and block
dimensions whose padded extents are representable, `CheckConvergence` returns
`0`; it sets the flag to `1` if and only if there is an owned cell `(i, j)`
for which the difference of its values in the working buffer and in the other
buffer, as the `double` subtraction `dsub` computes it, is in absolute value
less than the threshold `0.001f = 8589935 / 2^33`, and to `0` otherwise.  One
such cell suffices. -/
theorem C14_flag_iff_some_cell_under_threshold (s : HeatMap) (dsub : ℚ → ℚ → ℚ)
    (hw : s.working_grid_ = 0 ∨ s.working_grid_ = 1)
    (hh : s.block_height_ + 2 < UINT_MOD) (hwd : s.block_width_ + 2 < UINT_MOD)
    (val1 val2 : ℚ) :
    (HeatMap.CheckConvergence s dsub val1 val2).1 = 0 ∧
    ((HeatMap.CheckConvergence s dsub val1 val2).2 = 1 ↔
      ∃ i j, (1 ≤ i ∧ i ≤ s.block_height_ ∧ 1 ≤ j ∧ j ≤ s.block_width_) ∧
        |dsub (HeatMap.cell s s.working_grid_ i j) (HeatMap.cell s (1 - s.working_grid_) i j)|
          < 8589935 / 8589934592) ∧
    ((HeatMap.CheckConvergence s dsub val1 val2).2 ≠ 1 →
      (HeatMap.CheckConvergence s dsub val1 val2).2 = 0) := by
  have h := HeatMap.CheckConvergence_eq s dsub hw hh hwd val1 val2
  by_cases hex : ∃ i j, HeatMap.Owned s i j ∧ HeatMap.UnderEpsilon s dsub i j
  · rw [h.1 hex]
    exact ⟨rfl, ⟨fun _ => hex, fun _ => rfl⟩, fun hne => absurd rfl hne⟩
  · rw [h.2 hex]
    refine ⟨rfl, ⟨fun h01 => ?_, fun hex1 => absurd hex1 hex⟩, fun _ => rfl⟩
    exact absurd h01 (by decide)

/-- C14 on a `2 x 2` block where the owned cell `(1, 1)` holds `0` in both
buffers and the owned cell `(2, 2)` holds `1` and `5`, with exact
subtraction: the flag is set although the cell `(2, 2)` differs by `4`. -/
theorem C14_flag_iff_some_cell_under_threshold_witness :
    (HeatMap.CheckConvergence HeatMap.mixedBlock22 (fun a b => a - b) 0 0).2 = 1 ∧
    |HeatMap.cell HeatMap.mixedBlock22 0 2 2 - HeatMap.cell HeatMap.mixedBlock22 1 2 2| = 4 := by
  have e11 : HeatMap.cellOffset HeatMap.mixedBlock22 1 1 = 5 := by decide
  have e22 : HeatMap.cellOffset HeatMap.mixedBlock22 2 2 = 10 := by decide
  refine ⟨(C14_flag_iff_some_cell_under_threshold HeatMap.mixedBlock22 (fun a b => a - b)
    (Or.inl rfl) (by decide) (by decide) 0 0).2.1.mpr ⟨1, 1, by decide, ?_⟩, ?_⟩
  · rw [HeatMap.cell_eq, HeatMap.cell_eq, e11]
    show |(if (0 : Int) = 0 then (if (5 : Nat) = 10 then (1 : ℚ) else 0)
        else (if (5 : Nat) = 6 ∨ (5 : Nat) = 9 ∨ (5 : Nat) = 10 then 5 else 0))
      - (if (1 - 0 : Int) = 0 then (if (5 : Nat) = 10 then (1 : ℚ) else 0)
        else (if (5 : Nat) = 6 ∨ (5 : Nat) = 9 ∨ (5 : Nat) = 10 then 5 else 0))|
      < 8589935 / 8589934592
    norm_num
  · rw [HeatMap.cell_eq, HeatMap.cell_eq, e22]
    show |(if (0 : Int) = 0 then (if (10 : Nat) = 10 then (1 : ℚ) else 0)
        else (if (10 : Nat) = 6 ∨ (10 : Nat) = 9 ∨ (10 : Nat) = 10 then 5 else 0))
      - (if (1 : Int) = 0 then (if (10 : Nat) = 10 then (1 : ℚ) else 0)
        else (if (10 : Nat) = 6 ∨ (10 : Nat) = 9 ∨ (10 : Nat) = 10 then 5 else 0))| = 4
    norm_num

/-- C14, the claim as stated fails: on a `1 x 1` block whose owned cell holds
the `double` nearest to `0.001` in the working buffer and `0` in the other
buffer (the subtraction of `0` is exact), no owned cell differs by less than
`1/1000`, yet `CheckConvergence` sets the flag: the difference is below the
threshold `0.001f` the code compares with. -/
theorem C14_flag_set_at_one_thousandth :
    (HeatMap.CheckConvergence HeatMap.thousandthBlock11 (fun a b => a - b) 0 0).2 = 1 ∧
    (¬ ∃ i j, (1 ≤ i ∧ i ≤ HeatMap.thousandthBlock11.block_height_ ∧
        1 ≤ j ∧ j ≤ HeatMap.thousandthBlock11.block_width_) ∧
      |HeatMap.cell HeatMap.thousandthBlock11 HeatMap.thousandthBlock11.working_grid_ i j
        - HeatMap.cell HeatMap.thousandthBlock11
            (1 - HeatMap.thousandthBlock11.working_grid_) i j| < 1 / 1000) ∧
    |HeatMap.cell HeatMap.thousandthBlock11 0 1 1 - HeatMap.cell HeatMap.thousandthBlock11 1 1 1|
      = 1152921504606847 / 1152921504606846976 := by
  have e11 : HeatMap.cellOffset HeatMap.thousandthBlock11 1 1 = 4 := by decide
  have hdiff : |HeatMap.cell HeatMap.thousandthBlock11 0 1 1
      - HeatMap.cell HeatMap.thousandthBlock11 1 1 1|
        = 1152921504606847 / 1152921504606846976 := by
    rw [HeatMap.cell_eq, HeatMap.cell_eq, e11]
    show |(if (0 : Int) = 0 ∧ (4 : Nat) = 4 then
          (1152921504606847 / 1152921504606846976 : ℚ) else 0)
        - (if (1 : Int) = 0 ∧ (4 : Nat) = 4 then
          (1152921504606847 / 1152921504606846976 : ℚ) else 0)| = _
    norm_num
  have hunder : HeatMap.UnderEpsilon HeatMap.thousandthBlock11 (fun a b => a - b) 1 1 := by
    show |HeatMap.cell HeatMap.thousandthBlock11 0 1 1
      - HeatMap.cell HeatMap.thousandthBlock11 (1 - 0) 1 1| < HeatMap.EPSILON
    have e : (1 - 0 : Int) = 1 := rfl
    rw [e, hdiff]
    unfold HeatMap.EPSILON
    norm_num
  have hflag := (HeatMap.CheckConvergence_eq HeatMap.thousandthBlock11 (fun a b => a - b)
    (Or.inl rfl) (by decide) (by decide) 0 0).1
    ⟨1, 1, ⟨le_refl 1, le_refl 1, le_refl 1, le_refl 1⟩, hunder⟩
  refine ⟨by rw [hflag], ?_, hdiff⟩
  rintro ⟨i, j, ⟨hi1, hi2, hj1, hj2⟩, hlt⟩
  have hi : i = 1 := le_antisymm hi2 hi1
  have hj : j = 1 := le_antisymm hj2 hj1
  subst hi
  subst hj
  have e0 : HeatMap.thousandthBlock11.working_grid_ = 0 := rfl
  have e : (1 - 0 : Int) = 1 := rfl
  rw [e0, e, hdiff] at hlt
  norm_num at hlt

/-- C15: for every non-empty list of local flags that are each `0` or `1`,
`ReduceConvergenceCheck` (the minimum over the flags of all workers,
delivered to every worker) returns status `0` and yields a global flag that
is `1` if and only if every local flag is `1`, and `0` otherwise: the
logical AND of the flags. -/
theorem C15_reduction_is_logical_and (flags : List Int) (hne : flags ≠ [])
    (h01 : ∀ f ∈ flags, f = 0 ∨ f = 1) :
    (MPIWrapper.ReduceConvergenceCheck flags hne).1 = 0 ∧
    ((MPIWrapper.ReduceConvergenceCheck flags hne).2 = 1 ↔ ∀ f ∈ flags, f = 1) ∧
    ((¬ ∀ f ∈ flags, f = 1) → (MPIWrapper.ReduceConvergenceCheck flags hne).2 = 0) := by
  cases flags with
  | nil => exact absurd rfl hne
  | cons x t =>
    have h := foldl_min_flags t x (h01 x (List.mem_cons_self _ _))
      (fun f hf => h01 f (List.mem_cons_of_mem _ hf))
    have e : (MPIWrapper.ReduceConvergenceCheck (x :: t) hne).2 = t.foldl min x := rfl
    have hiff : (t.foldl min x = 1 ↔ ∀ f ∈ x :: t, f = 1) := by
      rw [h.2]
      simp only [List.mem_cons, forall_eq_or_imp]
    rw [e]
    refine ⟨rfl, hiff, fun hn => ?_⟩
    rcases h.1 with h0 | h1
    · exact h0
    · exact absurd (hiff.mp h1) hn

/-- C15 on three workers with flags `1, 0, 1`: the global flag is `0`. -/
theorem C15_reduction_is_logical_and_witness :
    (MPIWrapper.ReduceConvergenceCheck [1, 0, 1] (by decide)).2 = 0 :=
  (C15_reduction_is_logical_and [1, 0, 1] (by decide) (by decide)).2.2 (by decide)

/-- C19 (the code departs from the claim when the first set flag comes from
the last iteration).  For every environment of the run, with `g k` the global
flag the reduction of iteration `k` delivers: if `k < steps` is the first
iteration with a set flag, exactly the iterations `0 .. k` are executed, and
the root (rank 0) emits the report with count `k + 1` if `k + 1 < steps`; if
`k + 1 = steps` no report is emitted.  If no reduction delivers a set flag,
exactly `steps` iterations are executed and no report is emitted.  A run of `3`
steps of the root whose reductions deliver `0, 0, 1` executes `3` iterations
and emits no report. -/
theorem C19_no_report_after_last_iteration (env : hybrid.RunEnv) (steps : Nat) (hm : HeatMap)
    (w : MPIWrapper) :
    (∀ k, k < steps → (∀ m, m < k → hybrid.globalFlag env steps hm w m = 0) →
      hybrid.globalFlag env steps hm w k ≠ 0 →
      List.countP hybrid.RunEvent.isStencil (hybrid.Run env steps hm w).events = k + 1 ∧
      (∀ i, hybrid.RunEvent.stencil i ∈ (hybrid.Run env steps hm w).events ↔ i ≤ k) ∧
      (k + 1 < steps → w.rank_ = 0 →
        List.countP hybrid.RunEvent.isReport (hybrid.Run env steps hm w).events = 1 ∧
        hybrid.RunEvent.report (k + 1) ∈ (hybrid.Run env steps hm w).events) ∧
      (k + 1 = steps →
        List.countP hybrid.RunEvent.isReport (hybrid.Run env steps hm w).events = 0)) ∧
    ((∀ k, k < steps → hybrid.globalFlag env steps hm w k = 0) →
      List.countP hybrid.RunEvent.isStencil (hybrid.Run env steps hm w).events = steps ∧
      List.countP hybrid.RunEvent.isReport (hybrid.Run env steps hm w).events = 0) ∧
    (hybrid.globalFlag (hybrid.flagsEnv (fun i => if i = 2 then 1 else 0)) 3
        HeatMap.zeroBlock22 (MPIWrapper.solo 2 2) 0 = 0 ∧
      hybrid.globalFlag (hybrid.flagsEnv (fun i => if i = 2 then 1 else 0)) 3
        HeatMap.zeroBlock22 (MPIWrapper.solo 2 2) 1 = 0 ∧
      hybrid.globalFlag (hybrid.flagsEnv (fun i => if i = 2 then 1 else 0)) 3
        HeatMap.zeroBlock22 (MPIWrapper.solo 2 2) 2 = 1 ∧
      (MPIWrapper.solo 2 2).rank_ = 0 ∧
      List.countP hybrid.RunEvent.isStencil
        (hybrid.Run (hybrid.flagsEnv (fun i => if i = 2 then 1 else 0)) 3
          HeatMap.zeroBlock22 (MPIWrapper.solo 2 2)).events = 3 ∧
      List.countP hybrid.RunEvent.isReport
        (hybrid.Run (hybrid.flagsEnv (fun i => if i = 2 then 1 else 0)) 3
          HeatMap.zeroBlock22 (MPIWrapper.solo 2 2)).events = 0) := by
  have conv : ∀ (env1 : hybrid.RunEnv) (steps1 : Nat) (hm1 : HeatMap) (w1 : MPIWrapper) (k : Nat),
      k < steps1 → (∀ m, m < k → hybrid.globalFlag env1 steps1 hm1 w1 m = 0) →
      hybrid.globalFlag env1 steps1 hm1 w1 k ≠ 0 →
      List.countP hybrid.RunEvent.isStencil (hybrid.Run env1 steps1 hm1 w1).events = k + 1 ∧
      (∀ i, hybrid.RunEvent.stencil i ∈ (hybrid.Run env1 steps1 hm1 w1).events ↔ i ≤ k) ∧
      (k + 1 < steps1 → w1.rank_ = 0 →
        List.countP hybrid.RunEvent.isReport (hybrid.Run env1 steps1 hm1 w1).events = 1 ∧
        hybrid.RunEvent.report (k + 1) ∈ (hybrid.Run env1 steps1 hm1 w1).events) ∧
      (k + 1 = steps1 →
        List.countP hybrid.RunEvent.isReport (hybrid.Run env1 steps1 hm1 w1).events = 0) := by
    intro env1 steps1 hm1 w1 k hk hfirst hset
    have hrun := hybrid.Run_converged env1 steps1 hm1 w1 k hk hfirst hset
    have hc := hybrid.runIterations_counts env1 (Nat.sqrt steps1)
      (hybrid.RunState.mk hm1 w1 0 0 []) rfl (k + 1)
    have hmem := hybrid.runIterations_members env1 (Nat.sqrt steps1)
      (hybrid.RunState.mk hm1 w1 0 0 []) rfl (k + 1)
    have hrank := hybrid.runIterations_rank env1 (Nat.sqrt steps1)
      (hybrid.RunState.mk hm1 w1 0 0 []) (k + 1)
    rw [hrun]
    by_cases hlast : k + 1 < steps1
    · rw [if_pos hlast, hybrid.reportConvergence_events, hrank]
      show _ ∧ _ ∧ (k + 1 < steps1 → w1.rank_ = 0 → _) ∧ _
      by_cases hr : w1.rank_ = 0
      · rw [if_pos hr]
        refine ⟨?_, ?_, ?_, ?_⟩
        · simp [List.countP_append, hybrid.RunEvent.isStencil, hc.1]
        · intro i
          simp [hmem.1 i]
          omega
        · intro _ _
          constructor
          · simp [List.countP_append, hybrid.RunEvent.isReport, hc.2.2.1]
          · simp
        · intro he
          omega
      · rw [if_neg hr]
        refine ⟨hc.1, ?_, ?_, ?_⟩
        · intro i
          rw [hmem.1 i]
          omega
        · intro _ h0
          exact absurd h0 hr
        · intro he
          omega
    · rw [if_neg hlast]
      refine ⟨hc.1, ?_, ?_, ?_⟩
      · intro i
        rw [hmem.1 i]
        omega
      · intro h1
        exact absurd h1 hlast
      · intro _
        exact hc.2.2.1
  refine ⟨conv env steps hm w, ?_, rfl, rfl, rfl, rfl, ?_⟩
  · intro hnone
    rw [hybrid.Run_not_converged env steps hm w hnone]
    have hc := hybrid.runIterations_counts env (Nat.sqrt steps)
      (hybrid.RunState.mk hm w 0 0 []) rfl steps
    exact ⟨hc.1, hc.2.2.1⟩
  · have h := conv (hybrid.flagsEnv (fun i => if i = 2 then 1 else 0)) 3 HeatMap.zeroBlock22
      (MPIWrapper.solo 2 2) 2 (by decide)
      (fun m hm2 => by
        rw [hybrid.globalFlag_flagsEnv]
        exact if_neg (by omega))
      (by
        rw [hybrid.globalFlag_flagsEnv]
        decide)
    exact ⟨h.1, h.2.2.2 rfl⟩

/-- C23: the modulus `i % convergence_check` of `Run` is never evaluated with
a zero divisor.  Every evaluation in a run has the divisor `⌊√steps⌋`, and an
evaluation takes place only if `steps ≥ 1`, where `⌊√steps⌋ ≥ 1`; with
`steps = 0` the loop body is never executed and nothing is called. -/
theorem C23_modulus_divisor_positive (env : hybrid.RunEnv) (steps : Nat) (hm : HeatMap)
    (w : MPIWrapper) :
    (∀ i d, hybrid.RunEvent.modulus i d ∈ (hybrid.Run env steps hm w).events →
      d = Nat.sqrt steps ∧ 1 ≤ d ∧ 1 ≤ steps) ∧
    (1 ≤ steps → 1 ≤ Nat.sqrt steps) ∧
    (hybrid.Run env 0 hm w).events = [] := by
  refine ⟨?_, fun h => Nat.sqrt_pos.mpr h, rfl⟩
  intro i d hmem
  obtain ⟨n, hn, _, _, _, _, h5, _⟩ := hybrid.Run_record env steps hm w
  have h := (h5 i d).mp hmem
  have hs : 1 ≤ steps := by omega
  refine ⟨h.2, ?_, hs⟩
  rw [h.2]
  exact Nat.sqrt_pos.mpr hs

/-- C17: the initial field does not depend on the decomposition, with every
product taken in `unsigned int` arithmetic (modulo `2^32`).  On an `H x W`
grid whose padded element count is representable, split on a `d0 x d1`
topology, the value `Init` stores on the worker at `(cx, cy)` for its owned
cell `(i, j)`, whose global coordinate is
`(cx*(H/d0) + i - 1, cy*(W/d1) + j - 1)`, is the value `Init` stores on a
single worker (`1 x 1` topology) for the cell at that global coordinate, which
is also the value `InitGrid` of the single-node variant stores there. -/
theorem C17_initial_field_decomposition_independent (mem memS : Int → Nat → ℚ)
    (memC : Nat → ℚ) (w : MPIWrapper) (H W d0 d1 cx cy i j steps : Nat)
    (hsize : (H + 2) * (W + 2) < UINT_MOD) (h0 : d0 ∣ H) (h1 : d1 ∣ W)
    (hth : w.topology_height_ = (d0 : Int)) (htw : w.topology_width_ = (d1 : Int))
    (hx : w.topology_coord_x_ = (cx : Int)) (hy : w.topology_coord_y_ = (cy : Int))
    (hcx : cx < d0) (hcy : cy < d1)
    (hi1 : 1 ≤ i) (hi2 : i ≤ H / d0) (hj1 : 1 ≤ j) (hj2 : j ≤ W / d1) :
    HeatMap.cell (HeatMap.Init (HeatMap.new mem) ((H / d0 : Nat) : Int) ((W / d1 : Nat) : Int)
        w).2 0 i j
      = HeatMap.cell (HeatMap.Init (HeatMap.new memS) (H : Int) (W : Int)
          (MPIWrapper.solo (H : Int) (W : Int))).2 0 (cx * (H / d0) + i) (cy * (W / d1) + j) ∧
    HeatMap.cell (HeatMap.Init (HeatMap.new memS) (H : Int) (W : Int)
        (MPIWrapper.solo (H : Int) (W : Int))).2 0 (cx * (H / d0) + i) (cy * (W / d1) + j)
      = (cuda.HeatTransfer.Init memC H W steps).2.grid_
          ((cx * (H / d0) + i - 1) * W + (cy * (W / d1) + j - 1)) ∧
    HeatMap.cell (HeatMap.Init (HeatMap.new mem) ((H / d0 : Nat) : Int) ((W / d1 : Nat) : Int)
        w).2 0 i j
      = ((HeatMap.initVal H W 0 0 (cx * (H / d0) + i) (cy * (W / d1) + j) : Nat) : ℚ) := by
  have hd := HeatMap.dims_lt hsize
  have hq0 : d0 * (H / d0) = H := Nat.mul_div_cancel' h0
  have hq1 : d1 * (W / d1) = W := Nat.mul_div_cancel' h1
  have hx1 : (cx + 1) * (H / d0) ≤ d0 * (H / d0) := Nat.mul_le_mul_right _ hcx
  have hx2 : (cx + 1) * (H / d0) = cx * (H / d0) + H / d0 := by ring
  have hy1 : (cy + 1) * (W / d1) ≤ d1 * (W / d1) := Nat.mul_le_mul_right _ hcy
  have hy2 : (cy + 1) * (W / d1) = cy * (W / d1) + W / d1 := by ring
  have hbh : H / d0 ≤ H := Nat.div_le_self _ _
  have hbw : W / d1 ≤ W := Nat.div_le_self _ _
  have tH : toUInt (H : Int) = H := by rw [toUInt_natCast, u32_of_lt (by omega)]
  have tW : toUInt (W : Int) = W := by rw [toUInt_natCast, u32_of_lt (by omega)]
  have tbh : toUInt ((H / d0 : Nat) : Int) = H / d0 := by
    rw [toUInt_natCast, u32_of_lt (by omega)]
  have tbw : toUInt ((W / d1 : Nat) : Int) = W / d1 := by
    rw [toUInt_natCast, u32_of_lt (by omega)]
  have hsz : (H / d0 + 2) * (W / d1 + 2) < UINT_MOD :=
    lt_of_le_of_lt (Nat.mul_le_mul (by omega) (by omega)) hsize
  have hHW : H * W < UINT_MOD :=
    lt_of_le_of_lt (Nat.mul_le_mul (by omega) (by omega)) hsize
  have one : ∀ n : Nat, HeatMap.imul (1 : Int) n = u32 n := by
    intro n
    show u32 (toUInt 1 * n) = u32 n
    have e : toUInt 1 = 1 := by decide
    rw [e, Nat.one_mul]
  have zero : ∀ n : Nat, HeatMap.imul (0 : Int) n = 0 := by
    intro n
    show u32 (toUInt 0 * n) = 0
    have e : toUInt 0 = 0 := by decide
    rw [e, Nat.zero_mul]
    rfl
  have hsplit : HeatMap.cell (HeatMap.Init (HeatMap.new mem) ((H / d0 : Nat) : Int)
        ((W / d1 : Nat) : Int) w).2 0 i j
      = ((HeatMap.initVal H W 0 0 (cx * (H / d0) + i) (cy * (W / d1) + j) : Nat) : ℚ) := by
    rw [HeatMap.Init_owned (HeatMap.new mem) _ _ w (by rw [tbh, tbw]; exact hsz) hi1
      (by rw [tbh]; exact hi2) hj1 (by rw [tbw]; exact hj2), tbh, tbw, hth, htw, hx, hy,
      initVal_decomposition (H / d0) (W / d1) d0 d1 cx cy i j (by omega) (by omega) hcx hcy
        hi1 hi2 hj1 hj2, hq0, hq1]
  have hsolo : HeatMap.cell (HeatMap.Init (HeatMap.new memS) (H : Int) (W : Int)
        (MPIWrapper.solo (H : Int) (W : Int))).2 0 (cx * (H / d0) + i) (cy * (W / d1) + j)
      = ((HeatMap.initVal H W 0 0 (cx * (H / d0) + i) (cy * (W / d1) + j) : Nat) : ℚ) := by
    rw [HeatMap.Init_owned (HeatMap.new memS) _ _ _ (by rw [tH, tW]; exact hsize)
      (show 1 ≤ cx * (H / d0) + i by omega) (by rw [tH]; omega)
      (show 1 ≤ cy * (W / d1) + j by omega) (by rw [tW]; omega), tH, tW]
    show ((HeatMap.initVal (HeatMap.imul 1 H) (HeatMap.imul 1 W) (HeatMap.imul 0 H)
      (HeatMap.imul 0 W) (cx * (H / d0) + i) (cy * (W / d1) + j) : Nat) : ℚ) = _
    rw [one, one, zero, zero, u32_of_lt (by omega), u32_of_lt (by omega)]
  have hcuda : (cuda.HeatTransfer.Init memC H W steps).2.grid_
        ((cx * (H / d0) + i - 1) * W + (cy * (W / d1) + j - 1))
      = ((HeatMap.initVal H W 0 0 (cx * (H / d0) + i) (cy * (W / d1) + j) : Nat) : ℚ) := by
    have h := cuda.InitGrid_cell (cuda.HeatTransfer.mk steps H W memC) hHW
      (show cx * (H / d0) + i - 1 < H by omega) (show cy * (W / d1) + j - 1 < W by omega)
    have e1 : cx * (H / d0) + i - 1 + 1 = cx * (H / d0) + i := by omega
    have e2 : cy * (W / d1) + j - 1 + 1 = cy * (W / d1) + j := by omega
    rw [cuda.gridVal_eq_initVal H W _ _ (by omega) (by omega), e1, e2] at h
    exact h
  exact ⟨hsplit.trans hsolo.symm, hsolo.trans hcuda.symm, hsplit⟩

/-- C17 on a `6 x 4` grid split on a `3 x 2` topology: the worker at `(2, 1)`
and its owned cell `(2, 2)`, at the global coordinate `(5, 3)`. -/
theorem C17_initial_field_decomposition_independent_witness :
    HeatMap.cell (HeatMap.Init (HeatMap.new (fun _ _ => 0)) ((6 / 3 : Nat) : Int)
        ((4 / 2 : Nat) : Int)
        (MPIWrapper.mk 5 6 3 2 2 1 2 2 (fun _ => none) (fun _ _ => none)
          Datatype.MPI_DOUBLE)).2 0 2 2
      = HeatMap.cell (HeatMap.Init (HeatMap.new (fun _ _ => 0)) ((6 : Nat) : Int) ((4 : Nat) : Int)
          (MPIWrapper.solo ((6 : Nat) : Int) ((4 : Nat) : Int))).2 0 (2 * (6 / 3) + 2)
            (1 * (4 / 2) + 2) :=
  (C17_initial_field_decomposition_independent (fun _ _ => 0) (fun _ _ => 0) (fun _ => 0)
    (MPIWrapper.mk 5 6 3 2 2 1 2 2 (fun _ => none) (fun _ _ => none) Datatype.MPI_DOUBLE)
    6 4 3 2 2 1 2 2 0 (by decide) (by decide) (by decide) rfl rfl rfl rfl (by decide) (by decide)
    (by decide) (by decide) (by decide) (by decide)).1

/-- C21, amended: `CellUpdate` does not check the status of its accessor
calls.  In every state and for every `(i, j)` it returns `0`.  A failing
`GetCellValue` leaves its output as it was, and the computation goes on with
that content.  `CellUpdate` leaves the state as it is exactly when its
`SetCellValue` call fails, that is when `(i, j)` is outside the padded extent
or the working-grid indicator is not `0` or `1`; otherwise it writes `new_val`
to the cell `(i, j)` of the other buffer, whether or not a read has failed. -/
theorem C21_accessor_status_discarded (s : HeatMap) (i j : Nat) (val : CHANNEL → ℚ) :
    (HeatMap.CellUpdate s i j val).1 = 0 ∧
    (∀ (a b : Nat) (g : Int) (v : ℚ), (HeatMap.GetCellValue s a b g v).1 ≠ 0 →
      (HeatMap.GetCellValue s a b g v).2 = v) ∧
    ((HeatMap.SetCellValue s i j (1 - s.working_grid_) (HeatMap.new_val s i j val)).1 ≠ 0 ↔
      (u32 (s.block_height_ + 2) ≤ i ∨ u32 (s.block_width_ + 2) ≤ j
        ∨ ¬ (s.working_grid_ = 0 ∨ s.working_grid_ = 1))) ∧
    ((u32 (s.block_height_ + 2) ≤ i ∨ u32 (s.block_width_ + 2) ≤ j
        ∨ ¬ (s.working_grid_ = 0 ∨ s.working_grid_ = 1)) →
      (HeatMap.CellUpdate s i j val).2 = s) ∧
    (i < u32 (s.block_height_ + 2) → j < u32 (s.block_width_ + 2) →
      (s.working_grid_ = 0 ∨ s.working_grid_ = 1) →
      (HeatMap.CellUpdate s i j val).2
        = HeatMap.store s (1 - s.working_grid_) (HeatMap.cellOffset s i j)
            (HeatMap.new_val s i j val)) := by
  refine ⟨rfl, ?_, ?_, fun h => HeatMap.CellUpdate_oob s val h,
    fun hi hj hw => HeatMap.CellUpdate_inb s val hi hj hw⟩
  · intro a b g v hne
    by_cases hin : a < u32 (s.block_height_ + 2) ∧ b < u32 (s.block_width_ + 2)
        ∧ (g = 0 ∨ g = 1)
    · rw [HeatMap.GetCellValue_ok s v hin.1 hin.2.1 hin.2.2] at hne
      exact absurd rfl hne
    · rw [HeatMap.GetCellValue_fail s v (by omega)]
  · by_cases hin : i < u32 (s.block_height_ + 2) ∧ j < u32 (s.block_width_ + 2)
        ∧ (s.working_grid_ = 0 ∨ s.working_grid_ = 1)
    · rw [HeatMap.SetCellValue_ok s _ hin.1 hin.2.1 (by omega)]
      constructor
      · intro hne
        exact absurd rfl hne
      · intro h
        omega
    · rw [HeatMap.SetCellValue_fail s _ (by omega)]
      have h10 : (1 : Int) ≠ 0 := by decide
      constructor
      · intro _
        omega
      · intro _
        exact h10

/-- C21, the claim as stated fails: on the `1 x 3` zero block, with the
uninitialised locals holding `1`, the call `CellUpdate(0, 2)` has its read of
row `i - 1` fail (status `1`), yet it returns `0` and the cell `(0, 2)` of the
other buffer goes from `0` to `1/10`. -/
theorem C21_failed_read_still_writes :
    (HeatMap.GetCellValue HeatMap.zeroBlock13 (usub 0 1) 2 0 1).1 = 1 ∧
    (HeatMap.CellUpdate HeatMap.zeroBlock13 0 2 (fun _ => 1)).1 = 0 ∧
    HeatMap.cell HeatMap.zeroBlock13 1 0 2 = 0 ∧
    HeatMap.cell (HeatMap.CellUpdate HeatMap.zeroBlock13 0 2 (fun _ => 1)).2 1 0 2 = 1 / 10 := by
  have h := HeatMap.CellUpdate_row_zero (fun _ => 1)
  refine ⟨?_, rfl, rfl, h.2⟩
  rw [h.1]

/-- C22 (the code departs from the last sentence of the claim on blocks with
fewer than two rows or columns).  In exact rational arithmetic, on a
representable block with a valid working-grid indicator and for an owned cell
`(i, j)` (the cells whose four neighbours are inside the padded extent), the
value `CellUpdate(i, j)` writes is
`6/10*old(i,j) + 1/10*(old(i-1,j) + old(i+1,j) + old(i,j-1) + old(i,j+1))`
and lies between the minimum and the maximum of these five values.  On a
block with at least two rows and two columns a full sweep leaves every ghost
cell of the other buffer as it was and puts every owned cell of the other
buffer between any bounds of the padded working buffer.  On the `1 x 3` grid
of one worker after `Init` the padded working buffer lies between `0` and `4`
and the other buffer is zero, yet after one pass of the pipeline the ghost
cell `(2, 2)` of the new working buffer holds `(4 + val[BOTTOM]) / 10`, which
is `52/5` for `val[BOTTOM] = 100`: the row counter of `StandaloneUpdate`
wraps around and `CellUpdate(2, 2)` writes the ghost cell from an
uninitialised local. -/
theorem C22_sweep_exceeds_bounds_on_thin_block (mem : Int → Nat → ℚ) (stk : HeatMap.Stack)
    (incoming : CHANNEL → Nat → ℚ) :
    (∀ (s : HeatMap) (val : CHANNEL → ℚ) (i j : Nat),
      (s.block_height_ + 2) * (s.block_width_ + 2) < UINT_MOD →
      (s.working_grid_ = 0 ∨ s.working_grid_ = 1) →
      1 ≤ i → i ≤ s.block_height_ → 1 ≤ j → j ≤ s.block_width_ →
      HeatMap.cell (HeatMap.CellUpdate s i j val).2 (1 - s.working_grid_) i j
        = 6 / 10 * HeatMap.cell s s.working_grid_ i j
          + 1 / 10 * (HeatMap.cell s s.working_grid_ (i - 1) j
            + HeatMap.cell s s.working_grid_ (i + 1) j
            + HeatMap.cell s s.working_grid_ i (j - 1)
            + HeatMap.cell s s.working_grid_ i (j + 1)) ∧
      min (min (min (min (HeatMap.cell s s.working_grid_ i j)
            (HeatMap.cell s s.working_grid_ (i - 1) j))
            (HeatMap.cell s s.working_grid_ (i + 1) j))
            (HeatMap.cell s s.working_grid_ i (j - 1)))
            (HeatMap.cell s s.working_grid_ i (j + 1))
        ≤ HeatMap.cell (HeatMap.CellUpdate s i j val).2 (1 - s.working_grid_) i j ∧
      HeatMap.cell (HeatMap.CellUpdate s i j val).2 (1 - s.working_grid_) i j
        ≤ max (max (max (max (HeatMap.cell s s.working_grid_ i j)
            (HeatMap.cell s s.working_grid_ (i - 1) j))
            (HeatMap.cell s s.working_grid_ (i + 1) j))
            (HeatMap.cell s s.working_grid_ i (j - 1)))
            (HeatMap.cell s s.working_grid_ i (j + 1))) ∧
    (∀ (s : HeatMap) (stk1 stk2 : HeatMap.Stack) (m M : ℚ),
      (s.block_height_ + 2) * (s.block_width_ + 2) < UINT_MOD →
      (s.working_grid_ = 0 ∨ s.working_grid_ = 1) →
      2 ≤ s.block_height_ → 2 ≤ s.block_width_ →
      (∀ a b, a < s.block_height_ + 2 → b < s.block_width_ + 2 →
        m ≤ HeatMap.cell s s.working_grid_ a b ∧ HeatMap.cell s s.working_grid_ a b ≤ M) →
      ∀ a b, a < s.block_height_ + 2 → b < s.block_width_ + 2 →
        ((a = 0 ∨ a = s.block_height_ + 1 ∨ b = 0 ∨ b = s.block_width_ + 1) →
          HeatMap.cell
              (HeatMap.CollaborativeUpdate (HeatMap.StandaloneUpdate s stk1).2 stk2).2
              (1 - s.working_grid_) a b
            = HeatMap.cell s (1 - s.working_grid_) a b) ∧
        ((1 ≤ a ∧ a ≤ s.block_height_ ∧ 1 ≤ b ∧ b ≤ s.block_width_) →
          m ≤ HeatMap.cell
              (HeatMap.CollaborativeUpdate (HeatMap.StandaloneUpdate s stk1).2 stk2).2
              (1 - s.working_grid_) a b ∧
          HeatMap.cell
              (HeatMap.CollaborativeUpdate (HeatMap.StandaloneUpdate s stk1).2 stk2).2
              (1 - s.working_grid_) a b ≤ M)) ∧
    (∀ a b, a < 3 → b < 5 →
      (0 ≤ HeatMap.cell (HeatMap.Init (HeatMap.new mem) 1 3 (MPIWrapper.solo 1 3)).2 0 a b ∧
        HeatMap.cell (HeatMap.Init (HeatMap.new mem) 1 3 (MPIWrapper.solo 1 3)).2 0 a b ≤ 4) ∧
      HeatMap.cell (HeatMap.Init (HeatMap.new mem) 1 3 (MPIWrapper.solo 1 3)).2 1 a b = 0) ∧
    (HeatMap.Init (HeatMap.new mem) 1 3 (MPIWrapper.solo 1 3)).2.working_grid_ = 0 ∧
    (HeatMap.pipelineStep
        ((HeatMap.Init (HeatMap.new mem) 1 3 (MPIWrapper.solo 1 3)).2, MPIWrapper.solo 1 3)
        stk incoming).1.working_grid_ = 1 ∧
    HeatMap.cell (HeatMap.pipelineStep
        ((HeatMap.Init (HeatMap.new mem) 1 3 (MPIWrapper.solo 1 3)).2, MPIWrapper.solo 1 3)
        stk incoming).1 1 2 2 = (4 + stk 2 2 CHANNEL.BOTTOM) / 10 ∧
    HeatMap.cell (HeatMap.pipelineStep
        ((HeatMap.Init (HeatMap.new mem) 1 3 (MPIWrapper.solo 1 3)).2, MPIWrapper.solo 1 3)
        (fun _ _ _ => 100) incoming).1 1 2 2 = 52 / 5 := by
  refine ⟨?_, ?_, fun a b ha hb => HeatMap.Init_one_by_three_cells mem a b ha hb,
    (HeatMap.Init_fields (HeatMap.new mem) 1 3 (MPIWrapper.solo 1 3)).2.1,
    (HeatMap.pipeline_one_by_three_ghost mem stk incoming).1,
    (HeatMap.pipeline_one_by_three_ghost mem stk incoming).2, ?_⟩
  · intro s val i j hsize hw hi1 hi2 hj1 hj2
    have hone := HeatMap.CellUpdate_writes s hsize hw hi1 hi2 hj1 hj2 val
    rw [HeatMap.jacobi_weighted] at hone
    have hb := HeatMap.weighted_bounds (HeatMap.cell s s.working_grid_ i j)
      (HeatMap.cell s s.working_grid_ (i - 1) j) (HeatMap.cell s s.working_grid_ (i + 1) j)
      (HeatMap.cell s s.working_grid_ i (j - 1)) (HeatMap.cell s s.working_grid_ i (j + 1))
      (min (min (min (min (HeatMap.cell s s.working_grid_ i j)
            (HeatMap.cell s s.working_grid_ (i - 1) j))
            (HeatMap.cell s s.working_grid_ (i + 1) j))
            (HeatMap.cell s s.working_grid_ i (j - 1)))
            (HeatMap.cell s s.working_grid_ i (j + 1)))
      (max (max (max (max (HeatMap.cell s s.working_grid_ i j)
            (HeatMap.cell s s.working_grid_ (i - 1) j))
            (HeatMap.cell s s.working_grid_ (i + 1) j))
            (HeatMap.cell s s.working_grid_ i (j - 1)))
            (HeatMap.cell s s.working_grid_ i (j + 1)))
      ⟨by simp [min_le_iff], by simp [le_max_iff]⟩
      ⟨by simp [min_le_iff], by simp [le_max_iff]⟩
      ⟨by simp [min_le_iff], by simp [le_max_iff]⟩
      ⟨by simp [min_le_iff], by simp [le_max_iff]⟩
      ⟨by simp [min_le_iff], by simp [le_max_iff]⟩
    refine ⟨hone, ?_, ?_⟩
    · rw [hone]
      exact hb.1
    · rw [hone]
      exact hb.2
  · intro s stk1 stk2 m M hsize hw h2h h2w hbound a b ha hb
    exact HeatMap.sweep_padded s stk1 stk2 hsize hw h2h h2w m M hbound a b ha hb
  · rw [(HeatMap.pipeline_one_by_three_ghost mem (fun _ _ _ => 100) incoming).2]
    norm_num

end heat_transfer
